import Mathlib

/-!
# dmlog: severity order, sinks and the message dispatcher

A shallow embedding of the Go package `dmlog` (files `log.go`, `log_format.go`,
`log_functions.go`, `caller_log.go`, `log_message_dispatcher.go` and the three sink files).

Conventions of the embedding.

* Go's `int8`, `int` and `uint8` values are integers (`Int`, `Nat`); the named constants keep
  their `iota` values, so a severity or a message kind outside the named constants is still a
  value of the type, exactly as in Go.
* A `*LogMessageSink` is an address (`SinkPtr`) into `World.heap`; methods with a pointer
  receiver read and write the heap cell of their receiver.
* Channels are the lists of the values they hold (oldest first), a closed signalling channel
  is a `Bool`; a send is an append (a send that waits for room completes once the receiver
  has taken a value, which is not part of the sequential model).
* A Go panic is the result `none`.
* Functions of the Go standard library whose text is not part of the package
  (`time.Time.Format`, `fmt.Sprint` on the variadic arguments, `runtime.Caller`,
  `runtime.FuncForPC`, `time.Now`) are parameters.
* `World.calls` is a ghost trace of the interface-method calls made by the dispatcher; it is
  written by the interface dispatch functions `LogMessageSink.*` only.
* The worker goroutine of a rolling-file sink acts on a `RollFs` (directories and regular
  files with modification times); what the clock and the operating system answer during a
  call, failures included, is a `RollEnv`. A Go result `(value, error)` is a pair whose
  second component is `none` for a nil error.
-/

namespace Dmlog

/-! ## log.go: basic types -/

/-- Go: `type MessageSinkId int`. -/
abbrev MessageSinkId := Int

/-- Go: `type MessageType int8`. -/
abbrev MessageType := Int

abbrev LogMessageType : MessageType := 0
abbrev PrintMessageType : MessageType := 1

/-- Go: `type LogSeverity int8`. -/
abbrev LogSeverity := Int

abbrev DebugSeverity : LogSeverity := 0
abbrev InfoSeverity : LogSeverity := 1
abbrev PrintSeverity : LogSeverity := 2
abbrev WarningSeverity : LogSeverity := 3
abbrev ErrorSeverity : LogSeverity := 4
abbrev FatalSeverity : LogSeverity := 5

/-- The six named severity levels, in the order of their declaration. -/
def severityLevels : List LogSeverity :=
  [DebugSeverity, InfoSeverity, PrintSeverity, WarningSeverity, ErrorSeverity, FatalSeverity]

/-- The wall-clock reading of a `time.Time` (the accessors `Year()`, `Month()`, ...). -/
structure Time where
  year : Int
  month : Int
  day : Int
  hour : Int
  minute : Int
  second : Int
  nanosecond : Int
  deriving DecidableEq, Repr

/-- Go: `type LogMessage struct`. -/
structure LogMessage where
  text : String
  severity : LogSeverity
  messageType : MessageType
  timestamp : Time
  filename : String
  line : Int
  funcName : String
  deriving DecidableEq, Repr

/-- Go: `func (t LogSeverity) String() string`. -/
def LogSeverity.String (t : LogSeverity) : String :=
  if t = DebugSeverity then "DBG"
  else if t = InfoSeverity then "INF"
  else if t = PrintSeverity then "PRN"
  else if t = WarningSeverity then "WRN"
  else if t = ErrorSeverity then "ERR"
  else if t = FatalSeverity then "FAT"
  else "Unknown"

/-- Go: `func (s LogSeverity) IsGreaterOrEqualThan(that LogSeverity) bool`.
An inner `switch` that takes no case leaves the outer `switch` and reaches the final
`return false`. -/
def IsGreaterOrEqualThan (s that : LogSeverity) : Bool :=
  if s = DebugSeverity then
    if that = DebugSeverity then true
    else if that = InfoSeverity then false
    else if that = PrintSeverity then false
    else if that = WarningSeverity then false
    else if that = ErrorSeverity then false
    else if that = FatalSeverity then false
    else false
  else if s = InfoSeverity then
    if that = DebugSeverity then true
    else if that = InfoSeverity then true
    else if that = PrintSeverity then false
    else if that = WarningSeverity then false
    else if that = ErrorSeverity then false
    else if that = FatalSeverity then false
    else false
  else if s = PrintSeverity then
    if that = DebugSeverity then true
    else if that = InfoSeverity then true
    else if that = PrintSeverity then true
    else if that = WarningSeverity then false
    else if that = ErrorSeverity then false
    else if that = FatalSeverity then false
    else false
  else if s = WarningSeverity then
    if that = DebugSeverity then true
    else if that = InfoSeverity then true
    else if that = PrintSeverity then true
    else if that = WarningSeverity then true
    else if that = ErrorSeverity then false
    else if that = FatalSeverity then false
    else false
  else if s = ErrorSeverity then
    if that = DebugSeverity then true
    else if that = InfoSeverity then true
    else if that = PrintSeverity then true
    else if that = WarningSeverity then true
    else if that = ErrorSeverity then true
    else if that = FatalSeverity then false
    else false
  else if s = FatalSeverity then true
  else false

/-! ## log_format.go -/

/-- Go: `type LogFormatItem uint8`. -/
abbrev LogFormatItem := Nat

abbrev FilenameFmt : LogFormatItem := 0
abbrev FilenameLineFmt : LogFormatItem := 1
abbrev FunctNameFmt : LogFormatItem := 2
abbrev LineFmt : LogFormatItem := 3
abbrev ShortTimestampFmt : LogFormatItem := 4
abbrev LongTimestampFmt : LogFormatItem := 5
abbrev SeverityFmt : LogFormatItem := 6
abbrev TextFmt : LogFormatItem := 7
abbrev LineEndFmt : LogFormatItem := 8

/-- Go: `type LogFormatItems []LogFormatItem`. -/
abbrev LogFormatItems := List LogFormatItem

def longTimestampFormat : String := "Mon,02 Jan 2006,15:04:05.000"
def shortTimestampFormat : String := "2006-01-02 15:04:05.000"

/-- The method `func (t Time) Format(layout string) string` of the standard library, taken as
a parameter: time first, layout second. -/
abbrev TimeFormat := Time → String → String

/-- Go: `func defaultPrintFormat() []LogFormatItem`. -/
def defaultPrintFormat : LogFormatItems := [TextFmt, LineEndFmt]

/-- Go: `func defaultLogFormat() []LogFormatItem`. -/
def defaultLogFormat : LogFormatItems :=
  [FilenameLineFmt, ShortTimestampFmt, LineEndFmt, SeverityFmt, TextFmt, LineEndFmt]

/-- Go: `func surroundWith( str string, left string, right string) string`. -/
def surroundWith (str left right : String) : String := left ++ str ++ right

/-- Go: `func createMapSeverityToText() map[LogSeverity]string`, the map as the list of its
entries (the six keys are distinct). -/
def createMapSeverityToText : List (LogSeverity × String) :=
  [ (DebugSeverity, surroundWith (LogSeverity.String DebugSeverity) "[" "]"),
    (InfoSeverity, surroundWith (LogSeverity.String InfoSeverity) "[" "]"),
    (PrintSeverity, surroundWith (LogSeverity.String PrintSeverity) "[" "]"),
    (WarningSeverity, surroundWith (LogSeverity.String WarningSeverity) "[" "]"),
    (ErrorSeverity, surroundWith (LogSeverity.String ErrorSeverity) "[" "]"),
    (FatalSeverity, surroundWith (LogSeverity.String FatalSeverity) "[" "]") ]

/-- Go: the read `severityToText[msg.severity]` of the package variable set by `init`; a key
that is not in the map reads as the empty string. -/
def severityToText (severity : LogSeverity) : String :=
  (createMapSeverityToText.lookup severity).getD ""

/-- The `switch formatItem` of `formatLogMessage`: what one item writes into the builder. An
item that is none of the nine constants takes no case and writes nothing. -/
def formatItemText (timeFormat : TimeFormat) (msg : LogMessage) (formatItem : LogFormatItem) :
    String :=
  if formatItem = TextFmt then msg.text
  else if formatItem = FilenameFmt then msg.filename
  else if formatItem = FilenameLineFmt then msg.filename ++ ":" ++ toString msg.line
  else if formatItem = FunctNameFmt then msg.funcName
  else if formatItem = LineFmt then toString msg.line
  else if formatItem = ShortTimestampFmt then timeFormat msg.timestamp shortTimestampFormat
  else if formatItem = LongTimestampFmt then timeFormat msg.timestamp longTimestampFormat
  else if formatItem = SeverityFmt then severityToText msg.severity
  else if formatItem = LineEndFmt then "\n"
  else ""

/-- The loop `for _,formatItem := range *formatItems` of `formatLogMessage`, on the content
of the string builder. -/
def formatLogMessageLoop (timeFormat : TimeFormat) (msg : LogMessage) :
    LogFormatItems → String → String
  | [], result => result
  | formatItem :: rest, result =>
    let result1 := result ++ formatItemText timeFormat msg formatItem
    let result2 := if LineEndFmt ≠ formatItem then result1 ++ " " else result1
    formatLogMessageLoop timeFormat msg rest result2

/-- Go: `func formatLogMessage( msg *LogMessage, formatItems *LogFormatItems) string` (both
pointers are never nil at the call sites). -/
def formatLogMessage (timeFormat : TimeFormat) (msg : LogMessage)
    (formatItems : LogFormatItems) : String :=
  let result := formatLogMessageLoop timeFormat msg formatItems ""
  if result.length > 0 then result ++ "\n" else result

/-! ## log.go: the sink interface and its base -/

/-- Go: `type BaseLogMessageSink struct`; the map `messageTypeToFormat` is the function from a
key to its entry, `none` when the key is absent. -/
structure BaseLogMessageSink where
  threshold : LogSeverity
  isFrequentFlush : Bool
  messageTypeToFormat : MessageType → Option LogFormatItems

/-- Go: `func (b *BaseLogMessageSink)setSinkFormat( messageType MessageType, format
LogFormatItems) bool`. -/
def BaseLogMessageSink.setSinkFormat (b : BaseLogMessageSink) (messageType : MessageType)
    (format : LogFormatItems) : BaseLogMessageSink × Bool :=
  let messageTypeToFormat1 := Function.update b.messageTypeToFormat messageType (some format)
  ({ b with messageTypeToFormat := messageTypeToFormat1 }, true)

/-- The map literal built by the three sink constructors. -/
def defaultMessageTypeToFormat : MessageType → Option LogFormatItems :=
  Function.update (Function.update (fun _ => none) LogMessageType (some defaultLogFormat))
    PrintMessageType (some defaultPrintFormat)

/-- An `*os.File`: the path it was opened on and whether `Close` was called on it. -/
structure OsFile where
  name : String
  closed : Bool
  deriving DecidableEq, Repr

/-- The content of the files, by path: the strings written so far, oldest first. -/
abbrev FileSystem := String → List String

/-- The call `fmt.Fprint(file, s)` of the standard library on an `*os.File`: on a nil or
closed handle the write fails with an error (which every caller in the package discards) and
nothing is written. -/
def Fprint (file : Option OsFile) (s : String) (fs : FileSystem) : FileSystem :=
  match file with
  | none => fs
  | some f => if f.closed then fs else Function.update fs f.name (fs f.name ++ [s])

/-! ## console_log_message_sink.go -/

/-- Go: `type consoleLogMessageSink struct`. -/
structure consoleLogMessageSink where
  base : BaseLogMessageSink

/-- Go: `func newConsoleLogMessageSink( threshold LogSeverity, isFrequentFlush bool)`. -/
def newConsoleLogMessageSink (threshold : LogSeverity) (isFrequentFlush : Bool) :
    consoleLogMessageSink :=
  { base := { threshold := threshold, isFrequentFlush := isFrequentFlush,
              messageTypeToFormat := defaultMessageTypeToFormat } }

/-- Go: `func (c *consoleLogMessageSink) SetSeverity( threshold LogSeverity)`. -/
def consoleLogMessageSink.SetSeverity (c : consoleLogMessageSink) (threshold : LogSeverity) :
    consoleLogMessageSink :=
  { c with base := { c.base with threshold := threshold } }

/-- Go: `func (c *consoleLogMessageSink) Severity() LogSeverity`. -/
def consoleLogMessageSink.Severity (c : consoleLogMessageSink) : LogSeverity :=
  c.base.threshold

/-- Go: `func (c *consoleLogMessageSink) flush()`: `os.Stdout.Sync()` adds nothing to what was
printed. -/
def consoleLogMessageSink.flush (_c : consoleLogMessageSink) (stdout : List String) :
    List String :=
  stdout

/-- Go: `func (c *consoleLogMessageSink) OnLogMessage( msg *LogMessage)`, on the list of the
strings printed on the standard output. -/
def consoleLogMessageSink.OnLogMessage (timeFormat : TimeFormat) (c : consoleLogMessageSink)
    (msg : LogMessage) (stdout : List String) : List String :=
  if IsGreaterOrEqualThan msg.severity c.base.threshold then
    let stdout1 :=
      match c.base.messageTypeToFormat msg.messageType with
      | some format => stdout ++ [formatLogMessage timeFormat msg format]
      | none => stdout ++ [msg.text ++ "\n"]
    if c.base.isFrequentFlush then c.flush stdout1 else stdout1
  else stdout

/-- Go: `func (c *consoleLogMessageSink) SetFlush( isFrequentFlush bool)`. -/
def consoleLogMessageSink.SetFlush (c : consoleLogMessageSink) (isFrequentFlush : Bool) :
    consoleLogMessageSink :=
  { c with base := { c.base with isFrequentFlush := isFrequentFlush } }

/-- Go: `func (c *consoleLogMessageSink) setSinkFormat( messageType MessageType, format
LogFormatItems) bool`. -/
def consoleLogMessageSink.setSinkFormat (c : consoleLogMessageSink)
    (messageType : MessageType) (format : LogFormatItems) : consoleLogMessageSink × Bool :=
  let r := c.base.setSinkFormat messageType format
  ({ c with base := r.1 }, r.2)

/-- Go: `func (c *consoleLogMessageSink) terminate()`. -/
def consoleLogMessageSink.terminate (c : consoleLogMessageSink) (stdout : List String) :
    List String :=
  c.flush stdout

/-! ## file_log_message_sink.go -/

/-- Go: `type fileLogMessageSink struct`. -/
structure fileLogMessageSink where
  base : BaseLogMessageSink
  outFile : Option OsFile

/-- Go: `func (f *fileLogMessageSink) SetSeverity( threshold LogSeverity)`. -/
def fileLogMessageSink.SetSeverity (f : fileLogMessageSink) (threshold : LogSeverity) :
    fileLogMessageSink :=
  { f with base := { f.base with threshold := threshold } }

/-- Go: `func (f *fileLogMessageSink) Severity() LogSeverity`. -/
def fileLogMessageSink.Severity (f : fileLogMessageSink) : LogSeverity :=
  f.base.threshold

/-- Go: `func (f *fileLogMessageSink) flush()`: `Sync` adds nothing to the file content. -/
def fileLogMessageSink.flush (_f : fileLogMessageSink) (fs : FileSystem) : FileSystem :=
  fs

/-- Go: `func (f *fileLogMessageSink) OnLogMessage( msg *LogMessage)`. -/
def fileLogMessageSink.OnLogMessage (timeFormat : TimeFormat) (f : fileLogMessageSink)
    (msg : LogMessage) (fs : FileSystem) : FileSystem :=
  if IsGreaterOrEqualThan msg.severity f.base.threshold then
    let fs1 :=
      match f.base.messageTypeToFormat msg.messageType with
      | some format => Fprint f.outFile (formatLogMessage timeFormat msg format) fs
      | none => Fprint f.outFile (msg.text ++ "\n") fs
    if f.base.isFrequentFlush then f.flush fs1 else fs1
  else fs

/-- Go: `func (f *fileLogMessageSink) SetFlush( isFrequentFlush bool)`. -/
def fileLogMessageSink.SetFlush (f : fileLogMessageSink) (isFrequentFlush : Bool) :
    fileLogMessageSink :=
  { f with base := { f.base with isFrequentFlush := isFrequentFlush } }

/-- Go: `func (f *fileLogMessageSink) setSinkFormat( messageType MessageType, format
LogFormatItems) bool`. -/
def fileLogMessageSink.setSinkFormat (f : fileLogMessageSink)
    (messageType : MessageType) (format : LogFormatItems) : fileLogMessageSink × Bool :=
  let r := f.base.setSinkFormat messageType format
  ({ f with base := r.1 }, r.2)

/-- Go: `func (f *fileLogMessageSink) terminate()`: the file is closed and the field set to
nil. -/
def fileLogMessageSink.terminate (f : fileLogMessageSink) : fileLogMessageSink :=
  match f.outFile with
  | some _ => { f with outFile := none }
  | none => f

/-! ## roll_file_log_message_sink.go: the sink as the dispatcher goroutine sees it -/

/-- Go: `type rollFileLogMessageSink struct`, the fields that the dispatcher goroutine reads
or writes. `chStrLog` is the list of the strings sent on the channel so far, oldest first: the
worker goroutine `rollFileSinkHandler` receives them in this order. The fields `currFile` and
`currFileSize` are read and written by the worker goroutine only and belong to its state. -/
structure rollFileLogMessageSink where
  base : BaseLogMessageSink
  dirPath : String
  filePrefix : String
  numMaxFiles : Int
  maxFileSize : Nat
  chStrLog : List String
  chReqTerminate : Bool
  chReplyTerminate : Bool

/-- Go: `func (c *rollFileLogMessageSink) SetSeverity( threshold LogSeverity)`. -/
def rollFileLogMessageSink.SetSeverity (c : rollFileLogMessageSink)
    (threshold : LogSeverity) : rollFileLogMessageSink :=
  { c with base := { c.base with threshold := threshold } }

/-- Go: `func (c *rollFileLogMessageSink) Severity() LogSeverity`. -/
def rollFileLogMessageSink.Severity (c : rollFileLogMessageSink) : LogSeverity :=
  c.base.threshold

/-- Go: `func (r *rollFileLogMessageSink) OnLogMessage( msg *LogMessage)`. -/
def rollFileLogMessageSink.OnLogMessage (timeFormat : TimeFormat)
    (r : rollFileLogMessageSink) (msg : LogMessage) : rollFileLogMessageSink :=
  if IsGreaterOrEqualThan msg.severity r.base.threshold then
    match r.base.messageTypeToFormat msg.messageType with
    | some format => { r with chStrLog := r.chStrLog ++ [formatLogMessage timeFormat msg format] }
    | none => { r with chStrLog := r.chStrLog ++ [msg.text] }
  else r

/-- Go: `func (r *rollFileLogMessageSink) flush() {}`. -/
def rollFileLogMessageSink.flush (r : rollFileLogMessageSink) : rollFileLogMessageSink := r

/-- Go: `func (r *rollFileLogMessageSink) SetFlush( isFrequentFlush bool)`. -/
def rollFileLogMessageSink.SetFlush (r : rollFileLogMessageSink) (isFrequentFlush : Bool) :
    rollFileLogMessageSink :=
  { r with base := { r.base with isFrequentFlush := isFrequentFlush } }

/-- Go: `func (r *rollFileLogMessageSink) setSinkFormat( messageType MessageType, format
LogFormatItems) bool`. -/
def rollFileLogMessageSink.setSinkFormat (r : rollFileLogMessageSink)
    (messageType : MessageType) (format : LogFormatItems) : rollFileLogMessageSink × Bool :=
  let res := r.base.setSinkFormat messageType format
  ({ r with base := res.1 }, res.2)

/-- Go: `func (r *rollFileLogMessageSink) terminate()`: `close( r.chReqTerminate)` panics on a
channel that is already closed; the receive on `chReplyTerminate` returns once the worker
goroutine has closed that channel. -/
def rollFileLogMessageSink.terminate (r : rollFileLogMessageSink) :
    Option rollFileLogMessageSink :=
  if r.chReqTerminate then none
  else some { r with chReqTerminate := true, chReplyTerminate := true }

/-! ## The interface `LogMessageSink` and the memory -/

/-- A value of the interface type `LogMessageSink`: one of the three implementations. -/
inductive LogMessageSink where
  | console (c : consoleLogMessageSink)
  | file (f : fileLogMessageSink)
  | rollFile (r : rollFileLogMessageSink)

/-- A `*LogMessageSink`. -/
abbrev SinkPtr := Nat

/-- The embedded `BaseLogMessageSink` of a sink. -/
def LogMessageSink.base : LogMessageSink → BaseLogMessageSink
  | .console c => c.base
  | .file f => f.base
  | .rollFile r => r.base

/-- The interface method `Severity() LogSeverity`. -/
def LogMessageSink.Severity : LogMessageSink → LogSeverity
  | .console c => c.Severity
  | .file f => f.Severity
  | .rollFile r => r.Severity

/-- One call of an interface method made by the dispatcher goroutine. -/
inductive Call where
  | OnLogMessage (sink : SinkPtr) (msg : LogMessage)
  | SetSeverity (sink : SinkPtr) (threshold : LogSeverity)
  | setSinkFormat (sink : SinkPtr) (messageType : MessageType) (format : LogFormatItems)
  | terminate (sink : SinkPtr)
  deriving DecidableEq, Repr

/-- What the sinks act on: the sink objects by address, the strings printed on the standard
output, the content of the files, and the ghost trace of the interface calls. -/
structure World where
  heap : SinkPtr → LogMessageSink
  stdout : List String
  fs : FileSystem
  calls : List Call

/-- The call `(*sink).OnLogMessage( &msg)`. -/
def LogMessageSink.OnLogMessage (timeFormat : TimeFormat) (sink : SinkPtr) (msg : LogMessage)
    (w : World) : World :=
  let w1 := { w with calls := w.calls ++ [Call.OnLogMessage sink msg] }
  match w.heap sink with
  | .console c => { w1 with stdout := c.OnLogMessage timeFormat msg w.stdout }
  | .file f => { w1 with fs := f.OnLogMessage timeFormat msg w.fs }
  | .rollFile r =>
    { w1 with heap := Function.update w.heap sink (.rollFile (r.OnLogMessage timeFormat msg)) }

/-- The call `(*sink).SetSeverity( threshold)`. -/
def LogMessageSink.SetSeverity (sink : SinkPtr) (threshold : LogSeverity) (w : World) :
    World :=
  let w1 := { w with calls := w.calls ++ [Call.SetSeverity sink threshold] }
  match w.heap sink with
  | .console c =>
    { w1 with heap := Function.update w.heap sink (.console (c.SetSeverity threshold)) }
  | .file f =>
    { w1 with heap := Function.update w.heap sink (.file (f.SetSeverity threshold)) }
  | .rollFile r =>
    { w1 with heap := Function.update w.heap sink (.rollFile (r.SetSeverity threshold)) }

/-- The call `(*sink).setSinkFormat( messageType, format)`. -/
def LogMessageSink.setSinkFormat (sink : SinkPtr) (messageType : MessageType)
    (format : LogFormatItems) (w : World) : World × Bool :=
  let w1 := { w with calls := w.calls ++ [Call.setSinkFormat sink messageType format] }
  match w.heap sink with
  | .console c =>
    let res := c.setSinkFormat messageType format
    ({ w1 with heap := Function.update w.heap sink (.console res.1) }, res.2)
  | .file f =>
    let res := f.setSinkFormat messageType format
    ({ w1 with heap := Function.update w.heap sink (.file res.1) }, res.2)
  | .rollFile r =>
    let res := r.setSinkFormat messageType format
    ({ w1 with heap := Function.update w.heap sink (.rollFile res.1) }, res.2)

/-- The call `(*sink).terminate()`; `none` when it panics. -/
def LogMessageSink.terminate (sink : SinkPtr) (w : World) : Option World :=
  let w1 := { w with calls := w.calls ++ [Call.terminate sink] }
  match w.heap sink with
  | .console c => some { w1 with stdout := c.terminate w.stdout }
  | .file f => some { w1 with heap := Function.update w.heap sink (.file f.terminate) }
  | .rollFile r =>
    match r.terminate with
    | none => none
    | some r1 => some { w1 with heap := Function.update w.heap sink (.rollFile r1) }

/-! ## log_message_dispatcher.go -/

/-- A value received from `context.chRequest`; `other` is a value of any other dynamic type
(the `default` case of the type switch). -/
inductive Request where
  | reqMessageSinkType (messageSink : SinkPtr)
  | reqMessageSinkThresholdType (sinkId : MessageSinkId) (threshold : LogSeverity)
  | reqClearSinksType
  | reqSetSinkFormatType (sinkId : MessageSinkId) (messageType : MessageType)
      (formatItems : LogFormatItems)
  | other
  deriving DecidableEq, Repr

/-- A value sent on `context.chReply`. -/
inductive Reply where
  | replyMessageSinkType (ok : Bool) (sinkId : MessageSinkId)
  | replyMessageSinkThresholdType (ok : Bool)
  | replyClearSinksType (ok : Bool)
  | replySetSinkFormatType (ok : Bool)
  | replyType (ok : Bool)
  deriving DecidableEq, Repr

/-- Go: `type ctxMessageDispatcher struct`. -/
structure ctxMessageDispatcher where
  sinks : List SinkPtr
  deriving DecidableEq, Repr

/-- The search `for indx, sink := range ctx.sinks { if MessageSinkId(indx)== request.sinkId
{ ... return } }` of `handleRequest`: the sink of the first index equal to `sinkId`, `none`
when the loop ends without a match. -/
def sinkWithId (sinkId : MessageSinkId) : List SinkPtr → Nat → Option SinkPtr
  | [], _ => none
  | sink :: rest, indx =>
    if (indx : Int) = sinkId then some sink else sinkWithId sinkId rest (indx + 1)

/-- The loop `for _, sink := range ctx.sinks { (*sink).terminate() }`. -/
def terminateSinks : List SinkPtr → World → Option World
  | [], w => some w
  | sink :: rest, w =>
    match LogMessageSink.terminate sink w with
    | none => none
    | some w1 => terminateSinks rest w1

/-- Go: `func handleRequest( request interface{}, ctx *ctxMessageDispatcher) interface{}`:
the reply, the dispatcher context and the world afterwards. -/
def handleRequest (request : Request) (ctx : ctxMessageDispatcher) (w : World) :
    Option (Reply × ctxMessageDispatcher × World) :=
  match request with
  | .reqMessageSinkType messageSink =>
    let sinks1 := ctx.sinks ++ [messageSink]
    let newSinkId : MessageSinkId := (sinks1.length : Int) - 1
    some (.replyMessageSinkType true newSinkId, { sinks := sinks1 }, w)
  | .reqMessageSinkThresholdType sinkId threshold =>
    match sinkWithId sinkId ctx.sinks 0 with
    | some sink =>
      some (.replyMessageSinkThresholdType true, ctx,
        LogMessageSink.SetSeverity sink threshold w)
    | none => some (.replyMessageSinkThresholdType false, ctx, w)
  | .reqClearSinksType =>
    match terminateSinks ctx.sinks w with
    | none => none
    | some w1 => some (.replyClearSinksType true, { sinks := [] }, w1)
  | .reqSetSinkFormatType sinkId messageType formatItems =>
    match sinkWithId sinkId ctx.sinks 0 with
    | some sink =>
      let res := LogMessageSink.setSinkFormat sink messageType formatItems w
      some (.replySetSinkFormatType res.2, ctx, res.1)
    | none => some (.replySetSinkFormatType false, ctx, w)
  | .other => some (.replyType false, ctx, w)

/-- Successive iterations of the dispatcher loop that each take the case
`newRequest := <- context.chRequest`: the replies in order and the final state. -/
def handleRequests : List Request → ctxMessageDispatcher → World →
    Option (List Reply × ctxMessageDispatcher × World)
  | [], ctx, w => some ([], ctx, w)
  | request :: rest, ctx, w =>
    match handleRequest request ctx w with
    | none => none
    | some (reply, ctx1, w1) =>
      match handleRequests rest ctx1 w1 with
      | none => none
      | some (replies, ctx2, w2) => some (reply :: replies, ctx2, w2)

/-- The loop `for _, sink := range ctx.sinks { (*sink).OnLogMessage( &newMessage) }`. -/
def deliverToSinks (timeFormat : TimeFormat) (newMessage : LogMessage) :
    List SinkPtr → World → World
  | [], w => w
  | sink :: rest, w =>
    deliverToSinks timeFormat newMessage rest
      (LogMessageSink.OnLogMessage timeFormat sink newMessage w)

/-- The loop `for stillHasMessages { select { case newMessage := <- context.chLogMessages:
... default: stillHasMessages= false } }` on the messages held by the channel: it ends when
the channel is empty. -/
def flushPendingMessages (timeFormat : TimeFormat) (sinks : List SinkPtr) :
    List LogMessage → World → World
  | [], w => w
  | newMessage :: rest, w =>
    flushPendingMessages timeFormat sinks rest (deliverToSinks timeFormat newMessage sinks w)

/-- Go: `var context struct`: the global severity, the messages held by `chLogMessages`, and
whether `chReqTerminate` and `chReplyTerminate` are closed. The unbuffered pair `chRequest`,
`chReply` holds no value between two steps. -/
structure Context where
  severity : LogSeverity
  chLogMessages : List LogMessage
  chReqTerminate : Bool
  chReplyTerminate : Bool
  deriving DecidableEq, Repr

/-- The state of the goroutine `messageDispatcher` together with what it acts on. -/
structure DispatcherState where
  context : Context
  ctx : ctxMessageDispatcher
  isTerminate : Bool
  world : World

/-- Go: `func init()`, with the memory and the outside world given. -/
def initDispatcher (w : World) : DispatcherState :=
  { context := { severity := DebugSeverity, chLogMessages := [], chReqTerminate := false,
                 chReplyTerminate := false },
    ctx := { sinks := [] }, isTerminate := false, world := w }

/-- The case `newMessage := <- context.chLogMessages` of the main `select` of
`messageDispatcher`; `none` when the channel holds no message (the case is not ready). -/
def messageDispatcherOnMessage (timeFormat : TimeFormat) (s : DispatcherState) :
    Option DispatcherState :=
  match s.context.chLogMessages with
  | [] => none
  | newMessage :: rest =>
    some { s with context := { s.context with chLogMessages := rest },
                  world := deliverToSinks timeFormat newMessage s.ctx.sinks s.world }

/-- The case `newRequest := <- context.chRequest` of the main `select`: the reply sent on
`context.chReply` and the next state; `none` when `handleRequest` panics. -/
def messageDispatcherOnRequest (newRequest : Request) (s : DispatcherState) :
    Option (Reply × DispatcherState) :=
  match handleRequest newRequest s.ctx s.world with
  | none => none
  | some (reply, ctx1, w1) => some (reply, { s with ctx := ctx1, world := w1 })

/-- The case `<- context.chReqTerminate` of the main `select`; `none` when the channel is not
closed (the case is not ready) or when a `terminate()` or the `close` panics. -/
def messageDispatcherOnTerminate (timeFormat : TimeFormat) (s : DispatcherState) :
    Option DispatcherState :=
  if s.context.chReqTerminate then
    let w1 := flushPendingMessages timeFormat s.ctx.sinks s.context.chLogMessages s.world
    match terminateSinks s.ctx.sinks w1 with
    | none => none
    | some w2 =>
      if s.context.chReplyTerminate then none
      else
        some { context := { s.context with chLogMessages := [], chReplyTerminate := true },
               ctx := s.ctx, isTerminate := true, world := w2 }
  else none

/-- The case of the main `select` that one iteration of `messageDispatcher` takes. -/
inductive SelectCase where
  | logMessage
  | request (newRequest : Request)
  | reqTerminate

/-- One iteration of `for isTerminate:=false; !isTerminate; { select { ... } }`: the reply
sent, if any, and the next state; `none` after the loop has ended, when the chosen case is
not ready, or on a panic. -/
def messageDispatcherStep (timeFormat : TimeFormat) (c : SelectCase) (s : DispatcherState) :
    Option (Option Reply × DispatcherState) :=
  if s.isTerminate then none
  else
    match c with
    | .logMessage => (messageDispatcherOnMessage timeFormat s).map (fun s1 => (none, s1))
    | .request newRequest =>
      (messageDispatcherOnRequest newRequest s).map (fun r => (some r.1, r.2))
    | .reqTerminate => (messageDispatcherOnTerminate timeFormat s).map (fun s1 => (none, s1))

/-! ## caller_log.go, log.go, log_functions.go: the producer side -/

/-- Go: `type callerDetails struct`. -/
structure callerDetails where
  filename : String
  line : Int
  funcName : String
  deriving DecidableEq, Repr

/-- What the producer side takes from the Go runtime and the clock: `time.Now()`,
`runtime.Caller(skip)` as (pc, file, line, ok), and `runtime.FuncForPC(pc)` as the name of
the function, `none` for a nil result. -/
structure Runtime where
  Now : Time
  Caller : Int → Nat × String × Int × Bool
  FuncForPC : Nat → Option String

/-- Go: `func getCallerDetails( caller *callerDetails, skip int) bool` (the pointer is never
nil at the call sites): the caller details afterwards and the result. -/
def getCallerDetails (rt : Runtime) (caller : callerDetails) (skip : Int) :
    callerDetails × Bool :=
  let r := rt.Caller (skip + 1)
  let caller1 : callerDetails := { caller with filename := r.2.1, line := r.2.2.1 }
  if !r.2.2.2 then
    ({ filename := "N/A", line := 0, funcName := "N/A" }, false)
  else
    match rt.FuncForPC r.1 with
    | none => ({ caller1 with funcName := "N/A" }, false)
    | some name => ({ caller1 with funcName := name }, true)

def defaultSkip : Int := 1

/-- Go: `func IsTerminated() bool`: the non-blocking receive succeeds exactly when
`chReqTerminate` is closed (nothing is ever sent on it). -/
def IsTerminated (context : Context) : Bool :=
  context.chReqTerminate

/-- Go: `func addLogMessage( text string, severity LogSeverity, messageType MessageType,
forcedCaller *callerDetails, skip int ) bool`: the result and the context afterwards. -/
def addLogMessage (rt : Runtime) (text : String) (severity : LogSeverity)
    (messageType : MessageType) (forcedCaller : Option callerDetails) (skip : Int)
    (context : Context) : Bool × Context :=
  if IsGreaterOrEqualThan severity context.severity && !IsTerminated context then
    let caller : callerDetails :=
      match forcedCaller with
      | some fc => fc
      | none => (getCallerDetails rt { filename := "", line := 0, funcName := "" } (skip + 1)).1
    let message : LogMessage :=
      { text := text, severity := severity, messageType := messageType, timestamp := rt.Now,
        filename := caller.filename, line := caller.line, funcName := caller.funcName }
    (true, { context with chLogMessages := context.chLogMessages ++ [message] })
  else (false, context)

/-- Go: `func Debug(v ...interface{}) bool`; `Sprint` is `fmt.Sprint` on the arguments. -/
def Debug {V : Type} (Sprint : V → String) (rt : Runtime) (v : V) (context : Context) :
    Bool × Context :=
  addLogMessage rt (Sprint v) DebugSeverity LogMessageType none defaultSkip context

/-- Go: `func Warn(v ...interface{}) bool`. -/
def Warn {V : Type} (Sprint : V → String) (rt : Runtime) (v : V) (context : Context) :
    Bool × Context :=
  addLogMessage rt (Sprint v) WarningSeverity LogMessageType none defaultSkip context

/-- Go: `func Info(v ...interface{}) bool`. -/
def Info {V : Type} (Sprint : V → String) (rt : Runtime) (v : V) (context : Context) :
    Bool × Context :=
  addLogMessage rt (Sprint v) InfoSeverity LogMessageType none defaultSkip context

/-- Go: `func Print(v ...interface{}) bool`. -/
def Print {V : Type} (Sprint : V → String) (rt : Runtime) (v : V) (context : Context) :
    Bool × Context :=
  addLogMessage rt (Sprint v) PrintSeverity PrintMessageType none defaultSkip context

/-- Go: `func LogPrint(v ...interface{}) bool`. -/
def LogPrint {V : Type} (Sprint : V → String) (rt : Runtime) (v : V) (context : Context) :
    Bool × Context :=
  addLogMessage rt (Sprint v) PrintSeverity PrintMessageType none defaultSkip context

/-- Go: `func Error(v ...interface{}) bool`. -/
def Error {V : Type} (Sprint : V → String) (rt : Runtime) (v : V) (context : Context) :
    Bool × Context :=
  addLogMessage rt (Sprint v) ErrorSeverity LogMessageType none defaultSkip context

/-- Go: `func Fatal(v ...interface{}) bool`. -/
def Fatal {V : Type} (Sprint : V → String) (rt : Runtime) (v : V) (context : Context) :
    Bool × Context :=
  addLogMessage rt (Sprint v) FatalSeverity LogMessageType none defaultSkip context

/-! ## log.go: the global severity and the termination of the facility -/

/-- The end of a call that may panic: it returns a value or it panics with a message; in
both cases the package variable `context` has the given value afterwards. -/
inductive Outcome (α : Type) where
  | returned (value : α) (context : Context)
  | panicked (message : String) (context : Context)

def fatalLogTerminated : String := "Log facility already terminated."

/-- Go: `func SetSeverity( severity LogSeverity)`. -/
def SetSeverity (severity : LogSeverity) (context : Context) : Outcome Unit :=
  if IsTerminated context then .panicked fatalLogTerminated context
  else if severity ≠ context.severity then
    .returned () { context with severity := severity }
  else .returned () context

/-- Go: `func Severity() LogSeverity`. -/
def Severity (context : Context) : Outcome LogSeverity :=
  if IsTerminated context then .panicked fatalLogTerminated context
  else .returned context.severity context

/-- Go: `func Terminate()`. When the facility is not terminated yet, `chReqTerminate` is
closed and the receive from `chReplyTerminate` returns once the dispatcher goroutine has
taken the case `<- context.chReqTerminate` of its loop (messages that it takes from the
channel before that are delivered with the same calls in the same order as by the drain
loop). `none`: the dispatcher loop has ended before, so that the receive never returns, or
the dispatcher panics. -/
def Terminate (timeFormat : TimeFormat) (s : DispatcherState) : Option DispatcherState :=
  if IsTerminated s.context then some s
  else
    let s1 := { s with context := { s.context with chReqTerminate := true } }
    (messageDispatcherStep timeFormat .reqTerminate s1).map (fun r => r.2)

/-! ## roll_file_log_message_sink.go: construction, rotation and retention -/

/-- Go: `const fileExtension string = ".txt"`. -/
def fileExtension : String := ".txt"

/-- Go: `const timestampSeparator string = "_"`. -/
def timestampSeparator : String := "_"

/-- Go: `const kBytesToBytes Bytes = 1024`. -/
def kBytesToBytes : Nat := 1024

/-- The conversion of an `int` to the unsigned 64-bit type `Bytes`. -/
def toUint64 (x : Int) : Nat := (x % 18446744073709551616).toNat

/-- The value of an `int` expression: the mathematical value wrapped into the signed 64-bit
range. -/
def wrapInt (x : Int) : Int :=
  (x + 9223372036854775808) % 18446744073709551616 - 9223372036854775808

/-- Go: `len(s)` of a string, its number of bytes. -/
def goLen (s : String) : Int := (s.utf8ByteSize : Int)

/-- The verb `%0<width>d` of `fmt.Sprintf` on an `int`: decimal digits, padded with zeros on
the left up to the width, the sign first. -/
def fmtZeroPad (width : Nat) (n : Int) : String :=
  if n < 0 then
    "-" ++ String.mk (List.replicate (width - 1 - (toString n.natAbs).length) '0') ++
      toString n.natAbs
  else
    String.mk (List.replicate (width - (toString n.natAbs).length) '0') ++ toString n.natAbs

/-- Go: `func timestampString(t time.Time, separator string) string` of log_format.go, with
the format `"%04d%02d%02d%s%02d%02d%02d%s%03d"`. -/
def timestampString (t : Time) (separator : String) : String :=
  fmtZeroPad 4 t.year ++ fmtZeroPad 2 t.month ++ fmtZeroPad 2 t.day ++ separator ++
    fmtZeroPad 2 t.hour ++ fmtZeroPad 2 t.minute ++ fmtZeroPad 2 t.second ++ separator ++
    fmtZeroPad 3 (Int.tdiv t.nanosecond 1000000)

/-- A regular file of the file system: its directory, its base name, its modification time
(an instant: a larger number is a later time) and its content. -/
structure RollFile where
  dir : String
  name : String
  modTime : Nat
  content : String
  deriving DecidableEq, Repr

/-- The call `filepath.Join(dir, name)` (also `path.Join`) on a directory path and a base
name that need no cleaning. -/
def pathJoin (dir name : String) : String := dir ++ "/" ++ name

/-- The path of a file. -/
def RollFile.path (f : RollFile) : String := pathJoin f.dir f.name

/-- The file system as the rolling-file sink sees it: what `os.Stat` says of a directory path
(`none`: an error, `some b`: `IsDir()` is `b`), the regular files, in the order in which
`filepath.Glob` lists them, and the pattern language of the library: `globMatch pattern path`
says whether `filepath.Glob(pattern)` reports the existing file `path` (the characters
`*`, `?`, `[` and `\` of a pattern are pattern syntax, as `filepath.Match` defines it). The
library function is a parameter of the model. -/
structure RollFs where
  statDir : String → Option Bool
  files : List RollFile
  globMatch : String → String → Bool

/-- What the clock and the operating system answer during one call: `time.Now()`, the
modification time stamped on a file that is created or written, and which calls fail
(`filepath.Glob`, and by path `os.Stat` of a file, `os.Remove`, `os.Create`). -/
structure RollEnv where
  Now : Time
  instant : Nat
  globFails : Bool
  statFails : String → Bool
  removeFails : String → Bool
  createFails : String → Bool

/-- A Go `error`: `none` is nil. -/
abbrev GoError := Option String

/-- The successful result of `filepath.Glob(path.Join(dirPath, fileGlob))`: the existing
files that the pattern made of the directory path and the file pattern matches. Both parts
of the pattern are read by the library as pattern syntax. -/
def Glob (fs : RollFs) (dirPath fileGlob : String) : List RollFile :=
  fs.files.filter (fun f => fs.globMatch (pathJoin dirPath fileGlob) f.path)

/-- The call `os.Remove(path)`: an error when the operating system refuses or when there is
no such file. -/
def osRemove (env : RollEnv) (path : String) (fs : RollFs) : GoError × RollFs :=
  if env.removeFails path || !fs.files.any (fun f => f.path == path) then
    (some "remove failed", fs)
  else (none, { fs with files := fs.files.filter (fun f => f.path != path) })

/-- The call `os.Create(filepath.Join(dirPath, filename))`: an existing file is truncated, a
missing one is created; the handle is open. -/
def osCreate (env : RollEnv) (dirPath filename : String) (fs : RollFs) :
    (Option OsFile × GoError) × RollFs :=
  if env.createFails (pathJoin dirPath filename) then ((none, some "create failed"), fs)
  else
    let file : OsFile := { name := pathJoin dirPath filename, closed := false }
    if fs.files.any (fun f => f.dir == dirPath && f.name == filename) then
      ((some file, none),
        { fs with files := fs.files.map (fun f =>
            if f.dir == dirPath && f.name == filename then
              { f with modTime := env.instant, content := "" }
            else f) })
    else
      ((some file, none),
        { fs with files := fs.files ++
            [{ dir := dirPath, name := filename, modTime := env.instant, content := "" }] })

/-- The call `fmt.Fprint(file, s)` on a rolling file: on a nil or closed handle the write
fails and nothing is written (the error is discarded by the callers); a write of no byte
leaves the modification time. -/
def FprintRoll (env : RollEnv) (file : Option OsFile) (s : String) (fs : RollFs) : RollFs :=
  match file with
  | none => fs
  | some h =>
    if h.closed then fs
    else
      { fs with files := fs.files.map (fun f =>
          if f.path == h.name then
            { f with content := f.content ++ s,
                     modTime := if goLen s = 0 then f.modTime else env.instant }
          else f) }

/-- The call `file.Close()` on the handle held by a field: the field keeps pointing to the
handle, which is closed from then on. -/
def OsFile.Close (h : OsFile) : OsFile := { h with closed := true }

/-- Go: `func numFilesMatching(dirPath string, fileGlob string) (int, error)`. -/
def numFilesMatching (env : RollEnv) (fs : RollFs) (dirPath fileGlob : String) :
    Int × GoError :=
  if env.globFails then (0, some "Glob() failed")
  else (((Glob fs dirPath fileGlob).length : Int), none)

/-- Go: `func (f fileInfoSliceType) Less(i, j int) bool`, on the two elements. -/
def fileInfoLess (a b : RollFile) : Bool := decide (a.modTime < b.modTime)

/-- The call `sort.Sort(sort.Reverse(data))`: `sort.Reverse` swaps the arguments of `Less`,
so that in the sorted slice no element is `Less` than an element after it (descending
order). The model sorts by insertion; `sort.Sort` is not stable, so that for elements that
compare equal the order of the result is that of the model only. -/
def sortReverse (less : RollFile → RollFile → Bool) (data : List RollFile) : List RollFile :=
  data.insertionSort (fun a b => less a b = false)

/-- The loop `for _, matchFile := range matchFiles { fileInfo, err := os.Stat( matchFile) ...
}` of `deleteOlderFiles`: the file infos, or `none` at the first failure. -/
def statFiles (env : RollEnv) : List RollFile → Option (List RollFile)
  | [] => some []
  | matchFile :: rest =>
    if env.statFails matchFile.path then none
    else
      match statFiles env rest with
      | none => none
      | some infos => some (matchFile :: infos)

/-- The loop `for indx:=0; indx<numOlderFiles; indx++ { ... os.Remove(...) ... }` of
`deleteOlderFiles` on the elements with these indexes. -/
def removeFiles (env : RollEnv) (dirPath : String) : List RollFile → RollFs → GoError × RollFs
  | [], fs => (none, fs)
  | info :: rest, fs =>
    match osRemove env (pathJoin dirPath info.name) fs with
    | (some _, fs1) => (some "failed while trying to remove the file", fs1)
    | (none, fs1) => removeFiles env dirPath rest fs1

/-- Go: `func deleteOlderFiles( dirPath string, fileGlob string, numOlderFiles int ) error`. -/
def deleteOlderFiles (env : RollEnv) (fs : RollFs) (dirPath fileGlob : String)
    (numOlderFiles : Int) : GoError × RollFs :=
  if env.globFails then (some "filepath.Glob() failed", fs)
  else
    let matchFiles := Glob fs dirPath fileGlob
    let numMatchingFiles : Int := (matchFiles.length : Int)
    match statFiles env matchFiles with
    | none => (some "os.Stat() failed", fs)
    | some fileInfoSlice =>
      if numMatchingFiles < numOlderFiles then (none, fs)
      else
        let sorted := sortReverse fileInfoLess fileInfoSlice
        removeFiles env dirPath (sorted.take numOlderFiles.toNat) fs

/-- Go: `func createNewFile( dirPath string, filePrefix string, fileExtension string)
(*os.File,error)`. -/
def createNewFile (env : RollEnv) (fs : RollFs) (dirPath filePrefix fileExtension : String) :
    (Option OsFile × GoError) × RollFs :=
  let filename := filePrefix ++ timestampSeparator ++
    timestampString env.Now timestampSeparator ++ fileExtension
  osCreate env dirPath filename fs

/-- Go: `func createNewRollFile( filePrefix string, dirPath string, numMaxFiles int)
(*os.File,error)`. -/
def createNewRollFile (env : RollEnv) (fs : RollFs) (filePrefix dirPath : String)
    (numMaxFiles : Int) : (Option OsFile × GoError) × RollFs :=
  let logFilesGlob := filePrefix ++ "*"
  match numFilesMatching env fs dirPath logFilesGlob with
  | (_, some _) => ((none, some "numFilesMatching() failed"), fs)
  | (numFiles, none) =>
    if numFiles ≥ numMaxFiles then
      let r := deleteOlderFiles env fs dirPath logFilesGlob (numFiles - numMaxFiles + 1)
      ((none, r.1), r.2)
    else createNewFile env fs dirPath filePrefix fileExtension

/-- Go: `type rollFileLogMessageSink struct`, all of it: the fields that the dispatcher
goroutine sees and the two fields `currFile` and `currFileSize` that only the constructor and
the worker goroutine read and write. -/
structure rollFileSinkCtx extends rollFileLogMessageSink where
  currFile : Option OsFile
  currFileSize : Int

/-- Go: `func newRollFileLogMessageSink( dirPath string, filePrefix string, numMaxFiles int,
maxFileSize KBytes, threshold LogSeverity) (*rollFileLogMessageSink, error)`; `TrimSpace` is
`strings.TrimSpace`. The worker goroutine `rollFileSinkHandler` is started on the returned
sink, on the last path only. -/
def newRollFileLogMessageSink (TrimSpace : String → String) (env : RollEnv) (fs : RollFs)
    (dirPath filePrefix : String) (numMaxFiles : Int) (maxFileSize : Nat)
    (threshold : LogSeverity) : (Option rollFileSinkCtx × GoError) × RollFs :=
  match fs.statDir dirPath with
  | none => ((none, some "os.Stat() failed"), fs)
  | some isDir =>
    if !isDir then ((none, some "dir path is not a directory"), fs)
    else
      let trimmedFilePrefix := TrimSpace filePrefix
      if goLen trimmedFilePrefix ≤ 0 then ((none, some "invalid file prefix"), fs)
      else if numMaxFiles ≤ 0 then ((none, some "invalid numMaxFiles parameter"), fs)
      else if maxFileSize ≤ 0 then ((none, some "invalid maxFileSize parameter"), fs)
      else
        match createNewRollFile env fs trimmedFilePrefix dirPath numMaxFiles with
        | ((_, some err), fs1) => ((none, some err), fs1)
        | ((logFile, none), fs1) =>
          ((some
            { base := { threshold := threshold, isFrequentFlush := false,
                        messageTypeToFormat := defaultMessageTypeToFormat },
              dirPath := dirPath, filePrefix := trimmedFilePrefix, numMaxFiles := numMaxFiles,
              maxFileSize := (maxFileSize * kBytesToBytes) % 18446744073709551616,
              currFile := logFile, currFileSize := 0, chStrLog := [],
              chReqTerminate := false, chReplyTerminate := false }, none), fs1)

/-- Go: `func rollFileSinkOnNewStrLog( ctx *rollFileLogMessageSink, strMessage string)`. -/
def rollFileSinkOnNewStrLog (env : RollEnv) (ctx : rollFileSinkCtx) (strMessage : String)
    (fs : RollFs) : rollFileSinkCtx × RollFs :=
  let strMessageLen := goLen strMessage
  if ctx.currFile.isSome &&
      decide (toUint64 (wrapInt (ctx.currFileSize + strMessageLen)) < ctx.maxFileSize) then
    ({ ctx with currFileSize := wrapInt (ctx.currFileSize + strMessageLen) },
      FprintRoll env ctx.currFile strMessage fs)
  else
    let ctx1 : rollFileSinkCtx := { ctx with currFile := ctx.currFile.map OsFile.Close }
    match createNewRollFile env fs ctx1.filePrefix ctx1.dirPath ctx1.numMaxFiles with
    | ((newFile, none), fs1) =>
      ({ ctx1 with currFile := newFile, currFileSize := strMessageLen },
        FprintRoll env newFile strMessage fs1)
    | ((_, some _), fs1) => (ctx1, fs1)

/-- The strings that the worker goroutine `rollFileSinkHandler` receives from `chStrLog`, one
after the other (in its main loop or in its drain loop), each processed by
`rollFileSinkOnNewStrLog` with the answers of the clock and the operating system at that
moment. -/
def rollFileSinkProcess : List (RollEnv × String) → rollFileSinkCtx → RollFs →
    rollFileSinkCtx × RollFs
  | [], ctx, fs => (ctx, fs)
  | (env, strLog) :: rest, ctx, fs =>
    let r := rollFileSinkOnNewStrLog env ctx strLog fs
    rollFileSinkProcess rest r.1 r.2

/-- Go: `func rollFileSinkHandler( ctx *rollFileLogMessageSink)`, the whole run of the worker
goroutine: the strings that it receives from `chStrLog`, in its main loop and then, after
the terminate signal, in its drain loop, are processed in the order received; then the
current file, if any, is closed and the field set to nil, and `chReplyTerminate` is
closed. -/
def rollFileSinkHandler (received : List (RollEnv × String)) (ctx : rollFileSinkCtx)
    (fs : RollFs) : rollFileSinkCtx × RollFs :=
  let r := rollFileSinkProcess received ctx fs
  ({ r.1 with currFile := none, chReplyTerminate := true }, r.2)

/-! ## Concrete values used to evaluate the definitions -/

/-- A stand-in for `time.Time.Format`. -/
def exampleTimeFormat : TimeFormat := fun _ layout => layout

/-- A Debug message. -/
def exampleMessage : LogMessage :=
  { text := "Debug message", severity := DebugSeverity, messageType := LogMessageType,
    timestamp := { year := 2020, month := 1, day := 2, hour := 3, minute := 4, second := 5,
                   nanosecond := 0 },
    filename := "main.go", line := 10, funcName := "main.main" }

/-- A memory where address 1 holds a file sink of threshold Debug on the open file `log.txt`,
address 2 a rolling-file sink of threshold Debug that was not terminated, and every other
address a console sink of threshold Info. -/
def exampleWorld : World :=
  { heap := fun p =>
      if p = 1 then
        .file { base := { threshold := DebugSeverity, isFrequentFlush := true,
                          messageTypeToFormat := defaultMessageTypeToFormat },
                outFile := some { name := "log.txt", closed := false } }
      else if p = 2 then
        .rollFile { base := { threshold := DebugSeverity, isFrequentFlush := false,
                              messageTypeToFormat := defaultMessageTypeToFormat },
                    dirPath := "/tmp", filePrefix := "roll_file", numMaxFiles := 3,
                    maxFileSize := 102400, chStrLog := [], chReqTerminate := false,
                    chReplyTerminate := false }
      else .console (newConsoleLogMessageSink InfoSeverity false),
    stdout := [], fs := fun _ => [], calls := [] }

/-- A stand-in for `strings.TrimSpace` that removes the white space of `Char.isWhitespace`
at both ends. -/
def exampleTrimSpace (s : String) : String :=
  String.mk ((s.data.dropWhile Char.isWhitespace).reverse.dropWhile Char.isWhitespace).reverse

/-- Answers of the clock and the operating system with no failing call. -/
def exampleRollEnv : RollEnv :=
  { Now := { year := 2020, month := 1, day := 2, hour := 3, minute := 4, second := 5,
             nanosecond := 6000000 },
    instant := 100, globFails := false, statFails := fun _ => false,
    removeFails := fun _ => false, createFails := fun _ => false }

/-- One term of a pattern of `filepath.Match`: a character that stands for itself, `?`, `*`,
or a character class that lists single characters. -/
inductive GlobTerm where
  | lit (c : Char)
  | any
  | star
  | cls (chars : List Char)

/-- The terms of a pattern made of plain characters, `?`, `*` and classes `[...]` that list
single characters; `cur` holds the characters read so far of a class that is open. -/
def globTerms : List Char → Option (List Char) → List GlobTerm
  | [], _ => []
  | c :: rest, some chars =>
    if c = ']' then GlobTerm.cls chars :: globTerms rest none
    else globTerms rest (some (chars ++ [c]))
  | c :: rest, none =>
    if c = '[' then globTerms rest (some [])
    else if c = '*' then GlobTerm.star :: globTerms rest none
    else if c = '?' then GlobTerm.any :: globTerms rest none
    else GlobTerm.lit c :: globTerms rest none

/-- What `*` can leave of a name: it matches any sequence of characters other than the
separator. -/
def starRests : List Char → List (List Char)
  | [] => [[]]
  | c :: rest => (c :: rest) :: (if c = '/' then [] else starRests rest)

/-- Whether the terms match the whole name: `?` and `*` do not match the separator. -/
def matchTerms : List GlobTerm → List Char → Bool
  | [], name => name.isEmpty
  | .star :: terms, name => (starRests name).any (fun rest => matchTerms terms rest)
  | .lit c :: terms, x :: name => x == c && matchTerms terms name
  | .any :: terms, x :: name => x != '/' && matchTerms terms name
  | .cls chars :: terms, x :: name => chars.contains x && matchTerms terms name
  | _ :: _, [] => false

/-- A stand-in for the pattern language of `filepath.Match` on the patterns made of plain
characters, `?`, `*` and classes that list single characters (no range, no negation, no
escape). -/
def exampleGlobMatch (pattern path : String) : Bool :=
  matchTerms (globTerms pattern.data none) path.data

/-- A file system where `/tmp/logs` is a directory that holds three files with the prefix
`roll_file`, written at the instants 1, 2 and 3, and one other file. -/
def exampleRollFs : RollFs :=
  { statDir := fun p => if p = "/tmp/logs" then some true else none,
    files :=
      [ { dir := "/tmp/logs", name := "roll_file_a.txt", modTime := 1, content := "first" },
        { dir := "/tmp/logs", name := "roll_file_b.txt", modTime := 2, content := "second" },
        { dir := "/tmp/logs", name := "roll_file_c.txt", modTime := 3, content := "third" },
        { dir := "/tmp/logs", name := "notes.txt", modTime := 0, content := "" } ],
    globMatch := exampleGlobMatch }

/-- The state of a rolling-file sink on `exampleRollFs` with at most three files of at most
10 bytes, whose current file is the open file `roll_file_c.txt`, 8 bytes long so far. -/
def exampleRollCtx : rollFileSinkCtx :=
  { base := { threshold := DebugSeverity, isFrequentFlush := false,
              messageTypeToFormat := defaultMessageTypeToFormat },
    dirPath := "/tmp/logs", filePrefix := "roll_file", numMaxFiles := 3, maxFileSize := 10,
    chStrLog := [], chReqTerminate := false, chReplyTerminate := false,
    currFile := some { name := "/tmp/logs/roll_file_c.txt", closed := false },
    currFileSize := 8 }

/-- A file system where `/tmp/logs` is an empty directory. -/
def emptyRollFs : RollFs :=
  { statDir := fun p => if p = "/tmp/logs" then some true else none, files := [],
    globMatch := exampleGlobMatch }

/-- Answers with no failing call, one second and 100 instants after `exampleRollEnv`. -/
def exampleRollEnv2 : RollEnv :=
  { exampleRollEnv with
    Now := { year := 2020, month := 1, day := 2, hour := 3, minute := 4, second := 6,
             nanosecond := 6000000 },
    instant := 200 }

/-- Answers with no failing call, two seconds and 200 instants after `exampleRollEnv`. -/
def exampleRollEnv3 : RollEnv :=
  { exampleRollEnv with
    Now := { year := 2020, month := 1, day := 2, hour := 3, minute := 4, second := 7,
             nanosecond := 6000000 },
    instant := 300 }

/-- Answers one second after `exampleRollEnv` where every `os.Create` fails. -/
def exampleRollEnvCreateFails : RollEnv :=
  { exampleRollEnv2 with createFails := fun _ => true }

/-- A string of `n` bytes. -/
def stringOfBytes (n : Nat) : String := String.mk (List.replicate n 'x')

/-- Requests that register the sinks at the addresses 0 and 2 of `exampleWorld`, set a
threshold, clear all sinks, register the sink at the address 1, clear all sinks again and
register the sink at the address 3. -/
def exampleRequests : List Request :=
  [.reqMessageSinkType 0, .reqMessageSinkType 2, .reqMessageSinkThresholdType 1 InfoSeverity,
   .reqClearSinksType, .reqMessageSinkType 1, .reqClearSinksType, .reqMessageSinkType 3]

/-- A file system where `/tmp/logs[1]`, a directory whose name holds the characters `[` and
`]`, is an empty directory. -/
def bracketRollFs : RollFs :=
  { statDir := fun p => if p = "/tmp/logs[1]" then some true else none, files := [],
    globMatch := exampleGlobMatch }

/-- A file system with the two directories `/tmp/logs[1]` and `/tmp/logs1`, each of which
holds the files `roll_file_a.txt` and `roll_file_b.txt`. -/
def twoDirsRollFs : RollFs :=
  { statDir := fun p =>
      if p = "/tmp/logs[1]" then some true else if p = "/tmp/logs1" then some true else none,
    files :=
      [ { dir := "/tmp/logs1", name := "roll_file_a.txt", modTime := 1, content := "a" },
        { dir := "/tmp/logs1", name := "roll_file_b.txt", modTime := 2, content := "b" },
        { dir := "/tmp/logs[1]", name := "roll_file_a.txt", modTime := 3, content := "c" },
        { dir := "/tmp/logs[1]", name := "roll_file_b.txt", modTime := 4, content := "d" } ],
    globMatch := exampleGlobMatch }

/-! ## Vocabulary of the statements -/

/-- The number of sinks registered since the start or since the last clear-all, after the
requests of the list have been served, given the number `n` before them. -/
def registeredSinceClear : List Request → Nat → Nat
  | [], n => n
  | .reqMessageSinkType _ :: rest, n => registeredSinceClear rest (n + 1)
  | .reqClearSinksType :: rest, _ => registeredSinceClear rest 0
  | _ :: rest, n => registeredSinceClear rest n

/-- The sink has released what `terminate()` releases: a file sink holds no file any more, a
rolling-file sink has both termination channels closed. -/
def LogMessageSink.released : LogMessageSink → Bool
  | .console _ => true
  | .file f => f.outFile.isNone
  | .rollFile r => r.chReqTerminate && r.chReplyTerminate

/-- Every rolling-file sink in the list is there once and was not terminated yet. This holds
for the sink list of the dispatcher: each `Add...Sink` call registers an object that it has
just built, and a sink that was terminated by a clear-all is removed from the list. -/
def Terminable (sinks : List SinkPtr) (w : World) : Prop :=
  ∀ sink ∈ sinks, ∀ r, w.heap sink = .rollFile r →
    r.chReqTerminate = false ∧ sinks.count sink = 1

/-- What is said of one call `emit` of an emission function with the text `text`, the
severity `s` and the message kind `k`, in the context `context`: it returns true exactly when
`s` is at least the global threshold and the facility is not terminated; when it returns true
exactly one message with that text, severity and kind has been put at the end of the message
channel and nothing else has changed; when it returns false nothing has changed. -/
def EmitsWith (emit : Context → Bool × Context) (text : String) (s : LogSeverity)
    (k : MessageType) (context : Context) : Prop :=
  ((emit context).1 = true ↔ (context.severity ≤ s ∧ IsTerminated context = false)) ∧
  ((emit context).1 = true →
    ∃ m : LogMessage, m.text = text ∧ m.severity = s ∧ m.messageType = k ∧
      (emit context).2 = { context with chLogMessages := context.chLogMessages ++ [m] }) ∧
  ((emit context).1 = false → (emit context).2 = context)

/-- A context with the global threshold Info, an empty message channel, not terminated. -/
def exampleContext : Context :=
  { severity := InfoSeverity, chLogMessages := [], chReqTerminate := false,
    chReplyTerminate := false }

/-- A stand-in for the clock and the call stack. -/
def exampleRuntime : Runtime :=
  { Now := { year := 2020, month := 1, day := 2, hour := 3, minute := 4, second := 5,
             nanosecond := 0 },
    Caller := fun _ => (1, "main.go", 10, true),
    FuncForPC := fun _ => some "main.main" }

/-- A dispatcher state with the sinks at the addresses 0, 1 and 2 of `exampleWorld` registered
and one message held by the message channel. -/
def exampleState : DispatcherState :=
  { context := { severity := DebugSeverity, chLogMessages := [exampleMessage],
                 chReqTerminate := false, chReplyTerminate := false },
    ctx := { sinks := [0, 1, 2] }, isTerminate := false, world := exampleWorld }

/-- The concatenation of the strings of a list, in the order of the list. -/
def concatStrings : List String → String
  | [] => ""
  | s :: rest => s ++ concatStrings rest

/-- What one format item contributes to the formatted message: the line-terminator item a
newline, every other item its rendering followed by a single space. -/
def renderItem (timeFormat : TimeFormat) (msg : LogMessage) (item : LogFormatItem) : String :=
  if item = LineEndFmt then "\n" else formatItemText timeFormat msg item ++ " "

/-- A wall-clock reading as the accessors of `time.Time` give it (month 1..12, day 1..31,
hour 0..23, minute and second 0..59, nanosecond 0..999999999) with a year in 0..9999. -/
def Time.clockReading (t : Time) : Prop :=
  0 ≤ t.year ∧ t.year ≤ 9999 ∧ 1 ≤ t.month ∧ t.month ≤ 12 ∧ 1 ≤ t.day ∧ t.day ≤ 31 ∧
  0 ≤ t.hour ∧ t.hour ≤ 23 ∧ 0 ≤ t.minute ∧ t.minute ≤ 59 ∧
  0 ≤ t.second ∧ t.second ≤ 59 ∧ 0 ≤ t.nanosecond ∧ t.nanosecond ≤ 999999999

/-- A string of exactly `n` decimal digits. -/
def IsDigits (n : Nat) (s : String) : Prop :=
  s.length = n ∧ ∀ c ∈ s.data, c.isDigit = true

/-- The sinks on which a trace calls `terminate`, in the order of the calls. -/
def terminatedPtrs : List Call → List SinkPtr
  | [] => []
  | .terminate sink :: rest => sink :: terminatedPtrs rest
  | _ :: rest => terminatedPtrs rest

/-- The sink objects that the register-sink requests of the list bring, in request order. -/
def registeredPtrs : List Request → List SinkPtr
  | [] => []
  | .reqMessageSinkType messageSink :: rest => messageSink :: registeredPtrs rest
  | _ :: rest => registeredPtrs rest

/-- The files of the directory `dirPath` whose name begins with the prefix. -/
def filesWithPrefix (fs : RollFs) (dirPath filePrefix : String) : List RollFile :=
  fs.files.filter (fun f => f.dir == dirPath && filePrefix.data.isPrefixOf f.name.data)

/-! ## Theorems -/

/-- Both sides of the order test on two of the six named levels. -/
lemma isGreaterOrEqualThan_iff_le (a b : LogSeverity)
    (ha : a ∈ severityLevels) (hb : b ∈ severityLevels) :
    IsGreaterOrEqualThan a b = true ↔ b ≤ a := by
  simp only [severityLevels, List.mem_cons, List.mem_singleton, List.not_mem_nil,
    or_false] at ha hb
  rcases ha with rfl | rfl | rfl | rfl | rfl | rfl <;>
    rcases hb with rfl | rfl | rfl | rfl | rfl | rfl <;> decide

/-- C1: on the six severity levels Debug < Info < Print < Warning < Error < Fatal (ranked by
their constant values 0..5), `a.IsGreaterOrEqualThan(b)` is true exactly when the rank of `a`
is at least the rank of `b`; the predicate is reflexive, and Fatal is greater or equal than
every level. -/
theorem C1_isGreaterOrEqualThan_order (a b : LogSeverity)
    (ha : a ∈ severityLevels) (hb : b ∈ severityLevels) :
    (IsGreaterOrEqualThan a b = true ↔ b ≤ a) ∧
    IsGreaterOrEqualThan a a = true ∧
    IsGreaterOrEqualThan FatalSeverity b = true := by
  refine ⟨isGreaterOrEqualThan_iff_le a b ha hb, ?_, ?_⟩
  · exact (isGreaterOrEqualThan_iff_le a a ha ha).mpr le_rfl
  · simp [IsGreaterOrEqualThan]

/-- C1 at Warning and Info: the hypotheses hold and Warning is at least Info. -/
theorem C1_isGreaterOrEqualThan_order_witness :
    (IsGreaterOrEqualThan WarningSeverity InfoSeverity = true ↔
      InfoSeverity ≤ WarningSeverity) ∧
    IsGreaterOrEqualThan WarningSeverity WarningSeverity = true ∧
    IsGreaterOrEqualThan FatalSeverity InfoSeverity = true :=
  C1_isGreaterOrEqualThan_order WarningSeverity InfoSeverity (by decide) (by decide)

lemma isGreaterOrEqualThan_false_of_lt (a b : LogSeverity)
    (ha : a ∈ severityLevels) (hb : b ∈ severityLevels) (h : a < b) :
    IsGreaterOrEqualThan a b = false := by
  cases hge : IsGreaterOrEqualThan a b
  · rfl
  · exact absurd ((isGreaterOrEqualThan_iff_le a b ha hb).mp hge) (not_le.mpr h)

/-- C2: for each of the three sink variants, with the sink threshold `t` and the message
severity among the six levels: a message whose severity is strictly below `t` leaves the
sinks, the standard output and the files as they were (nothing is formatted or emitted); a
message at or above `t` makes the sink emit exactly one string `s` (appended to the standard
output for a console sink, to the file for a file sink whose file is open, to the string
channel for a rolling-file sink) and changes nothing else; `s` is the formatted message when
the sink has a format for the kind of the message. -/
theorem C2_sink_threshold_filter (timeFormat : TimeFormat) (sink : SinkPtr) (msg : LogMessage)
    (w : World)
    (ht : (w.heap sink).Severity ∈ severityLevels) (hm : msg.severity ∈ severityLevels) :
    (msg.severity < (w.heap sink).Severity →
      (LogMessageSink.OnLogMessage timeFormat sink msg w).heap = w.heap ∧
      (LogMessageSink.OnLogMessage timeFormat sink msg w).stdout = w.stdout ∧
      (LogMessageSink.OnLogMessage timeFormat sink msg w).fs = w.fs) ∧
    ((w.heap sink).Severity ≤ msg.severity →
      ∃ s : String,
        (∀ format, (w.heap sink).base.messageTypeToFormat msg.messageType = some format →
          s = formatLogMessage timeFormat msg format) ∧
        (∀ c, w.heap sink = .console c →
          (LogMessageSink.OnLogMessage timeFormat sink msg w).stdout = w.stdout ++ [s] ∧
          (LogMessageSink.OnLogMessage timeFormat sink msg w).fs = w.fs ∧
          (LogMessageSink.OnLogMessage timeFormat sink msg w).heap = w.heap) ∧
        (∀ f h, w.heap sink = .file f → f.outFile = some h → h.closed = false →
          (LogMessageSink.OnLogMessage timeFormat sink msg w).fs =
            Function.update w.fs h.name (w.fs h.name ++ [s]) ∧
          (LogMessageSink.OnLogMessage timeFormat sink msg w).stdout = w.stdout ∧
          (LogMessageSink.OnLogMessage timeFormat sink msg w).heap = w.heap) ∧
        (∀ r, w.heap sink = .rollFile r →
          (LogMessageSink.OnLogMessage timeFormat sink msg w).heap =
            Function.update w.heap sink (.rollFile { r with chStrLog := r.chStrLog ++ [s] }) ∧
          (LogMessageSink.OnLogMessage timeFormat sink msg w).stdout = w.stdout ∧
          (LogMessageSink.OnLogMessage timeFormat sink msg w).fs = w.fs)) := by
  constructor
  · intro hlt
    have hf := isGreaterOrEqualThan_false_of_lt _ _ hm ht hlt
    unfold LogMessageSink.OnLogMessage
    cases hs : w.heap sink with
    | console c =>
      rw [hs] at hf
      simp [consoleLogMessageSink.OnLogMessage, LogMessageSink.Severity,
        consoleLogMessageSink.Severity] at hf ⊢
      simp [hf]
    | file f =>
      rw [hs] at hf
      simp [fileLogMessageSink.OnLogMessage, LogMessageSink.Severity,
        fileLogMessageSink.Severity] at hf ⊢
      simp [hf]
    | rollFile r =>
      rw [hs] at hf
      simp [rollFileLogMessageSink.OnLogMessage, LogMessageSink.Severity,
        rollFileLogMessageSink.Severity] at hf ⊢
      simp [hf, ← hs]
  · intro hle
    have hge := (isGreaterOrEqualThan_iff_le _ _ hm ht).mpr hle
    unfold LogMessageSink.OnLogMessage
    cases hs : w.heap sink with
    | console c =>
      rw [hs] at hge
      simp only [LogMessageSink.Severity, consoleLogMessageSink.Severity] at hge
      cases hfmt : c.base.messageTypeToFormat msg.messageType with
      | none =>
        refine ⟨msg.text ++ "\n", ?_, ?_, ?_, ?_⟩
        · intro format hformat
          simp [LogMessageSink.base, hfmt] at hformat
        · intro c1 hc1
          cases hc1
          simp [consoleLogMessageSink.OnLogMessage, consoleLogMessageSink.flush, hge, hfmt]
        · intro f h hf
          cases hf
        · intro r hr
          cases hr
      | some format0 =>
        refine ⟨formatLogMessage timeFormat msg format0, ?_, ?_, ?_, ?_⟩
        · intro format hformat
          simp [LogMessageSink.base, hfmt] at hformat
          rw [hformat]
        · intro c1 hc1
          cases hc1
          simp [consoleLogMessageSink.OnLogMessage, consoleLogMessageSink.flush, hge, hfmt]
        · intro f h hf
          cases hf
        · intro r hr
          cases hr
    | file f =>
      rw [hs] at hge
      simp only [LogMessageSink.Severity, fileLogMessageSink.Severity] at hge
      cases hfmt : f.base.messageTypeToFormat msg.messageType with
      | none =>
        refine ⟨msg.text ++ "\n", ?_, ?_, ?_, ?_⟩
        · intro format hformat
          simp [LogMessageSink.base, hfmt] at hformat
        · intro c1 hc1
          cases hc1
        · intro f1 h hf1 hout hclosed
          cases hf1
          simp [fileLogMessageSink.OnLogMessage, fileLogMessageSink.flush, Fprint, hge, hfmt,
            hout, hclosed]
        · intro r hr
          cases hr
      | some format0 =>
        refine ⟨formatLogMessage timeFormat msg format0, ?_, ?_, ?_, ?_⟩
        · intro format hformat
          simp [LogMessageSink.base, hfmt] at hformat
          rw [hformat]
        · intro c1 hc1
          cases hc1
        · intro f1 h hf1 hout hclosed
          cases hf1
          simp [fileLogMessageSink.OnLogMessage, fileLogMessageSink.flush, Fprint, hge, hfmt,
            hout, hclosed]
        · intro r hr
          cases hr
    | rollFile r =>
      rw [hs] at hge
      simp only [LogMessageSink.Severity, rollFileLogMessageSink.Severity] at hge
      cases hfmt : r.base.messageTypeToFormat msg.messageType with
      | none =>
        refine ⟨msg.text, ?_, ?_, ?_, ?_⟩
        · intro format hformat
          simp [LogMessageSink.base, hfmt] at hformat
        · intro c1 hc1
          cases hc1
        · intro f h hf
          cases hf
        · intro r1 hr1
          cases hr1
          simp [rollFileLogMessageSink.OnLogMessage, hge, hfmt]
      | some format0 =>
        refine ⟨formatLogMessage timeFormat msg format0, ?_, ?_, ?_, ?_⟩
        · intro format hformat
          simp [LogMessageSink.base, hfmt] at hformat
          rw [hformat]
        · intro c1 hc1
          cases hc1
        · intro f h hf
          cases hf
        · intro r1 hr1
          cases hr1
          simp [rollFileLogMessageSink.OnLogMessage, hge, hfmt]

/-- C2 at a console sink of threshold Info and a Debug message: nothing is printed. -/
theorem C2_sink_threshold_filter_witness :
    (exampleWorld.heap 0).Severity ∈ severityLevels ∧
    exampleMessage.severity ∈ severityLevels ∧
    exampleMessage.severity < (exampleWorld.heap 0).Severity ∧
    (LogMessageSink.OnLogMessage exampleTimeFormat 0 exampleMessage exampleWorld).stdout =
      exampleWorld.stdout :=
  ⟨by decide, by decide, by decide,
    ((C2_sink_threshold_filter exampleTimeFormat 0 exampleMessage exampleWorld
      (by decide) (by decide)).1 (by decide)).2.1⟩


lemma onLogMessage_calls (timeFormat : TimeFormat) (sink : SinkPtr) (msg : LogMessage)
    (w : World) :
    (LogMessageSink.OnLogMessage timeFormat sink msg w).calls =
      w.calls ++ [Call.OnLogMessage sink msg] := by
  unfold LogMessageSink.OnLogMessage
  cases w.heap sink <;> rfl

lemma deliverToSinks_eq_foldl (timeFormat : TimeFormat) (newMessage : LogMessage)
    (sinks : List SinkPtr) (w : World) :
    deliverToSinks timeFormat newMessage sinks w =
      sinks.foldl (fun w1 sink => LogMessageSink.OnLogMessage timeFormat sink newMessage w1)
        w := by
  induction sinks generalizing w with
  | nil => rfl
  | cons sink rest ih => simp [deliverToSinks, ih]

lemma deliverToSinks_calls (timeFormat : TimeFormat) (newMessage : LogMessage)
    (sinks : List SinkPtr) (w : World) :
    (deliverToSinks timeFormat newMessage sinks w).calls =
      w.calls ++ sinks.map (fun sink => Call.OnLogMessage sink newMessage) := by
  induction sinks generalizing w with
  | nil => simp [deliverToSinks]
  | cons sink rest ih => simp [deliverToSinks, ih, onLogMessage_calls]

lemma flushPendingMessages_calls (timeFormat : TimeFormat) (sinks : List SinkPtr)
    (pending : List LogMessage) (w : World) :
    (flushPendingMessages timeFormat sinks pending w).calls =
      w.calls ++
        (pending.map (fun m => sinks.map (fun sink => Call.OnLogMessage sink m))).flatten := by
  induction pending generalizing w with
  | nil => simp [flushPendingMessages]
  | cons m rest ih => simp [flushPendingMessages, ih, deliverToSinks_calls]

/-- C3: when the dispatcher takes a message from the message channel, in the running branch
it calls `OnLogMessage` with that message on every registered sink exactly once, in the order
of the sink list (the calls it makes are the sink list mapped to calls, and the world
afterwards is the left fold of these calls), the sink list is unchanged and the message has
left the channel; the drain loop does the same for every message held by the channel, message
after message in channel order. -/
theorem C3_dispatch_every_sink_in_order (timeFormat : TimeFormat) (s : DispatcherState)
    (newMessage : LogMessage) (rest : List LogMessage)
    (hq : s.context.chLogMessages = newMessage :: rest) :
    (∃ s1, messageDispatcherOnMessage timeFormat s = some s1 ∧
      s1.world.calls =
        s.world.calls ++ s.ctx.sinks.map (fun sink => Call.OnLogMessage sink newMessage) ∧
      s1.world =
        s.ctx.sinks.foldl
          (fun w1 sink => LogMessageSink.OnLogMessage timeFormat sink newMessage w1) s.world ∧
      s1.ctx = s.ctx ∧ s1.context.chLogMessages = rest) ∧
    (flushPendingMessages timeFormat s.ctx.sinks s.context.chLogMessages s.world).calls =
      s.world.calls ++
        ((newMessage :: rest).map
          (fun m => s.ctx.sinks.map (fun sink => Call.OnLogMessage sink m))).flatten ∧
    flushPendingMessages timeFormat s.ctx.sinks s.context.chLogMessages s.world =
      (newMessage :: rest).foldl
        (fun w1 m => s.ctx.sinks.foldl
          (fun w2 sink => LogMessageSink.OnLogMessage timeFormat sink m w2) w1) s.world := by
  refine ⟨?_, ?_, ?_⟩
  · refine ⟨{ s with context := { s.context with chLogMessages := rest },
                     world := deliverToSinks timeFormat newMessage s.ctx.sinks s.world },
      by simp [messageDispatcherOnMessage, hq], ?_, ?_, rfl, rfl⟩
    · exact deliverToSinks_calls _ _ _ _
    · exact deliverToSinks_eq_foldl _ _ _ _
  · rw [hq]
    exact flushPendingMessages_calls _ _ _ _
  · rw [hq]
    generalize newMessage :: rest = pending
    generalize s.world = w
    induction pending generalizing w with
    | nil => rfl
    | cons m tl ih => simp [flushPendingMessages, ih, deliverToSinks_eq_foldl]


lemma sinkWithId_eq (sinkId : Int) (sinks : List SinkPtr) (indx : Nat) :
    sinkWithId sinkId sinks indx =
      if (indx : Int) ≤ sinkId ∧ sinkId < (indx : Int) + sinks.length then
        sinks[(sinkId - indx).toNat]?
      else none := by
  induction sinks generalizing indx with
  | nil =>
    have : ¬ ((indx : Int) ≤ sinkId ∧ sinkId < (indx : Int) + ([] : List SinkPtr).length) := by
      simp only [List.length_nil]; omega
    simp [sinkWithId]
  | cons sink rest ih =>
    unfold sinkWithId
    by_cases h : (indx : Int) = sinkId
    · subst h
      simp
    · rw [if_neg h, ih]
      by_cases hr : (indx : Int) ≤ sinkId ∧ sinkId < (indx : Int) + (sink :: rest).length
      · have hr1 : ((indx + 1 : Nat) : Int) ≤ sinkId ∧
            sinkId < ((indx + 1 : Nat) : Int) + rest.length := by
          simp only [List.length_cons] at hr; push_cast at hr ⊢; omega
        rw [if_pos hr, if_pos hr1]
        have : (sinkId - (indx : Int)).toNat = (sinkId - ((indx + 1 : Nat) : Int)).toNat + 1 := by
          push_cast; omega
        rw [this, List.getElem?_cons_succ]
      · have hr1 : ¬ (((indx + 1 : Nat) : Int) ≤ sinkId ∧
            sinkId < ((indx + 1 : Nat) : Int) + rest.length) := by
          simp only [List.length_cons] at hr; push_cast at hr ⊢; omega
        rw [if_neg hr, if_neg hr1]

lemma sinkWithId_of_valid (sinkId : Int) (sinks : List SinkPtr)
    (h : 0 ≤ sinkId ∧ sinkId < sinks.length) :
    ∃ sink, sinks[sinkId.toNat]? = some sink ∧ sinkWithId sinkId sinks 0 = some sink := by
  have hlt : sinkId.toNat < sinks.length := by omega
  refine ⟨sinks[sinkId.toNat], List.getElem?_eq_getElem hlt, ?_⟩
  rw [sinkWithId_eq]
  simp [h.1, h.2, List.getElem?_eq_getElem hlt]

lemma sinkWithId_of_not_valid (sinkId : Int) (sinks : List SinkPtr)
    (h : ¬ (0 ≤ sinkId ∧ sinkId < sinks.length)) :
    sinkWithId sinkId sinks 0 = none := by
  rw [sinkWithId_eq]
  simp only [Nat.cast_zero, zero_add]
  rw [if_neg h]

lemma onLogMessage_filtered (timeFormat : TimeFormat) (sink : SinkPtr) (msg : LogMessage)
    (w : World) (hf : IsGreaterOrEqualThan msg.severity (w.heap sink).Severity = false) :
    (LogMessageSink.OnLogMessage timeFormat sink msg w).heap = w.heap ∧
    (LogMessageSink.OnLogMessage timeFormat sink msg w).stdout = w.stdout ∧
    (LogMessageSink.OnLogMessage timeFormat sink msg w).fs = w.fs := by
  unfold LogMessageSink.OnLogMessage
  cases hs : w.heap sink with
  | console c =>
    rw [hs] at hf
    simp [consoleLogMessageSink.OnLogMessage, LogMessageSink.Severity,
      consoleLogMessageSink.Severity] at hf ⊢
    simp [hf]
  | file f =>
    rw [hs] at hf
    simp [fileLogMessageSink.OnLogMessage, LogMessageSink.Severity,
      fileLogMessageSink.Severity] at hf ⊢
    simp [hf]
  | rollFile r =>
    rw [hs] at hf
    simp [rollFileLogMessageSink.OnLogMessage, LogMessageSink.Severity,
      rollFileLogMessageSink.Severity] at hf ⊢
    simp [hf, ← hs]

lemma setSeverity_spec (sink : SinkPtr) (threshold : LogSeverity) (w : World) :
    ((LogMessageSink.SetSeverity sink threshold w).heap sink).Severity = threshold ∧
    ((LogMessageSink.SetSeverity sink threshold w).heap sink).base.messageTypeToFormat =
      (w.heap sink).base.messageTypeToFormat ∧
    (∀ q, q ≠ sink → (LogMessageSink.SetSeverity sink threshold w).heap q = w.heap q) ∧
    (LogMessageSink.SetSeverity sink threshold w).stdout = w.stdout ∧
    (LogMessageSink.SetSeverity sink threshold w).fs = w.fs ∧
    (LogMessageSink.SetSeverity sink threshold w).calls =
      w.calls ++ [Call.SetSeverity sink threshold] := by
  unfold LogMessageSink.SetSeverity
  cases hs : w.heap sink <;>
    simp [LogMessageSink.Severity, LogMessageSink.base, consoleLogMessageSink.SetSeverity,
      consoleLogMessageSink.Severity, fileLogMessageSink.SetSeverity,
      fileLogMessageSink.Severity, rollFileLogMessageSink.SetSeverity,
      rollFileLogMessageSink.Severity] <;>
    intro q hq <;> simp [Function.update_noteq hq]

/-- C6: a set-sink-threshold request replies true exactly when `0 <= id < number of registered
sinks`. When it replies true, the sink registered under `id` has threshold `t` afterwards (so
a message whose severity is not at least `t` is filtered out by that sink from then on), its
formats are unchanged, every sink at another address, the standard output and the files are
unchanged and the sink list is the same. When it replies false nothing at all is changed. -/
theorem C6_set_sink_threshold (ctx : ctxMessageDispatcher) (w : World)
    (sinkId : MessageSinkId) (threshold : LogSeverity) :
    ∃ ok w1,
      handleRequest (.reqMessageSinkThresholdType sinkId threshold) ctx w =
        some (.replyMessageSinkThresholdType ok, ctx, w1) ∧
      (ok = true ↔ (0 : Int) ≤ sinkId ∧ sinkId < (ctx.sinks.length : Int)) ∧
      (ok = true → ∃ sink, ctx.sinks[sinkId.toNat]? = some sink ∧
        (w1.heap sink).Severity = threshold ∧
        (w1.heap sink).base.messageTypeToFormat = (w.heap sink).base.messageTypeToFormat ∧
        (∀ q, q ≠ sink → w1.heap q = w.heap q) ∧
        w1.stdout = w.stdout ∧ w1.fs = w.fs ∧
        (∀ (timeFormat : TimeFormat) (msg : LogMessage),
          IsGreaterOrEqualThan msg.severity threshold = false →
          (LogMessageSink.OnLogMessage timeFormat sink msg w1).heap = w1.heap ∧
          (LogMessageSink.OnLogMessage timeFormat sink msg w1).stdout = w1.stdout ∧
          (LogMessageSink.OnLogMessage timeFormat sink msg w1).fs = w1.fs)) ∧
      (ok = false → w1 = w) := by
  by_cases h : (0 : Int) ≤ sinkId ∧ sinkId < (ctx.sinks.length : Int)
  · obtain ⟨sink, hget, hfind⟩ := sinkWithId_of_valid sinkId ctx.sinks h
    obtain ⟨h1, h2, h3, h4, h5, _⟩ := setSeverity_spec sink threshold w
    refine ⟨true, LogMessageSink.SetSeverity sink threshold w, ?_, ?_, ?_, ?_⟩
    · simp [handleRequest, hfind]
    · simp [h]
    · intro _
      refine ⟨sink, hget, h1, h2, h3, h4, h5, ?_⟩
      intro timeFormat msg hf
      exact onLogMessage_filtered timeFormat sink msg _ (by rw [h1]; exact hf)
    · intro hc; cases hc
  · refine ⟨false, w, ?_, ?_, ?_, ?_⟩
    · simp [handleRequest, sinkWithId_of_not_valid sinkId ctx.sinks h]
    · simp [h]
    · intro hc; cases hc
    · intro _; rfl


lemma setSinkFormat_spec (sink : SinkPtr) (messageType : MessageType)
    (format : LogFormatItems) (w : World) :
    (LogMessageSink.setSinkFormat sink messageType format w).2 = true ∧
    ((LogMessageSink.setSinkFormat sink messageType format w).1.heap sink).base.messageTypeToFormat
      = Function.update (w.heap sink).base.messageTypeToFormat messageType (some format) ∧
    ((LogMessageSink.setSinkFormat sink messageType format w).1.heap sink).Severity =
      (w.heap sink).Severity ∧
    (∀ q, q ≠ sink →
      (LogMessageSink.setSinkFormat sink messageType format w).1.heap q = w.heap q) ∧
    (LogMessageSink.setSinkFormat sink messageType format w).1.stdout = w.stdout ∧
    (LogMessageSink.setSinkFormat sink messageType format w).1.fs = w.fs ∧
    (LogMessageSink.setSinkFormat sink messageType format w).1.calls =
      w.calls ++ [Call.setSinkFormat sink messageType format] := by
  unfold LogMessageSink.setSinkFormat
  cases hs : w.heap sink <;>
    simp [LogMessageSink.Severity, LogMessageSink.base, consoleLogMessageSink.setSinkFormat,
      consoleLogMessageSink.Severity, fileLogMessageSink.setSinkFormat,
      fileLogMessageSink.Severity, rollFileLogMessageSink.setSinkFormat,
      rollFileLogMessageSink.Severity, BaseLogMessageSink.setSinkFormat] <;>
    intro q hq <;> simp [Function.update_noteq hq]

/-- C7: a set-sink-format request with an identifier that is not registered (not in
`0 <= id < number of sinks`) replies false and changes nothing. With a registered identifier
it replies true; the format of the addressed sink for the message kind `k` is `f` afterwards,
its format for every other message kind and its threshold are unchanged, and every sink at
another address, the standard output, the files and the sink list are unchanged. -/
theorem C7_set_sink_format (ctx : ctxMessageDispatcher) (w : World)
    (sinkId : MessageSinkId) (k : MessageType) (f : LogFormatItems) :
    (¬ ((0 : Int) ≤ sinkId ∧ sinkId < (ctx.sinks.length : Int)) →
      handleRequest (.reqSetSinkFormatType sinkId k f) ctx w =
        some (.replySetSinkFormatType false, ctx, w)) ∧
    ((0 : Int) ≤ sinkId ∧ sinkId < (ctx.sinks.length : Int) →
      ∃ sink w1, ctx.sinks[sinkId.toNat]? = some sink ∧
        handleRequest (.reqSetSinkFormatType sinkId k f) ctx w =
          some (.replySetSinkFormatType true, ctx, w1) ∧
        (w1.heap sink).base.messageTypeToFormat k = some f ∧
        (∀ k1, k1 ≠ k →
          (w1.heap sink).base.messageTypeToFormat k1 =
            (w.heap sink).base.messageTypeToFormat k1) ∧
        (w1.heap sink).Severity = (w.heap sink).Severity ∧
        (∀ q, q ≠ sink → w1.heap q = w.heap q) ∧
        w1.stdout = w.stdout ∧ w1.fs = w.fs) := by
  constructor
  · intro h
    simp [handleRequest, sinkWithId_of_not_valid sinkId ctx.sinks h]
  · intro h
    obtain ⟨sink, hget, hfind⟩ := sinkWithId_of_valid sinkId ctx.sinks h
    obtain ⟨h1, h2, h3, h4, h5, h6, _⟩ := setSinkFormat_spec sink k f w
    refine ⟨sink, (LogMessageSink.setSinkFormat sink k f w).1, hget, ?_, ?_, ?_, h3, h4, h5, h6⟩
    · simp [handleRequest, hfind, h1]
    · rw [h2]; simp
    · intro k1 hk1
      rw [h2]; simp [Function.update_noteq hk1]

/-- C7 at the identifier 0 of a one-sink list: the identifier is registered. -/
theorem C7_set_sink_format_witness :
    ((0 : Int) ≤ 0 ∧ (0 : Int) < (({ sinks := [0] } : ctxMessageDispatcher).sinks.length : Int)) ∧
    ∃ sink w1, ({ sinks := [0] } : ctxMessageDispatcher).sinks[(0 : Int).toNat]? = some sink ∧
      handleRequest (.reqSetSinkFormatType 0 PrintMessageType [ShortTimestampFmt, TextFmt])
          { sinks := [0] } exampleWorld =
        some (.replySetSinkFormatType true, { sinks := [0] }, w1) ∧
      (w1.heap sink).base.messageTypeToFormat PrintMessageType =
        some [ShortTimestampFmt, TextFmt] :=
  ⟨by decide,
    let ⟨sink, w1, h1, h2, h3, _⟩ :=
      (C7_set_sink_format { sinks := [0] } exampleWorld 0 PrintMessageType
        [ShortTimestampFmt, TextFmt]).2 (by decide)
    ⟨sink, w1, h1, h2, h3⟩⟩


lemma handleRequest_length (request : Request) (ctx ctx1 : ctxMessageDispatcher) (w w1 : World)
    (reply : Reply) (h : handleRequest request ctx w = some (reply, ctx1, w1)) :
    ctx1.sinks.length = registeredSinceClear [request] ctx.sinks.length := by
  cases request with
  | reqMessageSinkType messageSink =>
    simp [handleRequest] at h
    obtain ⟨_, h2, _⟩ := h
    simp [← h2, registeredSinceClear]
  | reqMessageSinkThresholdType sinkId threshold =>
    cases hf : sinkWithId sinkId ctx.sinks 0 <;> simp [handleRequest, hf] at h <;>
      simp [← h.2.1, registeredSinceClear]
  | reqClearSinksType =>
    cases ht : terminateSinks ctx.sinks w <;> simp [handleRequest, ht] at h
    simp [← h.2.1, registeredSinceClear]
  | reqSetSinkFormatType sinkId messageType formatItems =>
    cases hf : sinkWithId sinkId ctx.sinks 0 <;> simp [handleRequest, hf] at h <;>
      simp [← h.2.1, registeredSinceClear]
  | other =>
    simp [handleRequest] at h
    simp [← h.2.1, registeredSinceClear]

lemma registeredSinceClear_cons (request : Request) (rest : List Request) (n : Nat) :
    registeredSinceClear (request :: rest) n =
      registeredSinceClear rest (registeredSinceClear [request] n) := by
  cases request <;> simp [registeredSinceClear]

lemma handleRequests_length (rs : List Request) (ctx ctx1 : ctxMessageDispatcher)
    (w w1 : World) (replies : List Reply)
    (h : handleRequests rs ctx w = some (replies, ctx1, w1)) :
    ctx1.sinks.length = registeredSinceClear rs ctx.sinks.length := by
  induction rs generalizing ctx w replies with
  | nil =>
    simp [handleRequests] at h
    simp [← h.2.1, registeredSinceClear]
  | cons request rest ih =>
    unfold handleRequests at h
    cases h1 : handleRequest request ctx w with
    | none => simp [h1] at h
    | some res =>
      obtain ⟨reply, ctxa, wa⟩ := res
      cases h2 : handleRequests rest ctxa wa with
      | none => simp [h1, h2] at h
      | some res2 =>
        obtain ⟨replies2, ctxb, wb⟩ := res2
        simp [h1, h2] at h
        obtain ⟨_, hc, hw⟩ := h
        subst hc hw
        rw [ih ctxa wa replies2 h2, handleRequest_length request ctx ctxa w wa reply h1,
          ← registeredSinceClear_cons]

/-- C4: in every dispatcher state a register-sink request appends the sink at the end of the
sink list (every earlier entry keeps its position), changes nothing else, and replies ok with
the identifier equal to the position of the new entry, the former length of the list. When
the state was reached from the start of the dispatcher (empty list) by a sequence of requests,
that identifier is the number of sinks registered since the start or since the last clear-all
of the sequence; right after a clear-all the identifier is 0 again. -/
theorem C4_register_sink_identifier (ctx : ctxMessageDispatcher) (w : World)
    (messageSink : SinkPtr) :
    handleRequest (.reqMessageSinkType messageSink) ctx w =
      some (.replyMessageSinkType true (ctx.sinks.length : Int),
        { sinks := ctx.sinks ++ [messageSink] }, w) ∧
    (∀ i, i < ctx.sinks.length → (ctx.sinks ++ [messageSink])[i]? = ctx.sinks[i]?) ∧
    (ctx.sinks ++ [messageSink])[ctx.sinks.length]? = some messageSink ∧
    (∀ (rs : List Request) (w0 : World) (replies : List Reply),
      handleRequests rs { sinks := [] } w0 = some (replies, ctx, w) →
      handleRequest (.reqMessageSinkType messageSink) ctx w =
        some (.replyMessageSinkType true (registeredSinceClear rs 0 : Nat),
          { sinks := ctx.sinks ++ [messageSink] }, w)) ∧
    (∀ (reply : Reply) (ctx1 : ctxMessageDispatcher) (w1 : World),
      handleRequest .reqClearSinksType ctx w = some (reply, ctx1, w1) →
      handleRequest (.reqMessageSinkType messageSink) ctx1 w1 =
        some (.replyMessageSinkType true 0, { sinks := [messageSink] }, w1)) := by
  have hreg : ∀ (c : ctxMessageDispatcher) (v : World),
      handleRequest (.reqMessageSinkType messageSink) c v =
        some (.replyMessageSinkType true (c.sinks.length : Int),
          { sinks := c.sinks ++ [messageSink] }, v) := by
    intro c v
    simp [handleRequest]
  refine ⟨hreg ctx w, ?_, ?_, ?_, ?_⟩
  · intro i hi
    exact List.getElem?_append_left hi
  · simp
  · intro rs w0 replies hrun
    have hlen := handleRequests_length rs _ ctx w0 w replies hrun
    simp only [List.length_nil] at hlen
    rw [hreg ctx w, hlen]
  · intro reply ctx1 w1 hclear
    cases ht : terminateSinks ctx.sinks w <;> simp [handleRequest, ht] at hclear
    obtain ⟨_, hc, _⟩ := hclear
    subst hc
    simp [handleRequest]

lemma handleRequest_of_ne_clear (request : Request) (ctx : ctxMessageDispatcher) (w : World)
    (h : request ≠ Request.reqClearSinksType) :
    ∃ reply ctx1 w1, handleRequest request ctx w = some (reply, ctx1, w1) ∧
      ∃ extra, ctx1.sinks = ctx.sinks ++ extra := by
  cases request with
  | reqMessageSinkType messageSink =>
    exact ⟨_, _, _, rfl, [messageSink], rfl⟩
  | reqMessageSinkThresholdType sinkId threshold =>
    cases hf : sinkWithId sinkId ctx.sinks 0 with
    | none =>
      exact ⟨.replyMessageSinkThresholdType false, ctx, w, by simp [handleRequest, hf], [],
        by simp⟩
    | some sink =>
      exact ⟨.replyMessageSinkThresholdType true, ctx,
        LogMessageSink.SetSeverity sink threshold w, by simp [handleRequest, hf], [], by simp⟩
  | reqClearSinksType => exact absurd rfl h
  | reqSetSinkFormatType sinkId messageType formatItems =>
    cases hf : sinkWithId sinkId ctx.sinks 0 with
    | none =>
      exact ⟨.replySetSinkFormatType false, ctx, w, by simp [handleRequest, hf], [], by simp⟩
    | some sink =>
      exact ⟨.replySetSinkFormatType
          (LogMessageSink.setSinkFormat sink messageType formatItems w).2, ctx,
        (LogMessageSink.setSinkFormat sink messageType formatItems w).1,
        by simp [handleRequest, hf], [], by simp⟩
  | other => exact ⟨.replyType false, ctx, w, by simp [handleRequest], [], by simp⟩

lemma handleRequests_of_no_clear (rs : List Request) (ctx : ctxMessageDispatcher) (w : World)
    (h : Request.reqClearSinksType ∉ rs) :
    ∃ replies ctx1 w1, handleRequests rs ctx w = some (replies, ctx1, w1) ∧
      ∃ extra, ctx1.sinks = ctx.sinks ++ extra := by
  induction rs generalizing ctx w with
  | nil => exact ⟨[], ctx, w, rfl, [], by simp⟩
  | cons request rest ih =>
    have hne : request ≠ Request.reqClearSinksType := by
      intro hc; exact h (by simp [hc])
    have hrest : Request.reqClearSinksType ∉ rest := by
      intro hc; exact h (List.mem_cons_of_mem _ hc)
    obtain ⟨reply, ctxa, wa, h1, extra1, he1⟩ := handleRequest_of_ne_clear request ctx w hne
    obtain ⟨replies, ctxb, wb, h2, extra2, he2⟩ := ih ctxa wa hrest
    refine ⟨reply :: replies, ctxb, wb, ?_, extra1 ++ extra2, ?_⟩
    · simp [handleRequests, h1, h2]
    · rw [he2, he1, List.append_assoc]

/-- C5: when a register-sink request has returned the identifier `sinkId` for the sink
instance `messageSink`, then after every subsequent sequence of requests that contains no
clear-all (register, set-threshold, set-format requests; each of them is served) the entry of
the sink list at position `sinkId` is still the address `messageSink`, and the search used by
the set-threshold and set-format requests finds that same address for `sinkId`. -/
theorem C5_identifier_stable (ctx ctx1 : ctxMessageDispatcher) (w w1 : World)
    (messageSink : SinkPtr) (ok : Bool) (sinkId : MessageSinkId)
    (hreg : handleRequest (.reqMessageSinkType messageSink) ctx w =
      some (.replyMessageSinkType ok sinkId, ctx1, w1))
    (rs : List Request) (hno : Request.reqClearSinksType ∉ rs) :
    ∃ replies ctx2 w2, handleRequests rs ctx1 w1 = some (replies, ctx2, w2) ∧
      ctx2.sinks[sinkId.toNat]? = some messageSink ∧
      sinkWithId sinkId ctx2.sinks 0 = some messageSink := by
  simp [handleRequest] at hreg
  obtain ⟨⟨_, hid⟩, hctx, hw⟩ := hreg
  subst hctx hw hid
  obtain ⟨replies, ctx2, w2, hrun, extra, hext⟩ :=
    handleRequests_of_no_clear rs { sinks := ctx.sinks ++ [messageSink] } w hno
  have htoNat : ((ctx.sinks.length : Nat) : Int).toNat = ctx.sinks.length := by simp
  have hget : ctx2.sinks[ctx.sinks.length]? = some messageSink := by
    rw [hext]
    show (ctx.sinks ++ [messageSink] ++ extra)[ctx.sinks.length]? = some messageSink
    rw [List.append_assoc, List.getElem?_append_right (le_refl _)]
    simp
  refine ⟨replies, ctx2, w2, hrun, by rw [htoNat]; exact hget, ?_⟩
  have hvalid : (0 : Int) ≤ (ctx.sinks.length : Int) ∧
      ((ctx.sinks.length : Nat) : Int) < (ctx2.sinks.length : Int) := by
    rw [hext]
    show _ ∧ _ < (((ctx.sinks ++ [messageSink] ++ extra).length : Nat) : Int)
    simp only [List.length_append, List.length_cons, List.length_nil]
    push_cast
    constructor <;> omega
  obtain ⟨sink, hs1, hs2⟩ := sinkWithId_of_valid _ ctx2.sinks hvalid
  rw [htoNat, hget] at hs1
  rw [hs2, ← hs1]


lemma terminate_spec (sink : SinkPtr) (w : World)
    (h : ∀ r, w.heap sink = .rollFile r → r.chReqTerminate = false) :
    ∃ w1, LogMessageSink.terminate sink w = some w1 ∧
      w1.calls = w.calls ++ [Call.terminate sink] ∧
      (∀ q, q ≠ sink → w1.heap q = w.heap q) ∧
      w1.stdout = w.stdout ∧ w1.fs = w.fs ∧
      (w1.heap sink).released = true ∧
      (∀ r1, w1.heap sink = .rollFile r1 → ∃ r, w.heap sink = .rollFile r) := by
  unfold LogMessageSink.terminate
  cases hs : w.heap sink with
  | console c =>
    refine ⟨_, rfl, rfl, fun q _ => rfl, ?_, rfl, ?_, ?_⟩
    · simp [consoleLogMessageSink.terminate, consoleLogMessageSink.flush]
    · simp [hs, LogMessageSink.released]
    · intro r1 hr1
      simp [hs] at hr1
  | file f =>
    refine ⟨_, rfl, rfl, ?_, rfl, rfl, ?_, ?_⟩
    · intro q hq
      simp [Function.update_noteq hq]
    · cases hout : f.outFile <;>
        simp [LogMessageSink.released, fileLogMessageSink.terminate, hout]
    · intro r1 hr1
      simp at hr1
  | rollFile r =>
    have hr := h r hs
    refine ⟨{ w with calls := w.calls ++ [Call.terminate sink],
                     heap := Function.update w.heap sink
                       (.rollFile { r with chReqTerminate := true, chReplyTerminate := true }) },
      ?_, rfl, ?_, rfl, rfl, ?_, ?_⟩
    · simp [rollFileLogMessageSink.terminate, hr]
    · intro q hq
      simp [Function.update_noteq hq]
    · simp [LogMessageSink.released]
    · intro r1 _
      exact ⟨r, rfl⟩

lemma terminate_released (sink q : SinkPtr) (w w1 : World)
    (h : LogMessageSink.terminate sink w = some w1) (hq : (w.heap q).released = true) :
    (w1.heap q).released = true := by
  unfold LogMessageSink.terminate at h
  by_cases hqs : q = sink
  · subst hqs
    cases hs : w.heap q with
    | console c =>
      simp [hs] at h
      subst h
      simp [hs, LogMessageSink.released]
    | file f =>
      simp [hs] at h
      subst h
      cases hout : f.outFile <;>
        simp [LogMessageSink.released, fileLogMessageSink.terminate, hout]
    | rollFile r =>
      cases hc : r.chReqTerminate with
      | true => simp [hs, rollFileLogMessageSink.terminate, hc] at h
      | false =>
        simp [hs, rollFileLogMessageSink.terminate, hc] at h
        subst h
        simp [LogMessageSink.released]
  · cases hs : w.heap sink with
    | console c =>
      simp [hs] at h
      subst h
      exact hq
    | file f =>
      simp [hs] at h
      subst h
      simpa [Function.update_noteq hqs] using hq
    | rollFile r =>
      cases hc : r.chReqTerminate with
      | true => simp [hs, rollFileLogMessageSink.terminate, hc] at h
      | false =>
        simp [hs, rollFileLogMessageSink.terminate, hc] at h
        subst h
        simpa [Function.update_noteq hqs] using hq

lemma terminateSinks_released (sinks : List SinkPtr) (q : SinkPtr) (w w1 : World)
    (h : terminateSinks sinks w = some w1) (hq : (w.heap q).released = true) :
    (w1.heap q).released = true := by
  induction sinks generalizing w with
  | nil =>
    simp [terminateSinks] at h
    subst h
    exact hq
  | cons sink rest ih =>
    unfold terminateSinks at h
    cases ht : LogMessageSink.terminate sink w with
    | none => simp [ht] at h
    | some wa =>
      simp [ht] at h
      exact ih wa h (terminate_released sink q w wa ht hq)

lemma terminateSinks_spec (sinks : List SinkPtr) (w : World) (h : Terminable sinks w) :
    ∃ w1, terminateSinks sinks w = some w1 ∧
      w1.calls = w.calls ++ sinks.map Call.terminate ∧
      (∀ q, q ∉ sinks → w1.heap q = w.heap q) ∧
      w1.stdout = w.stdout ∧ w1.fs = w.fs ∧
      (∀ q, q ∈ sinks → (w1.heap q).released = true) := by
  induction sinks generalizing w with
  | nil => exact ⟨w, rfl, by simp, fun _ _ => rfl, rfl, rfl, by simp⟩
  | cons sink rest ih =>
    have hhead : ∀ r, w.heap sink = .rollFile r → r.chReqTerminate = false :=
      fun r hr => (h sink (List.mem_cons_self _ _) r hr).1
    obtain ⟨wa, hta, hca, hha, hsa, hfa, hra, hroll⟩ := terminate_spec sink w hhead
    have hrest : Terminable rest wa := by
      intro q hq r hr
      have hne : q ≠ sink := by
        intro hc
        subst hc
        obtain ⟨r0, hr0⟩ := hroll r hr
        have hcount := (h q (List.mem_cons_self _ _) r0 hr0).2
        have hpos : 0 < rest.count q := List.count_pos_iff.mpr hq
        simp [List.count_cons] at hcount
        omega
      rw [hha q hne] at hr
      obtain ⟨h1, h2⟩ := h q (List.mem_cons_of_mem _ hq) r hr
      refine ⟨h1, ?_⟩
      rw [List.count_cons] at h2
      have : (sink == q) = false := by
        simp only [beq_eq_false_iff_ne, ne_eq]
        exact fun hc => hne hc.symm
      simpa [this] using h2
    obtain ⟨w1, ht1, hc1, hh1, hs1, hf1, hr1⟩ := ih wa hrest
    refine ⟨w1, ?_, ?_, ?_, ?_, ?_, ?_⟩
    · simp [terminateSinks, hta, ht1]
    · rw [hc1, hca]
      simp
    · intro q hq
      have hq1 : q ≠ sink := fun hc => hq (by simp [hc])
      have hq2 : q ∉ rest := fun hc => hq (List.mem_cons_of_mem _ hc)
      rw [hh1 q hq2, hha q hq1]
    · rw [hs1, hsa]
    · rw [hf1, hfa]
    · intro q hq
      rcases List.mem_cons.mp hq with hqs | hqr
      · subst hqs
        exact terminateSinks_released rest q wa w1 ht1 hra
      · exact hr1 q hqr

/-- C8: in a dispatcher state whose registered rolling-file sinks are each registered once and
not terminated yet (which is the case for the sink list that the package builds), a
clear-all-sinks request calls `terminate` on every registered sink exactly once, in
registration order, and on nothing else; afterwards the sink list is empty, every sink that
was registered has released its resources, the other sinks, the standard output and the files
are unchanged, and the reply is true. -/
theorem C8_clear_all_sinks (ctx : ctxMessageDispatcher) (w : World)
    (hlive : Terminable ctx.sinks w) :
    ∃ w1, handleRequest .reqClearSinksType ctx w =
        some (.replyClearSinksType true, { sinks := [] }, w1) ∧
      w1.calls = w.calls ++ ctx.sinks.map Call.terminate ∧
      (∀ q, q ∈ ctx.sinks → (w1.heap q).released = true) ∧
      (∀ q, q ∉ ctx.sinks → w1.heap q = w.heap q) ∧
      w1.stdout = w.stdout ∧ w1.fs = w.fs := by
  obtain ⟨w1, ht, hc, hh, hs, hf, hr⟩ := terminateSinks_spec ctx.sinks w hlive
  exact ⟨w1, by simp [handleRequest, ht], hc, hr, hh, hs, hf⟩


/-- C8 at the three registered sinks of `exampleState`: the request is served. -/
theorem C8_clear_all_sinks_witness :
    Terminable exampleState.ctx.sinks exampleState.world ∧
    ∃ w1, handleRequest .reqClearSinksType exampleState.ctx exampleState.world =
        some (.replyClearSinksType true, { sinks := [] }, w1) ∧
      w1.calls = exampleState.world.calls ++ exampleState.ctx.sinks.map Call.terminate :=
  have hlive : Terminable exampleState.ctx.sinks exampleState.world := by
    intro sink hsink r hr
    simp only [exampleState, List.mem_cons, List.mem_singleton, List.not_mem_nil,
      or_false] at hsink
    rcases hsink with rfl | rfl | rfl
    · simp [exampleState, exampleWorld] at hr
    · simp [exampleState, exampleWorld] at hr
    · simp [exampleState, exampleWorld] at hr
      subst hr
      exact ⟨rfl, by decide⟩
  ⟨hlive,
    let ⟨w1, h1, h2, _⟩ := C8_clear_all_sinks exampleState.ctx exampleState.world hlive
    ⟨w1, h1, h2⟩⟩

/-- C9 as stated fails. The identifier 0 is valid before the clear-all (the first
set-threshold request replies true); after the clear-all a new sink is registered and gets
the identifier 0 again, and the set-threshold and set-format requests on the identifier 0 that
follow reply true, not false. -/
theorem C9_counterexample :
    (handleRequests
        [.reqMessageSinkType 0, .reqMessageSinkThresholdType 0 InfoSeverity,
         .reqClearSinksType, .reqMessageSinkType 3,
         .reqMessageSinkThresholdType 0 WarningSeverity,
         .reqSetSinkFormatType 0 PrintMessageType [TextFmt]]
        { sinks := [] } exampleWorld).map (fun res => res.1) =
      some [.replyMessageSinkType true 0, .replyMessageSinkThresholdType true,
            .replyClearSinksType true, .replyMessageSinkType true 0,
            .replyMessageSinkThresholdType true, .replySetSinkFormatType true] := by
  rfl

/-- C9, amended: after a clear-all-sinks request and any sequence of further requests that
are served, every identifier `sinkId` (in particular every identifier that was valid before
the clear-all) under which no sink has been registered again, that is with at most `sinkId`
sinks registered since the last clear-all, fails: the set-sink-threshold and the
set-sink-format request on it reply false and change nothing. -/
theorem C9_cleared_identifier_fails (ctx ctx1 ctx2 : ctxMessageDispatcher) (w w1 w2 : World)
    (reply : Reply)
    (hclear : handleRequest .reqClearSinksType ctx w = some (reply, ctx1, w1))
    (rs : List Request) (replies : List Reply)
    (hrun : handleRequests rs ctx1 w1 = some (replies, ctx2, w2))
    (sinkId : MessageSinkId) (hid : ((registeredSinceClear rs 0 : Nat) : Int) ≤ sinkId)
    (threshold : LogSeverity) (k : MessageType) (f : LogFormatItems) :
    handleRequest (.reqMessageSinkThresholdType sinkId threshold) ctx2 w2 =
      some (.replyMessageSinkThresholdType false, ctx2, w2) ∧
    handleRequest (.reqSetSinkFormatType sinkId k f) ctx2 w2 =
      some (.replySetSinkFormatType false, ctx2, w2) := by
  have hlen1 : ctx1.sinks.length = 0 := by
    have := handleRequest_length _ ctx ctx1 w w1 reply hclear
    simpa [registeredSinceClear] using this
  have hlen2 := handleRequests_length rs ctx1 ctx2 w1 w2 replies hrun
  rw [hlen1] at hlen2
  have hnot : ¬ ((0 : Int) ≤ sinkId ∧ sinkId < (ctx2.sinks.length : Int)) := by
    rw [hlen2]
    intro hc
    exact absurd hid (not_le.mpr hc.2)
  have hfind := sinkWithId_of_not_valid sinkId ctx2.sinks hnot
  constructor <;> simp [handleRequest, hfind]

/-- C9 (amended) with one sink registered and cleared, then one new registration (which
takes the identifier 0): the identifier 1 fails. -/
theorem C9_cleared_identifier_fails_witness :
    handleRequest .reqClearSinksType { sinks := [0, 4] } exampleWorld =
      some (.replyClearSinksType true, { sinks := [] },
        { exampleWorld with calls := [Call.terminate 0, Call.terminate 4] }) ∧
    handleRequests [.reqMessageSinkType 3] { sinks := [] }
        { exampleWorld with calls := [Call.terminate 0, Call.terminate 4] } =
      some ([.replyMessageSinkType true 0], { sinks := [3] },
        { exampleWorld with calls := [Call.terminate 0, Call.terminate 4] }) ∧
    ((registeredSinceClear [.reqMessageSinkType 3] 0 : Nat) : Int) ≤ 1 ∧
    handleRequest (.reqMessageSinkThresholdType 1 InfoSeverity) { sinks := [3] }
        { exampleWorld with calls := [Call.terminate 0, Call.terminate 4] } =
      some (.replyMessageSinkThresholdType false, { sinks := [3] },
        { exampleWorld with calls := [Call.terminate 0, Call.terminate 4] }) :=
  ⟨rfl, rfl, by decide,
    (C9_cleared_identifier_fails { sinks := [0, 4] } { sinks := [] } { sinks := [3] }
      exampleWorld
      { exampleWorld with calls := [Call.terminate 0, Call.terminate 4] }
      { exampleWorld with calls := [Call.terminate 0, Call.terminate 4] }
      (.replyClearSinksType true) rfl [.reqMessageSinkType 3]
      [.replyMessageSinkType true 0] rfl 1 (by decide) InfoSeverity PrintMessageType []).1⟩

lemma addLogMessage_emits (rt : Runtime) (text : String) (s : LogSeverity) (k : MessageType)
    (forcedCaller : Option callerDetails) (skip : Int) (context : Context)
    (hs : s ∈ severityLevels) (hg : context.severity ∈ severityLevels) :
    EmitsWith (addLogMessage rt text s k forcedCaller skip) text s k context := by
  have hiff := isGreaterOrEqualThan_iff_le s context.severity hs hg
  unfold EmitsWith addLogMessage
  by_cases hge : IsGreaterOrEqualThan s context.severity = true
  · have hle := hiff.mp hge
    cases hterm : IsTerminated context with
    | true =>
      simp [hge, hterm]
    | false =>
      simp only [hge, hterm, Bool.not_false, Bool.and_self, if_true, true_iff, and_true,
        forall_true_left]
      refine ⟨hle, ⟨_, rfl, rfl, rfl, rfl⟩, ?_⟩
      intro hc
      cases hc
  · have hnle : ¬ context.severity ≤ s := fun hc => hge (hiff.mpr hc)
    have hge1 : IsGreaterOrEqualThan s context.severity = false := by
      simpa using hge
    simp [hge1, hnle]

/-- C10: for each emission function (Debug, Info, Print and its synonym LogPrint, Warn, Error,
Fatal) with its severity `s` and message kind, for every global threshold among the six
levels and every state of the facility: the call returns true exactly when `s` is at least
the global threshold and the facility is not terminated; when it returns true exactly one
message with the given text, the severity `s` and the message kind of the function has been
put at the end of the message channel; when it returns false nothing has changed. -/
theorem C10_emission_accepts {V : Type} (Sprint : V → String) (rt : Runtime) (v : V)
    (context : Context) (hg : context.severity ∈ severityLevels) :
    EmitsWith (Debug Sprint rt v) (Sprint v) DebugSeverity LogMessageType context ∧
    EmitsWith (Info Sprint rt v) (Sprint v) InfoSeverity LogMessageType context ∧
    EmitsWith (Print Sprint rt v) (Sprint v) PrintSeverity PrintMessageType context ∧
    EmitsWith (LogPrint Sprint rt v) (Sprint v) PrintSeverity PrintMessageType context ∧
    EmitsWith (Warn Sprint rt v) (Sprint v) WarningSeverity LogMessageType context ∧
    EmitsWith (Error Sprint rt v) (Sprint v) ErrorSeverity LogMessageType context ∧
    EmitsWith (Fatal Sprint rt v) (Sprint v) FatalSeverity LogMessageType context := by
  refine ⟨?_, ?_, ?_, ?_, ?_, ?_, ?_⟩ <;>
    exact addLogMessage_emits rt (Sprint v) _ _ none defaultSkip context (by decide) hg

/-- C10 at the global threshold Info: the hypothesis holds, and what is said of `Debug`. -/
theorem C10_emission_accepts_witness :
    exampleContext.severity ∈ severityLevels ∧
    EmitsWith (Debug (fun t : String => t) exampleRuntime "Debug message") "Debug message"
      DebugSeverity LogMessageType exampleContext :=
  ⟨by decide,
    (C10_emission_accepts (fun t : String => t) exampleRuntime "Debug message" exampleContext
      (by decide)).1⟩

/-- C3 at `exampleState`: one message in the channel, three registered sinks. -/
theorem C3_dispatch_every_sink_in_order_witness :
    exampleState.context.chLogMessages = exampleMessage :: [] ∧
    (flushPendingMessages exampleTimeFormat exampleState.ctx.sinks
        exampleState.context.chLogMessages exampleState.world).calls =
      exampleState.world.calls ++
        ((exampleMessage :: []).map
          (fun m => exampleState.ctx.sinks.map (fun sink => Call.OnLogMessage sink m))).flatten :=
  ⟨rfl, (C3_dispatch_every_sink_in_order exampleTimeFormat exampleState exampleMessage []
    rfl).2.1⟩

/-- C5 for the sink registered first, followed by a second registration and a set-threshold
request. -/
theorem C5_identifier_stable_witness :
    handleRequest (.reqMessageSinkType 7) { sinks := [] } exampleWorld =
      some (.replyMessageSinkType true 0, { sinks := [7] }, exampleWorld) ∧
    Request.reqClearSinksType ∉
      [Request.reqMessageSinkType 8, Request.reqMessageSinkThresholdType 0 ErrorSeverity] ∧
    ∃ replies ctx2 w2,
      handleRequests
          [Request.reqMessageSinkType 8, Request.reqMessageSinkThresholdType 0 ErrorSeverity]
          { sinks := [7] } exampleWorld = some (replies, ctx2, w2) ∧
      ctx2.sinks[(0 : Int).toNat]? = some 7 ∧
      sinkWithId 0 ctx2.sinks 0 = some 7 :=
  ⟨rfl, by decide,
    C5_identifier_stable { sinks := [] } { sinks := [7] } exampleWorld exampleWorld 7 true 0
      rfl [Request.reqMessageSinkType 8, Request.reqMessageSinkThresholdType 0 ErrorSeverity]
      (by decide)⟩


/-! ### The hypothesis of C8 is an invariant of the dispatcher -/

lemma terminable_nil (w : World) : Terminable [] w := by
  intro sink hsink
  simp at hsink

lemma terminable_of_heap (sinks : List SinkPtr) (w w1 : World) (h : Terminable sinks w)
    (hheap : ∀ q r1, w1.heap q = .rollFile r1 →
      ∃ r, w.heap q = .rollFile r ∧ r.chReqTerminate = r1.chReqTerminate) :
    Terminable sinks w1 := by
  intro sink hsink r1 hr1
  obtain ⟨r, hr, heq⟩ := hheap sink r1 hr1
  obtain ⟨h1, h2⟩ := h sink hsink r hr
  exact ⟨by rw [← heq]; exact h1, h2⟩

lemma terminable_append (sinks : List SinkPtr) (w : World) (messageSink : SinkPtr)
    (h : Terminable sinks w) (hnew : messageSink ∉ sinks)
    (hopen : ∀ r, w.heap messageSink = .rollFile r → r.chReqTerminate = false) :
    Terminable (sinks ++ [messageSink]) w := by
  intro sink hsink r hr
  rcases List.mem_append.mp hsink with hold | hlast
  · obtain ⟨h1, h2⟩ := h sink hold r hr
    have hne : sink ≠ messageSink := fun hc => hnew (hc ▸ hold)
    refine ⟨h1, ?_⟩
    rw [List.count_append, h2]
    simp [List.count_cons, hne.symm]
  · have hsm : sink = messageSink := by simpa using hlast
    subst hsm
    refine ⟨hopen r hr, ?_⟩
    rw [List.count_append, List.count_eq_zero_of_not_mem hnew]
    simp

lemma setSeverity_keeps (sink : SinkPtr) (threshold : LogSeverity) (w : World) :
    ∀ q r1, (LogMessageSink.SetSeverity sink threshold w).heap q = .rollFile r1 →
      ∃ r, w.heap q = .rollFile r ∧ r.chReqTerminate = r1.chReqTerminate := by
  intro q r1 hr1
  unfold LogMessageSink.SetSeverity at hr1
  by_cases hq : q = sink
  · subst hq
    cases hs : w.heap q with
    | console c => simp [hs] at hr1
    | file f => simp [hs] at hr1
    | rollFile r =>
      simp [hs] at hr1
      exact ⟨r, rfl, by rw [← hr1]; rfl⟩
  · cases hs : w.heap sink <;> simp [hs, Function.update_noteq hq] at hr1 <;>
      exact ⟨r1, hr1, rfl⟩

lemma setSinkFormat_keeps (sink : SinkPtr) (messageType : MessageType)
    (format : LogFormatItems) (w : World) :
    ∀ q r1, (LogMessageSink.setSinkFormat sink messageType format w).1.heap q = .rollFile r1 →
      ∃ r, w.heap q = .rollFile r ∧ r.chReqTerminate = r1.chReqTerminate := by
  intro q r1 hr1
  unfold LogMessageSink.setSinkFormat at hr1
  by_cases hq : q = sink
  · subst hq
    cases hs : w.heap q with
    | console c => simp [hs] at hr1
    | file f => simp [hs] at hr1
    | rollFile r =>
      simp [hs] at hr1
      exact ⟨r, rfl, by rw [← hr1]; rfl⟩
  · cases hs : w.heap sink <;> simp [hs, Function.update_noteq hq] at hr1 <;>
      exact ⟨r1, hr1, rfl⟩

lemma onLogMessage_keeps (timeFormat : TimeFormat) (sink : SinkPtr) (msg : LogMessage)
    (w : World) :
    ∀ q r1, (LogMessageSink.OnLogMessage timeFormat sink msg w).heap q = .rollFile r1 →
      ∃ r, w.heap q = .rollFile r ∧ r.chReqTerminate = r1.chReqTerminate := by
  intro q r1 hr1
  unfold LogMessageSink.OnLogMessage at hr1
  by_cases hq : q = sink
  · subst hq
    cases hs : w.heap q with
    | console c =>
      simp [hs] at hr1
    | file f =>
      simp [hs] at hr1
    | rollFile r =>
      simp [hs] at hr1
      refine ⟨r, rfl, ?_⟩
      rw [← hr1]
      unfold rollFileLogMessageSink.OnLogMessage
      split
      · split <;> rfl
      · rfl
  · cases hs : w.heap sink <;> simp [hs, Function.update_noteq hq] at hr1 <;>
      exact ⟨r1, hr1, rfl⟩

lemma terminable_deliverToSinks (timeFormat : TimeFormat) (newMessage : LogMessage)
    (targets sinks : List SinkPtr) (w : World) (h : Terminable sinks w) :
    Terminable sinks (deliverToSinks timeFormat newMessage targets w) := by
  induction targets generalizing w with
  | nil => exact h
  | cons sink rest ih =>
    exact ih _ (terminable_of_heap sinks w _ h (onLogMessage_keeps timeFormat sink newMessage w))

/-- As long as every register-sink request brings a sink object that is not in the list and
was not terminated (what the three `Add...Sink` functions do), every request is served
without a panic and the hypothesis of the clear-all theorem holds again afterwards. -/
lemma terminable_handleRequest (request : Request) (ctx : ctxMessageDispatcher) (w : World)
    (h : Terminable ctx.sinks w)
    (hnew : ∀ messageSink, request = .reqMessageSinkType messageSink →
      messageSink ∉ ctx.sinks ∧ ∀ r, w.heap messageSink = .rollFile r → r.chReqTerminate = false) :
    ∃ reply ctx1 w1, handleRequest request ctx w = some (reply, ctx1, w1) ∧
      Terminable ctx1.sinks w1 := by
  cases request with
  | reqMessageSinkType messageSink =>
    obtain ⟨h1, h2⟩ := hnew messageSink rfl
    exact ⟨_, _, _, rfl, terminable_append ctx.sinks w messageSink h h1 h2⟩
  | reqMessageSinkThresholdType sinkId threshold =>
    cases hf : sinkWithId sinkId ctx.sinks 0 with
    | none =>
      exact ⟨.replyMessageSinkThresholdType false, ctx, w, by simp [handleRequest, hf], h⟩
    | some sink =>
      exact ⟨.replyMessageSinkThresholdType true, ctx,
        LogMessageSink.SetSeverity sink threshold w, by simp [handleRequest, hf],
        terminable_of_heap _ _ _ h (setSeverity_keeps sink threshold w)⟩
  | reqClearSinksType =>
    obtain ⟨w1, ht, _⟩ := terminateSinks_spec ctx.sinks w h
    exact ⟨.replyClearSinksType true, { sinks := [] }, w1, by simp [handleRequest, ht],
      terminable_nil w1⟩
  | reqSetSinkFormatType sinkId messageType formatItems =>
    cases hf : sinkWithId sinkId ctx.sinks 0 with
    | none =>
      exact ⟨.replySetSinkFormatType false, ctx, w, by simp [handleRequest, hf], h⟩
    | some sink =>
      exact ⟨.replySetSinkFormatType
          (LogMessageSink.setSinkFormat sink messageType formatItems w).2, ctx,
        (LogMessageSink.setSinkFormat sink messageType formatItems w).1,
        by simp [handleRequest, hf],
        terminable_of_heap _ _ _ h (setSinkFormat_keeps sink messageType formatItems w)⟩
  | other => exact ⟨.replyType false, ctx, w, by simp [handleRequest], h⟩

/-! ### The global severity and the termination -/

/-- C11: while the facility is not terminated, `SetSeverity(x)` returns and `Severity()`
called afterwards returns `x`, for every value `x` of the severity type (the six levels
included); the call of `Severity()` changes nothing. -/
theorem C11_severity_round_trip (x : LogSeverity) (context : Context)
    (hrun : IsTerminated context = false) :
    ∃ context1, SetSeverity x context = .returned () context1 ∧
      IsTerminated context1 = false ∧
      Severity context1 = .returned x context1 := by
  by_cases hx : x = context.severity
  · refine ⟨context, by simp [SetSeverity, hrun, hx], hrun, ?_⟩
    simp [Severity, hrun, hx]
  · refine ⟨{ context with severity := x }, by simp [SetSeverity, hrun, hx], ?_, ?_⟩
    · simpa [IsTerminated] using hrun
    · have : IsTerminated { context with severity := x } = false := by
        simpa [IsTerminated] using hrun
      simp [Severity, this]

/-- C11 at the level Warning in `exampleContext`. -/
theorem C11_severity_round_trip_witness :
    IsTerminated exampleContext = false ∧
    ∃ context1, SetSeverity WarningSeverity exampleContext = .returned () context1 ∧
      IsTerminated context1 = false ∧
      Severity context1 = .returned WarningSeverity context1 :=
  ⟨rfl, C11_severity_round_trip WarningSeverity exampleContext rfl⟩

/-- C12: `Severity()` panics exactly when the facility has been terminated, and so does
`SetSeverity(x)`; a call that panics leaves the context, hence the stored global severity,
as it was. -/
theorem C12_severity_panics_iff_terminated (x : LogSeverity) (context : Context) :
    ((∃ message context1, Severity context = .panicked message context1) ↔
      IsTerminated context = true) ∧
    ((∃ message context1, SetSeverity x context = .panicked message context1) ↔
      IsTerminated context = true) ∧
    (∀ message context1, Severity context = .panicked message context1 →
      context1 = context) ∧
    (∀ message context1, SetSeverity x context = .panicked message context1 →
      context1 = context ∧ context1.severity = context.severity) := by
  cases hterm : IsTerminated context with
  | true =>
    refine ⟨?_, ?_, ?_, ?_⟩
    · simp [Severity, hterm]
    · simp [SetSeverity, hterm]
    · intro message context1 h
      simp [Severity, hterm] at h
      exact h.2.symm
    · intro message context1 h
      simp [SetSeverity, hterm] at h
      exact ⟨h.2.symm, by rw [← h.2]⟩
  | false =>
    refine ⟨?_, ?_, ?_, ?_⟩
    · simp [Severity, hterm]
    · by_cases hx : x = context.severity <;> simp [SetSeverity, hterm, hx]
    · intro message context1 h
      simp [Severity, hterm] at h
    · intro message context1 h
      by_cases hx : x = context.severity <;> simp [SetSeverity, hterm, hx] at h

lemma terminable_flushPendingMessages (timeFormat : TimeFormat) (targets sinks : List SinkPtr)
    (pending : List LogMessage) (w : World) (h : Terminable sinks w) :
    Terminable sinks (flushPendingMessages timeFormat targets pending w) := by
  induction pending generalizing w with
  | nil => exact h
  | cons m rest ih =>
    exact ih _ (terminable_deliverToSinks timeFormat m targets sinks w h)

lemma messageDispatcherOnTerminate_spec (timeFormat : TimeFormat) (s : DispatcherState)
    (hsig : s.context.chReqTerminate = true) (hrep : s.context.chReplyTerminate = false)
    (hlive : Terminable s.ctx.sinks s.world) :
    ∃ w2, terminateSinks s.ctx.sinks
        (flushPendingMessages timeFormat s.ctx.sinks s.context.chLogMessages s.world) =
          some w2 ∧
      messageDispatcherOnTerminate timeFormat s =
        some { context := { s.context with chLogMessages := [], chReplyTerminate := true },
               ctx := s.ctx, isTerminate := true, world := w2 } ∧
      w2.calls =
        (flushPendingMessages timeFormat s.ctx.sinks s.context.chLogMessages s.world).calls ++
          s.ctx.sinks.map Call.terminate := by
  obtain ⟨w2, ht, hc, _⟩ := terminateSinks_spec s.ctx.sinks _
    (terminable_flushPendingMessages timeFormat s.ctx.sinks s.ctx.sinks
      s.context.chLogMessages s.world hlive)
  exact ⟨w2, ht, by simp [messageDispatcherOnTerminate, hsig, hrep, ht], hc⟩

lemma exampleState_terminable : Terminable exampleState.ctx.sinks exampleState.world := by
  intro sink hsink r hr
  simp only [exampleState, List.mem_cons, List.mem_singleton, List.not_mem_nil,
    or_false] at hsink
  rcases hsink with rfl | rfl | rfl
  · simp [exampleState, exampleWorld] at hr
  · simp [exampleState, exampleWorld] at hr
  · simp [exampleState, exampleWorld] at hr
    subst hr
    exact ⟨rfl, by decide⟩

/-- C13: `IsTerminated()` is false in the state set up by `init`, and no step of the
dispatcher and no emission changes it; a first `Terminate()` on a running facility (dispatcher
loop running, reply channel open, registered rolling-file sinks registered once and not
terminated) returns, and `IsTerminated()` is true afterwards; a `Terminate()` on a terminated
facility returns at once (no wait, no panic) with the state unchanged, so the second call
leaves the state of the first. -/
theorem C13_terminate_idempotent (timeFormat : TimeFormat) (w : World) (s : DispatcherState)
    (hloop : s.isTerminate = false) (hreq : IsTerminated s.context = false)
    (hrep : s.context.chReplyTerminate = false) (hlive : Terminable s.ctx.sinks s.world) :
    IsTerminated (initDispatcher w).context = false ∧
    (∀ c r s3, messageDispatcherStep timeFormat c s = some (r, s3) →
      IsTerminated s3.context = false) ∧
    (∀ rt text severity messageType forcedCaller skip,
      IsTerminated
        (addLogMessage rt text severity messageType forcedCaller skip s.context).2 = false) ∧
    (∃ s1, Terminate timeFormat s = some s1 ∧ IsTerminated s1.context = true ∧
      Terminate timeFormat s1 = some s1) ∧
    (∀ s2 : DispatcherState, IsTerminated s2.context = true →
      Terminate timeFormat s2 = some s2) := by
  have hreq1 : s.context.chReqTerminate = false := hreq
  refine ⟨rfl, ?_, ?_, ?_, ?_⟩
  · intro c r s3 hstep
    unfold messageDispatcherStep at hstep
    rw [hloop] at hstep
    cases c with
    | logMessage =>
      cases hq : s.context.chLogMessages with
      | nil => simp [messageDispatcherOnMessage, hq] at hstep
      | cons m rest =>
        simp [messageDispatcherOnMessage, hq] at hstep
        rw [← hstep.2]
        exact hreq
    | request newRequest =>
      cases hr : handleRequest newRequest s.ctx s.world with
      | none => simp [messageDispatcherOnRequest, hr] at hstep
      | some res =>
        obtain ⟨reply, ctx1, w1⟩ := res
        simp [messageDispatcherOnRequest, hr] at hstep
        rw [← hstep.2]
        exact hreq
    | reqTerminate =>
      simp [messageDispatcherOnTerminate, hreq1] at hstep
  · intro rt text severity messageType forcedCaller skip
    unfold addLogMessage
    split
    · exact hreq
    · exact hreq
  · obtain ⟨w2, _, hterm, _⟩ := messageDispatcherOnTerminate_spec timeFormat
      { context := { s.context with chReqTerminate := true }, ctx := s.ctx,
        isTerminate := false, world := s.world } rfl hrep hlive
    refine ⟨{ context := { s.context with chLogMessages := [], chReqTerminate := true,
                                          chReplyTerminate := true },
              ctx := s.ctx, isTerminate := true, world := w2 }, ?_, rfl, ?_⟩
    · simp only [Terminate, hreq, messageDispatcherStep, hloop]
      simp only [Bool.false_eq_true, if_false]
      rw [hterm]
      rfl
    · simp [Terminate, IsTerminated]
  · intro s2 h2
    simp [Terminate, h2]

/-- C13 at `exampleState`, a running facility. -/
theorem C13_terminate_idempotent_witness :
    exampleState.isTerminate = false ∧ IsTerminated exampleState.context = false ∧
    exampleState.context.chReplyTerminate = false ∧
    Terminable exampleState.ctx.sinks exampleState.world ∧
    ∃ s1, Terminate exampleTimeFormat exampleState = some s1 ∧
      IsTerminated s1.context = true ∧ Terminate exampleTimeFormat s1 = some s1 :=
  ⟨rfl, rfl, rfl, exampleState_terminable,
    (C13_terminate_idempotent exampleTimeFormat exampleWorld exampleState rfl rfl rfl
      exampleState_terminable).2.2.2.1⟩

/-- C14: when the dispatcher takes the terminate signal (reply channel still open, registered
rolling-file sinks registered once and not terminated), with any list of registered sinks and
any messages held by the message channel, it first calls `OnLogMessage` for every held
message, in channel order, on every registered sink, in list order; after all of these calls
it calls `terminate` on every registered sink, in list order; the state in which the reply
channel is closed (termination signalled complete) and the loop has ended is the one reached
after the last of these calls, and the message channel is empty in it. -/
theorem C14_drain_before_terminate (timeFormat : TimeFormat) (s : DispatcherState)
    (hsig : s.context.chReqTerminate = true) (hrep : s.context.chReplyTerminate = false)
    (hlive : Terminable s.ctx.sinks s.world) :
    ∃ s1 w1, messageDispatcherOnTerminate timeFormat s = some s1 ∧
      w1 = flushPendingMessages timeFormat s.ctx.sinks s.context.chLogMessages s.world ∧
      w1.calls = s.world.calls ++
        (s.context.chLogMessages.map
          (fun m => s.ctx.sinks.map (fun sink => Call.OnLogMessage sink m))).flatten ∧
      terminateSinks s.ctx.sinks w1 = some s1.world ∧
      s1.world.calls = s.world.calls ++
        (s.context.chLogMessages.map
          (fun m => s.ctx.sinks.map (fun sink => Call.OnLogMessage sink m))).flatten ++
        s.ctx.sinks.map Call.terminate ∧
      s1.context.chLogMessages = [] ∧ s1.context.chReplyTerminate = true ∧
      s1.isTerminate = true ∧ s1.ctx = s.ctx := by
  obtain ⟨w2, ht, hterm, hc⟩ := messageDispatcherOnTerminate_spec timeFormat s hsig hrep hlive
  have hflush := flushPendingMessages_calls timeFormat s.ctx.sinks s.context.chLogMessages
    s.world
  refine ⟨_, _, hterm, rfl, hflush, ht, ?_, rfl, rfl, rfl, rfl⟩
  show w2.calls = _
  rw [hc, hflush]

/-- C14 at `exampleState` after the terminate signal: one held message, three sinks. -/
theorem C14_drain_before_terminate_witness :
    ({ exampleState with
        context := { exampleState.context with chReqTerminate := true } } :
      DispatcherState).context.chReqTerminate = true ∧
    ∃ s1, messageDispatcherOnTerminate exampleTimeFormat
        { exampleState with context := { exampleState.context with chReqTerminate := true } } =
          some s1 ∧
      s1.world.calls =
        [Call.OnLogMessage 0 exampleMessage, Call.OnLogMessage 1 exampleMessage,
         Call.OnLogMessage 2 exampleMessage, Call.terminate 0, Call.terminate 1,
         Call.terminate 2] :=
  ⟨rfl,
    let ⟨s1, _, h1, _, _, _, h5, _⟩ :=
      C14_drain_before_terminate exampleTimeFormat
        { exampleState with context := { exampleState.context with chReqTerminate := true } }
        rfl rfl exampleState_terminable
    ⟨s1, h1, h5⟩⟩

/-! ### The rolling-file sink: construction, rotation, retention -/

lemma goLen_le_zero_iff (s : String) : goLen s ≤ 0 ↔ s = "" := by
  unfold goLen
  cases s with
  | mk cs =>
    cases cs with
    | nil => simp [String.utf8ByteSize, String.utf8ByteSize.go]
    | cons c rest =>
      have hpos := Char.utf8Size_pos c
      simp only [String.utf8ByteSize, String.utf8ByteSize.go]
      constructor
      · intro h
        push_cast at h
        omega
      · intro h
        exact absurd h (by simp [String.ext_iff])

/-- C15: the construction of a rolling-file sink returns an error and no sink (so that no
worker is started), and leaves the file system as it was, whenever `os.Stat` fails on the
directory path or the path is not a directory, or the prefix is empty after trimming, or
`numMaxFiles <= 0`, or `maxFileSize` is 0. When the four checks pass, the result follows the
initial file step `createNewRollFile`: if that step reports an error the construction
returns this error and no sink; if it reports none the construction returns a sink and no
error, and the sink stores the trimmed prefix (and the directory path and `numMaxFiles` as
given, the file handle of the initial step and the running size 0). -/
theorem C15_roll_sink_construction (TrimSpace : String → String) (env : RollEnv)
    (fs : RollFs) (dirPath filePrefix : String) (numMaxFiles : Int) (maxFileSize : Nat)
    (threshold : LogSeverity) :
    ((fs.statDir dirPath = none ∨ fs.statDir dirPath = some false ∨
        TrimSpace filePrefix = "" ∨ numMaxFiles ≤ 0 ∨ maxFileSize = 0) →
      ∃ err, newRollFileLogMessageSink TrimSpace env fs dirPath filePrefix numMaxFiles
        maxFileSize threshold = ((none, some err), fs)) ∧
    (fs.statDir dirPath = some true → TrimSpace filePrefix ≠ "" → 0 < numMaxFiles →
      0 < maxFileSize →
      (∀ logFile err fs1,
        createNewRollFile env fs (TrimSpace filePrefix) dirPath numMaxFiles =
          ((logFile, some err), fs1) →
        newRollFileLogMessageSink TrimSpace env fs dirPath filePrefix numMaxFiles
          maxFileSize threshold = ((none, some err), fs1)) ∧
      (∀ logFile fs1,
        createNewRollFile env fs (TrimSpace filePrefix) dirPath numMaxFiles =
          ((logFile, none), fs1) →
        ∃ sink, newRollFileLogMessageSink TrimSpace env fs dirPath filePrefix numMaxFiles
            maxFileSize threshold = ((some sink, none), fs1) ∧
          sink.filePrefix = TrimSpace filePrefix ∧ sink.dirPath = dirPath ∧
          sink.numMaxFiles = numMaxFiles ∧ sink.currFile = logFile ∧
          sink.currFileSize = 0 ∧ sink.base.threshold = threshold)) := by
  constructor
  · intro h
    unfold newRollFileLogMessageSink
    cases hstat : fs.statDir dirPath with
    | none => exact ⟨_, rfl⟩
    | some isDir =>
      cases isDir with
      | false => exact ⟨_, rfl⟩
      | true =>
        rcases h with h | h | h | h | h
        · rw [hstat] at h; cases h
        · rw [hstat] at h; cases h
        · have hlen := (goLen_le_zero_iff (TrimSpace filePrefix)).mpr h
          exact ⟨"invalid file prefix", by simp [hlen]⟩
        · by_cases hlen : goLen (TrimSpace filePrefix) ≤ 0
          · exact ⟨"invalid file prefix", by simp [hlen]⟩
          · exact ⟨"invalid numMaxFiles parameter", by simp [hlen, h]⟩
        · by_cases hlen : goLen (TrimSpace filePrefix) ≤ 0
          · exact ⟨"invalid file prefix", by simp [hlen]⟩
          · by_cases hnum : numMaxFiles ≤ 0
            · exact ⟨"invalid numMaxFiles parameter", by simp [hlen, hnum]⟩
            · exact ⟨"invalid maxFileSize parameter", by simp [hlen, hnum, h]⟩
  · intro hstat hpre hnum hsize
    have hlen : ¬ goLen (TrimSpace filePrefix) ≤ 0 :=
      fun hc => hpre ((goLen_le_zero_iff _).mp hc)
    have hnum1 : ¬ numMaxFiles ≤ 0 := not_le.mpr hnum
    have hsize1 : ¬ maxFileSize ≤ 0 := not_le.mpr hsize
    constructor
    · intro logFile err fs1 hcreate
      simp [newRollFileLogMessageSink, hstat, hlen, hnum1, hsize1, hcreate]
    · intro logFile fs1 hcreate
      refine ⟨{ base := { threshold := threshold, isFrequentFlush := false,
                          messageTypeToFormat := defaultMessageTypeToFormat },
                dirPath := dirPath, filePrefix := TrimSpace filePrefix,
                numMaxFiles := numMaxFiles,
                maxFileSize := (maxFileSize * kBytesToBytes) % 18446744073709551616,
                currFile := logFile, currFileSize := 0, chStrLog := [],
                chReqTerminate := false, chReplyTerminate := false },
        ?_, rfl, rfl, rfl, rfl, rfl, rfl⟩
      simp only [newRollFileLogMessageSink, hstat, hlen, hnum1, hsize1, hcreate]
      simp

lemma glob_map_length (fs : RollFs) (g : RollFile → RollFile) (dirPath fileGlob : String)
    (hdir : ∀ f, (g f).dir = f.dir) (hname : ∀ f, (g f).name = f.name) :
    (Glob { fs with files := fs.files.map g } dirPath fileGlob).length =
      (Glob fs dirPath fileGlob).length := by
  unfold Glob
  simp only [List.filter_map, List.length_map]
  congr 1
  apply List.filter_congr
  intro f _
  simp [Function.comp, RollFile.path, hdir, hname]

lemma glob_filter (fs : RollFs) (q : RollFile → Bool) (dirPath fileGlob : String) :
    Glob { fs with files := fs.files.filter q } dirPath fileGlob =
      (Glob fs dirPath fileGlob).filter q := by
  unfold Glob
  simp only [List.filter_filter]
  apply List.filter_congr
  intro f _
  exact Bool.and_comm _ _

lemma glob_sublist_length (fs fs1 : RollFs) (dirPath fileGlob : String)
    (h : fs1.files.Sublist fs.files) (hm : fs1.globMatch = fs.globMatch) :
    (Glob fs1 dirPath fileGlob).length ≤ (Glob fs dirPath fileGlob).length := by
  unfold Glob
  rw [hm]
  exact (h.filter _).length_le

lemma osRemove_globMatch (env : RollEnv) (path : String) (fs : RollFs) :
    (osRemove env path fs).2.globMatch = fs.globMatch := by
  unfold osRemove
  split <;> rfl

lemma removeFiles_globMatch (env : RollEnv) (dirPath : String) (targets : List RollFile)
    (fs : RollFs) : (removeFiles env dirPath targets fs).2.globMatch = fs.globMatch := by
  induction targets generalizing fs with
  | nil => rfl
  | cons info rest ih =>
    unfold removeFiles
    have h1 := osRemove_globMatch env (pathJoin dirPath info.name) fs
    cases hr : osRemove env (pathJoin dirPath info.name) fs with
    | mk err fs1 =>
      rw [hr] at h1
      cases err with
      | some e => exact h1
      | none => exact (ih fs1).trans h1

lemma deleteOlderFiles_globMatch (env : RollEnv) (fs : RollFs) (dirPath fileGlob : String)
    (numOlderFiles : Int) :
    (deleteOlderFiles env fs dirPath fileGlob numOlderFiles).2.globMatch = fs.globMatch := by
  unfold deleteOlderFiles
  split
  · rfl
  · simp only
    split
    · rfl
    · split
      · rfl
      · exact removeFiles_globMatch _ _ _ _

lemma osRemove_sublist (env : RollEnv) (path : String) (fs : RollFs) :
    (osRemove env path fs).2.files.Sublist fs.files := by
  unfold osRemove
  split
  · exact List.Sublist.refl _
  · exact List.filter_sublist _

lemma removeFiles_sublist (env : RollEnv) (dirPath : String) (targets : List RollFile)
    (fs : RollFs) : (removeFiles env dirPath targets fs).2.files.Sublist fs.files := by
  induction targets generalizing fs with
  | nil => exact List.Sublist.refl _
  | cons info rest ih =>
    unfold removeFiles
    have h1 := osRemove_sublist env (pathJoin dirPath info.name) fs
    cases hr : osRemove env (pathJoin dirPath info.name) fs with
    | mk err fs1 =>
      rw [hr] at h1
      cases err with
      | some e => exact h1
      | none => exact (ih fs1).trans h1

lemma removeFiles_ok (env : RollEnv) (dirPath : String) (targets : List RollFile)
    (fs fs1 : RollFs) (h : removeFiles env dirPath targets fs = (none, fs1)) :
    fs1.files =
      fs.files.filter (fun f => targets.all (fun t => f.path != pathJoin dirPath t.name)) := by
  induction targets generalizing fs with
  | nil =>
    simp [removeFiles] at h
    simp [← h]
  | cons info rest ih =>
    unfold removeFiles at h
    cases hr : osRemove env (pathJoin dirPath info.name) fs with
    | mk err fs2 =>
      rw [hr] at h
      cases err with
      | some e => simp at h
      | none =>
        simp only at h
        have hfs2 : fs2.files = fs.files.filter (fun f => f.path != pathJoin dirPath info.name) := by
          unfold osRemove at hr
          split at hr
          · simp at hr
          · simp at hr
            rw [← hr]
        rw [ih fs2 h, hfs2, List.filter_filter]
        apply List.filter_congr
        intro f _
        simp [List.all_cons, Bool.and_comm]

lemma statFiles_ok (env : RollEnv) (matchFiles infos : List RollFile)
    (h : statFiles env matchFiles = some infos) : infos = matchFiles := by
  induction matchFiles generalizing infos with
  | nil =>
    simp [statFiles] at h
    exact h
  | cons f rest ih =>
    unfold statFiles at h
    split at h
    · simp at h
    · cases hrest : statFiles env rest with
      | none => simp [hrest] at h
      | some infos1 =>
        simp [hrest] at h
        rw [← h, ih infos1 hrest]

lemma deleteOlderFiles_sublist (env : RollEnv) (fs : RollFs) (dirPath fileGlob : String)
    (numOlderFiles : Int) :
    (deleteOlderFiles env fs dirPath fileGlob numOlderFiles).2.files.Sublist fs.files := by
  unfold deleteOlderFiles
  split
  · exact List.Sublist.refl _
  · simp only
    split
    · exact List.Sublist.refl _
    · split
      · exact List.Sublist.refl _
      · exact removeFiles_sublist _ _ _ _

/-- After a retention that reports no error, with `0 < numOlderFiles` at most the number of
matching files, exactly `numOlderFiles` matching files fewer are left (at most, if the file
list held a path twice), provided that the files that the pattern matches are files of the
directory `dirPath`, the directory in which the retention removes. -/
lemma deleteOlderFiles_count (env : RollEnv) (fs fs1 : RollFs) (dirPath fileGlob : String)
    (numOlderFiles : Int) (hk0 : 0 ≤ numOlderFiles)
    (hk : numOlderFiles ≤ ((Glob fs dirPath fileGlob).length : Int))
    (hin : ∀ f ∈ fs.files, fs.globMatch (pathJoin dirPath fileGlob) f.path = true →
      f.dir = dirPath)
    (h : deleteOlderFiles env fs dirPath fileGlob numOlderFiles = (none, fs1)) :
    ((Glob fs1 dirPath fileGlob).length : Int) ≤
      ((Glob fs dirPath fileGlob).length : Int) - numOlderFiles := by
  unfold deleteOlderFiles at h
  split at h
  · simp at h
  · simp only at h
    cases hstat : statFiles env (Glob fs dirPath fileGlob) with
    | none => simp [hstat] at h
    | some infos =>
      have hinfos := statFiles_ok env _ infos hstat
      subst hinfos
      simp only [hstat] at h
      have hnot : ¬ ((Glob fs dirPath fileGlob).length : Int) < numOlderFiles := not_lt.mpr hk
      rw [if_neg hnot] at h
      set sorted := sortReverse fileInfoLess (Glob fs dirPath fileGlob) with hsorted
      have hperm : sorted.Perm (Glob fs dirPath fileGlob) := List.perm_insertionSort _ _
      have hfiles := removeFiles_ok env dirPath _ fs fs1 h
      have hmatch : fs1.globMatch = fs.globMatch := by
        have := removeFiles_globMatch env dirPath (sorted.take numOlderFiles.toNat) fs
        rw [h] at this
        exact this
      set q : RollFile → Bool := fun f =>
        (sorted.take numOlderFiles.toNat).all (fun t => f.path != pathJoin dirPath t.name)
        with hq
      have hglob : Glob fs1 dirPath fileGlob = (Glob fs dirPath fileGlob).filter q := by
        have := glob_filter fs q dirPath fileGlob
        rw [← this]
        unfold Glob
        rw [hfiles, hmatch]
      have hlen : (Glob fs1 dirPath fileGlob).length = (sorted.filter q).length := by
        rw [hglob]
        exact ((hperm.filter q).length_eq).symm
      have htake : (sorted.take numOlderFiles.toNat).filter q = [] := by
        rw [List.filter_eq_nil_iff]
        intro t ht
        have htm : t ∈ Glob fs dirPath fileGlob :=
          hperm.subset (List.mem_of_mem_take ht)
        have hdir : t.dir = dirPath :=
          hin t (List.mem_filter.mp htm).1 (List.mem_filter.mp htm).2
        simp only [hq, List.all_eq_true, bne_iff_ne, ne_eq, Bool.not_eq_true, not_forall,
          Classical.not_imp, Decidable.not_not]
        exact ⟨t, ht, by simp [RollFile.path, hdir]⟩
      have hsplit : sorted.filter q =
          (sorted.take numOlderFiles.toNat).filter q ++
            (sorted.drop numOlderFiles.toNat).filter q := by
        rw [← List.filter_append, List.take_append_drop]
      have hdrop : (sorted.filter q).length ≤ sorted.length - numOlderFiles.toNat := by
        rw [hsplit, htake, List.nil_append]
        exact (List.length_filter_le _ _).trans (by simp)
      have hslen : sorted.length = (Glob fs dirPath fileGlob).length := hperm.length_eq
      rw [hlen]
      omega

lemma osCreate_count (env : RollEnv) (dirPath filename : String) (fs : RollFs)
    (dir fileGlob : String) :
    (Glob (osCreate env dirPath filename fs).2 dir fileGlob).length ≤
      (Glob fs dir fileGlob).length + 1 := by
  unfold osCreate
  split
  · exact Nat.le_succ _
  · split
    · simp only
      rw [glob_map_length fs _ dir fileGlob]
      · exact Nat.le_succ _
      · intro f; split <;> rfl
      · intro f; split <;> rfl
    · simp only [Glob, List.filter_append, List.length_append]
      exact Nat.add_le_add_left (List.length_filter_le _ _) _

lemma fprintRoll_count (env : RollEnv) (file : Option OsFile) (s : String) (fs : RollFs)
    (dir fileGlob : String) :
    (Glob (FprintRoll env file s fs) dir fileGlob).length = (Glob fs dir fileGlob).length := by
  unfold FprintRoll
  cases file with
  | none => rfl
  | some h =>
    simp only
    split
    · rfl
    · rw [glob_map_length fs _ dir fileGlob]
      · intro f; split <;> rfl
      · intro f; split <;> rfl

/-- Whatever `createNewRollFile` returns, it leaves at most `numMaxFiles` matching files when
there were at most `numMaxFiles` before. -/
lemma createNewRollFile_count_le (env : RollEnv) (fs : RollFs) (filePrefix dirPath : String)
    (numMaxFiles : Int)
    (hle : ((Glob fs dirPath (filePrefix ++ "*")).length : Int) ≤ numMaxFiles) :
    ((Glob (createNewRollFile env fs filePrefix dirPath numMaxFiles).2 dirPath
      (filePrefix ++ "*")).length : Int) ≤ numMaxFiles := by
  unfold createNewRollFile numFilesMatching
  by_cases hglob : env.globFails = true
  · simp only [hglob, if_true]
    exact hle
  · simp only [hglob, Bool.false_eq_true, if_false]
    split
    · have := glob_sublist_length fs _ dirPath (filePrefix ++ "*")
        (deleteOlderFiles_sublist env fs dirPath (filePrefix ++ "*")
          (((Glob fs dirPath (filePrefix ++ "*")).length : Int) - numMaxFiles + 1))
        (deleteOlderFiles_globMatch env fs dirPath (filePrefix ++ "*")
          (((Glob fs dirPath (filePrefix ++ "*")).length : Int) - numMaxFiles + 1))
      simp only
      omega
    · have := osCreate_count env dirPath (filePrefix ++ timestampSeparator ++
        timestampString env.Now timestampSeparator ++ fileExtension) fs dirPath
        (filePrefix ++ "*")
      unfold createNewFile
      simp only
      omega

/-- When `createNewRollFile` reports no error with `0 < numMaxFiles`, at most `numMaxFiles`
matching files are left, however many there were, provided that the files that the pattern
matches are files of the directory `dirPath`. -/
lemma createNewRollFile_ok_count (env : RollEnv) (fs fs1 : RollFs)
    (filePrefix dirPath : String) (numMaxFiles : Int) (hpos : 0 < numMaxFiles)
    (file : Option OsFile)
    (hin : ∀ f ∈ fs.files, fs.globMatch (pathJoin dirPath (filePrefix ++ "*")) f.path = true →
      f.dir = dirPath)
    (h : createNewRollFile env fs filePrefix dirPath numMaxFiles = ((file, none), fs1)) :
    ((Glob fs1 dirPath (filePrefix ++ "*")).length : Int) ≤ numMaxFiles := by
  unfold createNewRollFile numFilesMatching at h
  by_cases hglob : env.globFails = true
  · simp [hglob] at h
  · simp only [hglob, Bool.false_eq_true, if_false] at h
    split at h
    · rename_i hge
      cases hdel : deleteOlderFiles env fs dirPath (filePrefix ++ "*")
          (((Glob fs dirPath (filePrefix ++ "*")).length : Int) - numMaxFiles + 1) with
      | mk err fs2 =>
        rw [hdel] at h
        simp only [Prod.mk.injEq] at h
        obtain ⟨⟨_, herr⟩, hfs⟩ := h
        subst herr hfs
        have := deleteOlderFiles_count env fs fs2 dirPath (filePrefix ++ "*") _
          (by omega) (by omega) hin hdel
        omega
    · rename_i hlt
      have := osCreate_count env dirPath (filePrefix ++ timestampSeparator ++
        timestampString env.Now timestampSeparator ++ fileExtension) fs dirPath
        (filePrefix ++ "*")
      unfold createNewFile at h
      simp only at h
      rw [h] at this
      simp only at this
      omega

lemma rollFileSinkOnNewStrLog_config (env : RollEnv) (ctx : rollFileSinkCtx)
    (strMessage : String) (fs : RollFs) :
    (rollFileSinkOnNewStrLog env ctx strMessage fs).1.dirPath = ctx.dirPath ∧
    (rollFileSinkOnNewStrLog env ctx strMessage fs).1.filePrefix = ctx.filePrefix ∧
    (rollFileSinkOnNewStrLog env ctx strMessage fs).1.numMaxFiles = ctx.numMaxFiles ∧
    (rollFileSinkOnNewStrLog env ctx strMessage fs).1.maxFileSize = ctx.maxFileSize := by
  unfold rollFileSinkOnNewStrLog
  simp only
  split
  · exact ⟨rfl, rfl, rfl, rfl⟩
  · split <;> exact ⟨rfl, rfl, rfl, rfl⟩

lemma rollFileSinkOnNewStrLog_count_le (env : RollEnv) (ctx : rollFileSinkCtx)
    (strMessage : String) (fs : RollFs)
    (hle : ((Glob fs ctx.dirPath (ctx.filePrefix ++ "*")).length : Int) ≤ ctx.numMaxFiles) :
    ((Glob (rollFileSinkOnNewStrLog env ctx strMessage fs).2 ctx.dirPath
      (ctx.filePrefix ++ "*")).length : Int) ≤ ctx.numMaxFiles := by
  have hcreate := createNewRollFile_count_le env fs ctx.filePrefix ctx.dirPath
    ctx.numMaxFiles hle
  unfold rollFileSinkOnNewStrLog
  simp only
  split
  · rw [fprintRoll_count]
    exact hle
  · split
    · rename_i newFile fs1 heq
      simp only
      rw [fprintRoll_count]
      rw [heq] at hcreate
      exact hcreate
    · rename_i err fs1 heq
      rw [heq] at hcreate
      exact hcreate

lemma rollFileSinkProcess_count_le (inputs : List (RollEnv × String)) (ctx : rollFileSinkCtx)
    (fs : RollFs)
    (hle : ((Glob fs ctx.dirPath (ctx.filePrefix ++ "*")).length : Int) ≤ ctx.numMaxFiles) :
    ((Glob (rollFileSinkProcess inputs ctx fs).2 ctx.dirPath
      (ctx.filePrefix ++ "*")).length : Int) ≤ ctx.numMaxFiles := by
  induction inputs generalizing ctx fs with
  | nil => exact hle
  | cons input rest ih =>
    obtain ⟨env, strLog⟩ := input
    unfold rollFileSinkProcess
    simp only
    obtain ⟨h1, h2, h3, _⟩ := rollFileSinkOnNewStrLog_config env ctx strLog fs
    have hstep := rollFileSinkOnNewStrLog_count_le env ctx strLog fs hle
    have := ih (rollFileSinkOnNewStrLog env ctx strLog fs).1
      (rollFileSinkOnNewStrLog env ctx strLog fs).2 (by rw [h1, h2, h3]; exact hstep)
    rw [h1, h2, h3] at this
    exact this

/-- C15 at a path that is not a directory of `exampleRollFs`: the first alternative holds and
the construction returns an error. -/
theorem C15_roll_sink_construction_witness :
    (exampleRollFs.statDir "/nowhere" = none ∨ exampleRollFs.statDir "/nowhere" = some false ∨
      exampleTrimSpace "roll_file" = "" ∨ (3 : Int) ≤ 0 ∨ (100 : Nat) = 0) ∧
    ∃ err, newRollFileLogMessageSink exampleTrimSpace exampleRollEnv exampleRollFs "/nowhere"
      "roll_file" 3 100 DebugSeverity = ((none, some err), exampleRollFs) :=
  ⟨Or.inl rfl,
    (C15_roll_sink_construction exampleTrimSpace exampleRollEnv exampleRollFs "/nowhere"
      "roll_file" 3 100 DebugSeverity).1 (Or.inl rfl)⟩

/-- C16 fails on a directory that already holds `numMaxFiles` files matching the prefix
(three files, limit 3, no failing call): `createNewRollFile` deletes one file and returns no
file and no error, so the construction succeeds and the returned sink has a nil current
file; no starting file has been created. With the limit 4 on the same directory the other
path of `createNewRollFile` is taken and the sink holds an open new file. -/
theorem C16_construction_without_file :
    (Glob exampleRollFs "/tmp/logs" ("roll_file" ++ "*")).length = 3 ∧
    (newRollFileLogMessageSink exampleTrimSpace exampleRollEnv exampleRollFs "/tmp/logs"
      "roll_file" 3 100 DebugSeverity).1.2 = none ∧
    (newRollFileLogMessageSink exampleTrimSpace exampleRollEnv exampleRollFs "/tmp/logs"
      "roll_file" 3 100 DebugSeverity).1.1.map (fun sink => (sink.currFile, sink.currFileSize))
        = some (none, 0) ∧
    (newRollFileLogMessageSink exampleTrimSpace exampleRollEnv exampleRollFs "/tmp/logs"
      "roll_file" 3 100 DebugSeverity).2.files.map RollFile.name =
        ["roll_file_a.txt", "roll_file_b.txt", "notes.txt"] ∧
    (newRollFileLogMessageSink exampleTrimSpace exampleRollEnv exampleRollFs "/tmp/logs"
      "roll_file" 4 100 DebugSeverity).1.1.map (fun sink => (sink.currFile, sink.currFileSize))
        = some (some { name := "/tmp/logs/roll_file_20200102_030405_006.txt",
                       closed := false }, 0) := by
  decide

lemma toUint64_wrapInt (x : Int) (h0 : 0 ≤ x) (h1 : x < 9223372036854775808) :
    wrapInt x = x ∧ toUint64 (wrapInt x) = x.toNat := by
  have hw : wrapInt x = x := by
    unfold wrapInt
    omega
  refine ⟨hw, ?_⟩
  rw [hw]
  unfold toUint64
  have : x % 18446744073709551616 = x := by omega
  rw [this]

/-- C17: in a worker state whose current file handle is open, with a running size that is
not negative, for a string `s` with `currentSize + len(s) < maxFileSize` (and below the
largest `int`), processing `s` appends `s` to the content of the file that the handle is
open on and changes no other file; the running size grows by exactly `len(s)`; the handle
stays the same open handle (nothing is closed), the other fields are unchanged, and the
files of the file system are the same files under the same names (nothing is created or
deleted). -/
theorem C17_append_within_limit (env : RollEnv) (ctx : rollFileSinkCtx) (s : String)
    (fs : RollFs) (h : OsFile) (hfile : ctx.currFile = some h) (hopen : h.closed = false)
    (hsize : 0 ≤ ctx.currFileSize)
    (hfit : ctx.currFileSize + goLen s < (ctx.maxFileSize : Int))
    (hint : ctx.currFileSize + goLen s < 9223372036854775808) :
    (rollFileSinkOnNewStrLog env ctx s fs).1 =
      { ctx with currFileSize := ctx.currFileSize + goLen s } ∧
    (rollFileSinkOnNewStrLog env ctx s fs).1.currFile = some h ∧
    (rollFileSinkOnNewStrLog env ctx s fs).2.files =
      fs.files.map (fun f =>
        if f.path == h.name then
          { f with content := f.content ++ s,
                   modTime := if goLen s = 0 then f.modTime else env.instant }
        else f) ∧
    (rollFileSinkOnNewStrLog env ctx s fs).2.files.map (fun f => (f.dir, f.name)) =
      fs.files.map (fun f => (f.dir, f.name)) ∧
    (rollFileSinkOnNewStrLog env ctx s fs).2.statDir = fs.statDir := by
  have hlen0 : 0 ≤ goLen s := by unfold goLen; exact Int.natCast_nonneg _
  obtain ⟨hw, hu⟩ := toUint64_wrapInt (ctx.currFileSize + goLen s) (by omega) hint
  have hcond : toUint64 (wrapInt (ctx.currFileSize + goLen s)) < ctx.maxFileSize := by
    rw [hu]
    omega
  have hstep : rollFileSinkOnNewStrLog env ctx s fs =
      ({ ctx with currFileSize := ctx.currFileSize + goLen s },
        FprintRoll env (some h) s fs) := by
    have hcond1 := hcond
    rw [hw] at hcond1
    unfold rollFileSinkOnNewStrLog
    simp only [hfile, Option.isSome_some, Bool.true_and, decide_eq_true_eq, hw, hcond1,
      if_true]
  have hwrite : (FprintRoll env (some h) s fs).files =
      fs.files.map (fun f =>
        if f.path == h.name then
          { f with content := f.content ++ s,
                   modTime := if goLen s = 0 then f.modTime else env.instant }
        else f) := by
    simp [FprintRoll, hopen]
  rw [hstep]
  refine ⟨rfl, hfile, hwrite, ?_, ?_⟩
  · simp only [hwrite, List.map_map]
    apply List.map_congr_left
    intro f _
    simp only [Function.comp]
    split <;> rfl
  · simp [FprintRoll, hopen]

/-- C17 at `exampleRollCtx` (8 bytes written, limit 10) and a string of one byte. -/
theorem C17_append_within_limit_witness :
    exampleRollCtx.currFile = some { name := "/tmp/logs/roll_file_c.txt", closed := false } ∧
    (0 : Int) ≤ exampleRollCtx.currFileSize ∧
    exampleRollCtx.currFileSize + goLen "h" < (exampleRollCtx.maxFileSize : Int) ∧
    (rollFileSinkOnNewStrLog exampleRollEnv exampleRollCtx "h" exampleRollFs).1 =
      { exampleRollCtx with currFileSize := exampleRollCtx.currFileSize + goLen "h" } :=
  ⟨rfl, by decide, by decide,
    (C17_append_within_limit exampleRollEnv exampleRollCtx "h" exampleRollFs
      { name := "/tmp/logs/roll_file_c.txt", closed := false } rfl rfl (by decide)
      (by decide) (by decide)).1⟩

/-- C18 fails when the number of matching files has reached the limit (three files, limit 3,
current file open with 8 of at most 10 bytes, string of 5 bytes, no failing call): the
current file is closed and retention runs, but no new file is created and the string is
written to no file; the current file is nil afterwards and the running size is 5. With the
limit 4 the same call creates a new file, writes the string as its first entry and holds the
new file open. -/
theorem C18_rotation_at_limit_drops_string :
    exampleRollCtx.currFileSize + goLen "hello" ≥ (exampleRollCtx.maxFileSize : Int) ∧
    (rollFileSinkOnNewStrLog exampleRollEnv exampleRollCtx "hello" exampleRollFs).1.currFile =
      none ∧
    (rollFileSinkOnNewStrLog exampleRollEnv exampleRollCtx "hello" exampleRollFs).1.currFileSize
      = 5 ∧
    (rollFileSinkOnNewStrLog exampleRollEnv exampleRollCtx "hello" exampleRollFs).2.files =
      [ { dir := "/tmp/logs", name := "roll_file_a.txt", modTime := 1, content := "first" },
        { dir := "/tmp/logs", name := "roll_file_b.txt", modTime := 2, content := "second" },
        { dir := "/tmp/logs", name := "notes.txt", modTime := 0, content := "" } ] ∧
    (rollFileSinkOnNewStrLog exampleRollEnv { exampleRollCtx with numMaxFiles := 4 } "hello"
      exampleRollFs).1.currFile =
        some { name := "/tmp/logs/roll_file_20200102_030405_006.txt", closed := false } ∧
    (rollFileSinkOnNewStrLog exampleRollEnv { exampleRollCtx with numMaxFiles := 4 } "hello"
      exampleRollFs).2.files.map (fun f => (f.name, f.content)) =
        [("roll_file_a.txt", "first"), ("roll_file_b.txt", "second"),
         ("roll_file_c.txt", "third"), ("notes.txt", ""),
         ("roll_file_20200102_030405_006.txt", "hello")] := by
  decide

/-- C19 fails on three matching files written at the instants 1, 2 and 3 with the limit 3:
the retention deletes one file, as many as said, but it is `roll_file_c.txt`, the file with
the largest modification time; the oldest file `roll_file_a.txt` is kept. The same happens
through `createNewRollFile`. -/
theorem C19_retention_deletes_newest :
    deleteOlderFiles exampleRollEnv exampleRollFs "/tmp/logs" ("roll_file" ++ "*") 1 =
      (none,
        { exampleRollFs with files :=
          [ { dir := "/tmp/logs", name := "roll_file_a.txt", modTime := 1, content := "first" },
            { dir := "/tmp/logs", name := "roll_file_b.txt", modTime := 2,
              content := "second" },
            { dir := "/tmp/logs", name := "notes.txt", modTime := 0, content := "" } ] }) ∧
    (createNewRollFile exampleRollEnv exampleRollFs "roll_file" "/tmp/logs" 3).2.files.map
      (fun f => (f.name, f.modTime)) =
        [("roll_file_a.txt", 1), ("roll_file_b.txt", 2), ("notes.txt", 0)] := by
  constructor
  · rfl
  · decide

/-! ### The rolling-file sink: whole runs of the worker -/

set_option maxRecDepth 100000 in
/-- C21 fails for `numMaxFiles = 2` and a limit of 1 KByte on an empty directory, with two
strings of 1024 bytes, each of which forces a rotation (no failing call): the construction
creates the first file, the first string creates the second file, and the second string
finds two matching files, so that the retention deletes one file (the newer one) and no new
file is created. After the worker has processed both strings and has terminated, one file
matching the prefix is left, not two. -/
theorem C21_one_file_left_after_rotations :
    (newRollFileLogMessageSink exampleTrimSpace exampleRollEnv emptyRollFs "/tmp/logs"
      "roll_file" 2 1 DebugSeverity).1.2 = none ∧
    (newRollFileLogMessageSink exampleTrimSpace exampleRollEnv emptyRollFs "/tmp/logs"
      "roll_file" 2 1 DebugSeverity).1.1.map
        (fun sink => (sink.numMaxFiles, sink.maxFileSize, sink.currFileSize)) =
      some (2, 1024, 0) ∧
    (match newRollFileLogMessageSink exampleTrimSpace exampleRollEnv emptyRollFs "/tmp/logs"
        "roll_file" 2 1 DebugSeverity with
      | ((some sink, _), fs1) =>
        (rollFileSinkProcess [(exampleRollEnv2, stringOfBytes 1024)] sink
          fs1).2.files.map RollFile.name
      | _ => []) =
      ["roll_file_20200102_030405_006.txt", "roll_file_20200102_030406_006.txt"] ∧
    (match newRollFileLogMessageSink exampleTrimSpace exampleRollEnv emptyRollFs "/tmp/logs"
        "roll_file" 2 1 DebugSeverity with
      | ((some sink, _), fs1) =>
        (Glob (rollFileSinkHandler [(exampleRollEnv2, stringOfBytes 1024),
          (exampleRollEnv3, stringOfBytes 1024)] sink fs1).2 "/tmp/logs"
            ("roll_file" ++ "*")).map RollFile.name
      | _ => []) = ["roll_file_20200102_030405_006.txt"] := by
  decide

set_option maxRecDepth 100000 in
/-- C22 fails when the string after the failed rotation fits the limit. A sink built on an
empty directory (limit 1 KByte) processes a string of 1024 bytes while `os.Create` fails:
as the claim says the string is dropped, no file is written and the running size stays 0;
but the current file stays the closed handle. The next string `"h"`, processed while
`os.Create` would succeed (last part), attempts no rotation: it takes the append branch,
is written to the closed handle, that is to no file, no file is created and the running size
becomes 1. -/
theorem C22_no_retry_after_failed_rotation :
    (match newRollFileLogMessageSink exampleTrimSpace exampleRollEnv emptyRollFs "/tmp/logs"
        "roll_file" 3 1 DebugSeverity with
      | ((some sink, _), fs1) =>
        let r1 := rollFileSinkOnNewStrLog exampleRollEnvCreateFails sink (stringOfBytes 1024)
          fs1
        some (sink.currFile, fs1.files, r1.1.currFile, r1.1.currFileSize, r1.2.files)
      | _ => none) =
      some
        (some { name := "/tmp/logs/roll_file_20200102_030405_006.txt", closed := false },
         [{ dir := "/tmp/logs", name := "roll_file_20200102_030405_006.txt", modTime := 100,
            content := "" }],
         some { name := "/tmp/logs/roll_file_20200102_030405_006.txt", closed := true },
         0,
         [{ dir := "/tmp/logs", name := "roll_file_20200102_030405_006.txt", modTime := 100,
            content := "" }]) ∧
    (match newRollFileLogMessageSink exampleTrimSpace exampleRollEnv emptyRollFs "/tmp/logs"
        "roll_file" 3 1 DebugSeverity with
      | ((some sink, _), fs1) =>
        let r1 := rollFileSinkOnNewStrLog exampleRollEnvCreateFails sink (stringOfBytes 1024)
          fs1
        let r2 := rollFileSinkOnNewStrLog exampleRollEnv3 r1.1 "h" r1.2
        some (r2.1.currFile, r2.1.currFileSize, r2.2.files)
      | _ => none) =
      some
        (some { name := "/tmp/logs/roll_file_20200102_030405_006.txt", closed := true },
         1,
         [{ dir := "/tmp/logs", name := "roll_file_20200102_030405_006.txt", modTime := 100,
            content := "" }]) ∧
    (match newRollFileLogMessageSink exampleTrimSpace exampleRollEnv emptyRollFs "/tmp/logs"
        "roll_file" 3 1 DebugSeverity with
      | ((some sink, _), fs1) =>
        (createNewRollFile exampleRollEnv3 fs1 sink.filePrefix sink.dirPath sink.numMaxFiles).1
      | _ => (none, none)) =
      (some { name := "/tmp/logs/roll_file_20200102_030407_006.txt", closed := false },
        none) := by
  decide

set_option maxRecDepth 100000 in
/-- C23 fails for a string that is longer than the limit. A sink built on an empty directory
with `maxFileSize` 1 KByte stores the limit 1024; a string of 1025 bytes forces a rotation
and is written whole as the first entry of the new file: that file holds 1025 bytes and the
running size is 1025, both above the limit of 1024 bytes. -/
theorem C23_long_string_exceeds_limit :
    (match newRollFileLogMessageSink exampleTrimSpace exampleRollEnv emptyRollFs "/tmp/logs"
        "roll_file" 3 1 DebugSeverity with
      | ((some sink, _), fs1) =>
        let r1 := rollFileSinkOnNewStrLog exampleRollEnv2 sink (stringOfBytes 1025) fs1
        some (sink.maxFileSize, r1.1.currFile, r1.1.currFileSize,
          r1.2.files.map (fun f => (f.name, goLen f.content)))
      | _ => none) =
      some
        (1024,
         some { name := "/tmp/logs/roll_file_20200102_030406_006.txt", closed := false },
         1025,
         [("roll_file_20200102_030405_006.txt", 0),
          ("roll_file_20200102_030406_006.txt", 1025)]) := by
  decide

/-! ### The format of a message -/

lemma string_length_eq_zero_iff (s : String) : s.length = 0 ↔ s = "" := by
  cases s with
  | mk cs => simp [String.length, String.ext_iff]

lemma formatLogMessageLoop_eq (timeFormat : TimeFormat) (msg : LogMessage)
    (items : LogFormatItems) (result : String) :
    formatLogMessageLoop timeFormat msg items result =
      result ++ concatStrings (items.map (renderItem timeFormat msg)) := by
  induction items generalizing result with
  | nil => simp [formatLogMessageLoop, concatStrings]
  | cons item rest ih =>
    unfold formatLogMessageLoop
    simp only [List.map_cons, concatStrings]
    rw [ih]
    by_cases hitem : item = LineEndFmt
    · subst hitem
      simp [renderItem, formatItemText, String.append_assoc]
    · have hne : LineEndFmt ≠ item := fun hc => hitem hc.symm
      simp [renderItem, hitem, hne, String.append_assoc]

lemma renderItem_length_pos (timeFormat : TimeFormat) (msg : LogMessage)
    (item : LogFormatItem) : 0 < (renderItem timeFormat msg item).length := by
  unfold renderItem
  split
  · decide
  · rw [String.length_append]
    have : (" " : String).length = 1 := by decide
    omega

lemma concatStrings_ne_empty (timeFormat : TimeFormat) (msg : LogMessage)
    (items : LogFormatItems) (h : items ≠ []) :
    concatStrings (items.map (renderItem timeFormat msg)) ≠ "" := by
  cases items with
  | nil => exact absurd rfl h
  | cons item rest =>
    intro hc
    have hlen := congrArg String.length hc
    simp only [List.map_cons, concatStrings, String.length_append] at hlen
    have := renderItem_length_pos timeFormat msg item
    have h0 : ("" : String).length = 0 := by decide
    omega

/-- C24 as stated fails in its last sentence: under the default log format the formatted
message is not one line followed by a blank line. For `exampleMessage` it is the two lines
`main.go:10 2006-01-02 15:04:05.000 ` and `[DBG] Debug message ` followed by a blank line
(the default log format has a line terminator after the timestamp). -/
theorem C24_counterexample :
    formatLogMessage exampleTimeFormat exampleMessage defaultLogFormat =
      "main.go:10 2006-01-02 15:04:05.000 \n[DBG] Debug message \n\n" ∧
    ¬ ∃ line : String, '\n' ∉ line.data ∧
      formatLogMessage exampleTimeFormat exampleMessage defaultLogFormat =
        line ++ "\n" ++ "\n" := by
  have hval : formatLogMessage exampleTimeFormat exampleMessage defaultLogFormat =
      "main.go:10 2006-01-02 15:04:05.000 \n[DBG] Debug message \n\n" := by decide
  refine ⟨hval, ?_⟩
  rintro ⟨line, hno, heq⟩
  rw [hval] at heq
  have hcount := congrArg (fun s : String => s.data.count '\n') heq
  have hleft : ("main.go:10 2006-01-02 15:04:05.000 \n[DBG] Debug message \n\n" :
      String).data.count '\n' = 3 := by decide
  simp only [hleft, String.data_append, List.count_append,
    List.count_eq_zero_of_not_mem hno] at hcount
  revert hcount
  decide

/-- C24, amended: for every message and every sequence of format items (the nine items and
any other value of the item type, which renders as nothing), `formatLogMessage` returns the
concatenation, in the given order, of what the items contribute, each item its rendering
followed by a single space, the line-terminator item a newline with no space, followed by
one more newline when that concatenation is not empty, which is the case for every sequence
that is not empty; for the empty sequence it returns the empty string. The renderings of
the nine items are the file name, file name and line, function name, line, short and long
timestamp, the severity tag, the text and the newline. In particular a message under the
default print format yields one formatted line plus a trailing blank line, and under the
default log format two formatted lines (file name, line and timestamp; severity tag and
text) plus a trailing blank line. -/
theorem C24_format_log_message (timeFormat : TimeFormat) (msg : LogMessage)
    (items : LogFormatItems) :
    formatLogMessage timeFormat msg items =
      (if concatStrings (items.map (renderItem timeFormat msg)) = "" then ""
       else concatStrings (items.map (renderItem timeFormat msg)) ++ "\n") ∧
    (items ≠ [] → formatLogMessage timeFormat msg items =
      concatStrings (items.map (renderItem timeFormat msg)) ++ "\n") ∧
    formatLogMessage timeFormat msg [] = "" ∧
    (renderItem timeFormat msg FilenameFmt = msg.filename ++ " " ∧
     renderItem timeFormat msg FilenameLineFmt =
       msg.filename ++ ":" ++ toString msg.line ++ " " ∧
     renderItem timeFormat msg FunctNameFmt = msg.funcName ++ " " ∧
     renderItem timeFormat msg LineFmt = toString msg.line ++ " " ∧
     renderItem timeFormat msg ShortTimestampFmt =
       timeFormat msg.timestamp shortTimestampFormat ++ " " ∧
     renderItem timeFormat msg LongTimestampFmt =
       timeFormat msg.timestamp longTimestampFormat ++ " " ∧
     renderItem timeFormat msg SeverityFmt = severityToText msg.severity ++ " " ∧
     renderItem timeFormat msg TextFmt = msg.text ++ " " ∧
     renderItem timeFormat msg LineEndFmt = "\n") ∧
    formatLogMessage timeFormat msg defaultPrintFormat = msg.text ++ " " ++ "\n" ++ "\n" ∧
    formatLogMessage timeFormat msg defaultLogFormat =
      msg.filename ++ ":" ++ toString msg.line ++ " " ++
        timeFormat msg.timestamp shortTimestampFormat ++ " " ++ "\n" ++
        severityToText msg.severity ++ " " ++ msg.text ++ " " ++ "\n" ++ "\n" := by
  have hmain : ∀ its : LogFormatItems, formatLogMessage timeFormat msg its =
      (if concatStrings (its.map (renderItem timeFormat msg)) = "" then ""
       else concatStrings (its.map (renderItem timeFormat msg)) ++ "\n") := by
    intro its
    unfold formatLogMessage
    simp only [formatLogMessageLoop_eq, String.empty_append]
    by_cases hempty : concatStrings (its.map (renderItem timeFormat msg)) = ""
    · simp [hempty]
    · have hpos : (concatStrings (its.map (renderItem timeFormat msg))).length > 0 := by
        have := (string_length_eq_zero_iff _).not.mpr hempty
        omega
      simp [hempty, hpos]
  have hne : ∀ its : LogFormatItems, its ≠ [] → formatLogMessage timeFormat msg its =
      concatStrings (its.map (renderItem timeFormat msg)) ++ "\n" := by
    intro its hits
    rw [hmain its, if_neg (concatStrings_ne_empty timeFormat msg its hits)]
  refine ⟨hmain items, hne items, ?_, ?_, ?_, ?_⟩
  · rw [hmain]
    simp [concatStrings]
  · refine ⟨rfl, rfl, rfl, rfl, rfl, rfl, rfl, rfl, rfl⟩
  · rw [hne defaultPrintFormat (by decide)]
    simp [defaultPrintFormat, concatStrings, renderItem, formatItemText, String.append_assoc]
  · rw [hne defaultLogFormat (by decide)]
    simp [defaultLogFormat, concatStrings, renderItem, formatItemText, String.append_assoc]
    rw [show (" \n" : String) = " " ++ "\n" from by decide, String.append_assoc]

/-! ### The name of a rolling file -/

lemma digitChar_isDigit (n : Nat) (h : n < 10) : (Nat.digitChar n).isDigit = true := by
  interval_cases n <;> decide

lemma toDigitsCore_isDigit (fuel n : Nat) (ds : List Char)
    (hds : ∀ c ∈ ds, c.isDigit = true) :
    ∀ c ∈ Nat.toDigitsCore 10 fuel n ds, c.isDigit = true := by
  induction fuel generalizing n ds with
  | zero => simpa [Nat.toDigitsCore] using hds
  | succ fuel ih =>
    have hd : (Nat.digitChar (n % 10)).isDigit = true :=
      digitChar_isDigit _ (Nat.mod_lt _ (by decide))
    have hcons : ∀ c ∈ Nat.digitChar (n % 10) :: ds, c.isDigit = true := by
      intro c hc
      rcases List.mem_cons.mp hc with rfl | hc
      · exact hd
      · exact hds c hc
    unfold Nat.toDigitsCore
    simp only
    split
    · exact hcons
    · exact ih _ _ hcons

lemma fmtZeroPad_isDigits (width : Nat) (n : Int) (hw : 0 < width) (h0 : 0 ≤ n)
    (hlt : n < 10 ^ width) : IsDigits width (fmtZeroPad width n) := by
  have hnot : ¬ n < 0 := not_lt.mpr h0
  have hnat : n.natAbs < 10 ^ width := by
    have h1 : ((n.natAbs : Nat) : Int) < ((10 ^ width : Nat) : Int) := by
      rw [Int.natAbs_of_nonneg h0]
      push_cast
      exact hlt
    exact_mod_cast h1
  have hrepr : (toString n.natAbs).length ≤ width := Nat.repr_length n.natAbs width hw hnat
  unfold fmtZeroPad IsDigits
  rw [if_neg hnot]
  constructor
  · rw [String.length_append]
    simp only [String.length, List.length_replicate]
    simp only [String.length] at hrepr
    omega
  · intro c hc
    rw [String.data_append] at hc
    rcases List.mem_append.mp hc with hc | hc
    · have := List.eq_of_mem_replicate hc
      subst this
      decide
    · exact toDigitsCore_isDigit _ _ [] (by simp) c hc

lemma isDigits_append (a b : Nat) (s t : String) (hs : IsDigits a s) (ht : IsDigits b t) :
    IsDigits (a + b) (s ++ t) := by
  constructor
  · rw [String.length_append, hs.1, ht.1]
  · intro c hc
    rw [String.data_append] at hc
    rcases List.mem_append.mp hc with hc | hc
    · exact hs.2 c hc
    · exact ht.2 c hc

/-- C25 as stated fails: the file created at 03:04:05.006 on 2020-01-02 with the prefix
`roll_file` is named `roll_file_20200102_030405_006.txt`, with a separator between the
seconds and the milliseconds; this name is not the prefix, a separator, 8 characters, a
separator, 6 characters immediately followed by 3 characters, and the extension. -/
theorem C25_counterexample :
    (createNewFile exampleRollEnv emptyRollFs "/tmp/logs" "roll_file" fileExtension).2.files.map
      RollFile.name = ["roll_file_20200102_030405_006.txt"] ∧
    ¬ ∃ date time ms : String, date.length = 8 ∧ time.length = 6 ∧ ms.length = 3 ∧
      "roll_file_20200102_030405_006.txt" =
        "roll_file" ++ timestampSeparator ++ date ++ timestampSeparator ++ time ++ ms ++
          fileExtension := by
  refine ⟨by decide, ?_⟩
  rintro ⟨date, time, ms, hd, ht, hm, heq⟩
  have hlen := congrArg String.length heq
  simp only [String.length_append, hd, ht, hm] at hlen
  revert hlen
  decide

/-- C25, amended: for every prefix and every creation time with a year in 0..9999, the name
of a newly created rolling file is the prefix, the separator, the 8-digit zero-padded date
YYYYMMDD, the separator, the 6-digit zero-padded time HHMMSS, the separator, the 3-digit
zero-padded milliseconds, and the fixed extension `.txt`; the timestamp part has 19
characters for every such time. -/
theorem C25_roll_file_name (env : RollEnv) (fs : RollFs) (dirPath filePrefix : String)
    (hclock : env.Now.clockReading) :
    ∃ date time ms : String,
      date = fmtZeroPad 4 env.Now.year ++ fmtZeroPad 2 env.Now.month ++
        fmtZeroPad 2 env.Now.day ∧
      time = fmtZeroPad 2 env.Now.hour ++ fmtZeroPad 2 env.Now.minute ++
        fmtZeroPad 2 env.Now.second ∧
      ms = fmtZeroPad 3 (env.Now.nanosecond / 1000000) ∧
      IsDigits 8 date ∧ IsDigits 6 time ∧ IsDigits 3 ms ∧
      timestampString env.Now timestampSeparator =
        date ++ timestampSeparator ++ time ++ timestampSeparator ++ ms ∧
      (timestampString env.Now timestampSeparator).length = 19 ∧
      createNewFile env fs dirPath filePrefix fileExtension =
        osCreate env dirPath
          (filePrefix ++ timestampSeparator ++
            (date ++ timestampSeparator ++ time ++ timestampSeparator ++ ms) ++
            fileExtension) fs ∧
      (env.createFails (pathJoin dirPath
          (filePrefix ++ timestampSeparator ++
            (date ++ timestampSeparator ++ time ++ timestampSeparator ++ ms) ++
            fileExtension)) = false →
        (createNewFile env fs dirPath filePrefix fileExtension).1 =
          (some { name := pathJoin dirPath
                    (filePrefix ++ timestampSeparator ++
                      (date ++ timestampSeparator ++ time ++ timestampSeparator ++ ms) ++
                      fileExtension),
                  closed := false }, none)) := by
  obtain ⟨hy0, hy1, hmo0, hmo1, hd0, hd1, hh0, hh1, hmi0, hmi1, hs0, hs1, hn0, hn1⟩ := hclock
  have hyear := fmtZeroPad_isDigits 4 env.Now.year (by decide) hy0 (by norm_num; omega)
  have hmonth := fmtZeroPad_isDigits 2 env.Now.month (by decide) (by omega)
    (by norm_num; omega)
  have hday := fmtZeroPad_isDigits 2 env.Now.day (by decide) (by omega) (by norm_num; omega)
  have hhour := fmtZeroPad_isDigits 2 env.Now.hour (by decide) hh0 (by norm_num; omega)
  have hminute := fmtZeroPad_isDigits 2 env.Now.minute (by decide) hmi0 (by norm_num; omega)
  have hsecond := fmtZeroPad_isDigits 2 env.Now.second (by decide) hs0 (by norm_num; omega)
  have hms := fmtZeroPad_isDigits 3 (env.Now.nanosecond / 1000000) (by decide) (by omega)
    (by norm_num; omega)
  have hdate := isDigits_append _ _ _ _ (isDigits_append _ _ _ _ hyear hmonth) hday
  have htime := isDigits_append _ _ _ _ (isDigits_append _ _ _ _ hhour hminute) hsecond
  have htdiv : Int.tdiv env.Now.nanosecond 1000000 = env.Now.nanosecond / 1000000 :=
    Int.tdiv_eq_ediv hn0 (by decide)
  have hts : timestampString env.Now timestampSeparator =
      fmtZeroPad 4 env.Now.year ++ fmtZeroPad 2 env.Now.month ++ fmtZeroPad 2 env.Now.day ++
        timestampSeparator ++
        (fmtZeroPad 2 env.Now.hour ++ fmtZeroPad 2 env.Now.minute ++
          fmtZeroPad 2 env.Now.second) ++
        timestampSeparator ++ fmtZeroPad 3 (env.Now.nanosecond / 1000000) := by
    unfold timestampString
    rw [htdiv]
    simp only [String.append_assoc]
  refine ⟨_, _, _, rfl, rfl, rfl, hdate, htime, hms, hts, ?_, ?_, ?_⟩
  · rw [hts]
    simp only [String.length_append, hdate.1, htime.1, hms.1]
    decide
  · unfold createNewFile
    simp only [hts]
  · intro hcreate
    unfold createNewFile
    simp only [hts]
    unfold osCreate
    rw [hcreate]
    simp only [Bool.false_eq_true, if_false]
    split <;> rfl

/-- C25 (amended) at the time of `exampleRollEnv`. -/
theorem C25_roll_file_name_witness :
    exampleRollEnv.Now.clockReading ∧
    (timestampString exampleRollEnv.Now timestampSeparator).length = 19 :=
  have hclock : exampleRollEnv.Now.clockReading := by
    unfold Time.clockReading
    decide
  ⟨hclock,
    let ⟨_, _, _, _, _, _, _, _, _, _, hlen, _⟩ :=
      C25_roll_file_name exampleRollEnv emptyRollFs "/tmp/logs" "roll_file" hclock
    hlen⟩

/-! ### The byte limit stored by the constructor -/

lemma newRollFileLogMessageSink_maxFileSize (TrimSpace : String → String) (env : RollEnv)
    (fs fs1 : RollFs) (dirPath filePrefix : String) (numMaxFiles : Int) (maxFileSize : Nat)
    (threshold : LogSeverity) (sink : rollFileSinkCtx)
    (h : newRollFileLogMessageSink TrimSpace env fs dirPath filePrefix numMaxFiles maxFileSize
      threshold = ((some sink, none), fs1)) :
    0 < maxFileSize ∧
    sink.maxFileSize = (maxFileSize * kBytesToBytes) % 18446744073709551616 := by
  unfold newRollFileLogMessageSink at h
  cases hstat : fs.statDir dirPath with
  | none => simp [hstat] at h
  | some isDir =>
    by_cases hdir : (!isDir) = true
    · simp [hstat, hdir] at h
    · by_cases hprefix : goLen (TrimSpace filePrefix) ≤ 0
      · simp [hstat, hdir, hprefix] at h
      · by_cases hnum : numMaxFiles ≤ 0
        · simp [hstat, hdir, hprefix, hnum] at h
        · by_cases hsize : maxFileSize ≤ 0
          · simp [hstat, hdir, hprefix, hnum, hsize] at h
          · simp only [hstat, hdir, hprefix, hnum, hsize, if_false] at h
            refine ⟨by omega, ?_⟩
            split at h
            · rename_i hf
              exact absurd hf (by decide)
            · split at h
              · simp at h
              · simp only [Prod.mk.injEq, Option.some.injEq, and_true] at h
                rw [← h.1]

/-- C27 as stated fails: 2^54 KBytes passes the validation (it is greater than zero and fits
an unsigned 64-bit integer) and the construction succeeds, but the stored byte limit is 0,
which is neither greater than zero nor the product 2^54 * 1024. -/
theorem C27_counterexample :
    (0 : Nat) < 18014398509481984 ∧ 18014398509481984 < 18446744073709551616 ∧
    (newRollFileLogMessageSink exampleTrimSpace exampleRollEnv emptyRollFs "/tmp/logs"
        "roll_file" 2 18014398509481984 DebugSeverity).1.2 = none ∧
    (newRollFileLogMessageSink exampleTrimSpace exampleRollEnv emptyRollFs "/tmp/logs"
        "roll_file" 2 18014398509481984 DebugSeverity).1.1.map
      (fun sink => sink.maxFileSize) = some 0 ∧
    ¬ ∀ (maxFileSize : Nat) (sink : rollFileSinkCtx) (fs1 : RollFs),
      0 < maxFileSize → maxFileSize < 18446744073709551616 →
      newRollFileLogMessageSink exampleTrimSpace exampleRollEnv emptyRollFs "/tmp/logs"
        "roll_file" 2 maxFileSize DebugSeverity = ((some sink, none), fs1) →
      0 < sink.maxFileSize ∧ sink.maxFileSize = maxFileSize * 1024 := by
  refine ⟨by decide, by decide, by decide, by decide, ?_⟩
  intro hall
  have hrun : ∃ sink fs1,
      newRollFileLogMessageSink exampleTrimSpace exampleRollEnv emptyRollFs "/tmp/logs"
        "roll_file" 2 18014398509481984 DebugSeverity = ((some sink, none), fs1) ∧
      sink.maxFileSize = 0 := ⟨_, _, rfl, by decide⟩
  obtain ⟨sink, fs1, hnew, hzero⟩ := hrun
  have h := (hall 18014398509481984 sink fs1 (by decide) (by decide) hnew).1
  omega

/-- C27, amended: when the construction succeeds, maxFileSize is greater than zero and the
stored byte limit is maxFileSize * 1024 reduced modulo 2^64; for a maxFileSize below 2^54
KBytes the stored limit is greater than zero and equals the product maxFileSize * 1024, and
for a maxFileSize that fits 64 bits the stored limit equals the product only below 2^54. -/
theorem C27_stored_byte_limit (TrimSpace : String → String) (env : RollEnv)
    (fs fs1 : RollFs) (dirPath filePrefix : String) (numMaxFiles : Int) (maxFileSize : Nat)
    (threshold : LogSeverity) (sink : rollFileSinkCtx)
    (h : newRollFileLogMessageSink TrimSpace env fs dirPath filePrefix numMaxFiles maxFileSize
      threshold = ((some sink, none), fs1)) :
    0 < maxFileSize ∧
    sink.maxFileSize = (maxFileSize * 1024) % 18446744073709551616 ∧
    (maxFileSize < 18014398509481984 →
      0 < sink.maxFileSize ∧ sink.maxFileSize = maxFileSize * 1024) ∧
    (sink.maxFileSize = maxFileSize * 1024 ↔ maxFileSize < 18014398509481984) := by
  obtain ⟨hpos, hstored⟩ := newRollFileLogMessageSink_maxFileSize TrimSpace env fs fs1 dirPath
    filePrefix numMaxFiles maxFileSize threshold sink h
  have hk : kBytesToBytes = 1024 := rfl
  rw [hk] at hstored
  refine ⟨hpos, hstored, ?_, ?_⟩
  · intro hlt
    omega
  · constructor
    · intro heq
      omega
    · intro hlt
      omega

/-- C27 (amended) at 100 KBytes on an empty directory: the stored limit is 102400 bytes. -/
theorem C27_stored_byte_limit_witness :
    ∃ sink fs1,
      newRollFileLogMessageSink exampleTrimSpace exampleRollEnv emptyRollFs "/tmp/logs"
        "roll_file" 2 100 DebugSeverity = ((some sink, none), fs1) ∧
      sink.maxFileSize = 102400 :=
  ⟨_, _, rfl,
    ((C27_stored_byte_limit exampleTrimSpace exampleRollEnv emptyRollFs _ "/tmp/logs"
      "roll_file" 2 100 DebugSeverity _ rfl).2.2.1 (by decide)).2⟩

/-! ### No sink is terminated twice -/

lemma terminatedPtrs_append (a b : List Call) :
    terminatedPtrs (a ++ b) = terminatedPtrs a ++ terminatedPtrs b := by
  induction a with
  | nil => rfl
  | cons c rest ih => cases c <;> simp [terminatedPtrs, ih]

lemma terminatedPtrs_map_terminate (sinks : List SinkPtr) :
    terminatedPtrs (sinks.map Call.terminate) = sinks := by
  induction sinks with
  | nil => rfl
  | cons sink rest ih => simp [terminatedPtrs, ih]

lemma terminatedPtrs_onLogMessage (sinks : List SinkPtr) (pending : List LogMessage) :
    terminatedPtrs
      (pending.map (fun m => sinks.map (fun sink => Call.OnLogMessage sink m))).flatten =
        [] := by
  induction pending with
  | nil => rfl
  | cons m rest ih =>
    have hinner : ∀ targets : List SinkPtr,
        terminatedPtrs (targets.map (fun sink => Call.OnLogMessage sink m)) = [] := by
      intro targets
      induction targets with
      | nil => rfl
      | cons t ts iht => simp [terminatedPtrs, iht]
    simp [terminatedPtrs_append, hinner, ih]

lemma count_terminate (calls : List Call) (p : SinkPtr) :
    calls.count (Call.terminate p) = (terminatedPtrs calls).count p := by
  induction calls with
  | nil => rfl
  | cons c rest ih =>
    cases c with
    | terminate sink =>
      by_cases hp : sink = p
      · subst hp
        simp [terminatedPtrs, ih]
      · have hne : Call.terminate sink ≠ Call.terminate p := by
          intro hc
          exact hp (Call.terminate.inj hc)
        simp [terminatedPtrs, List.count_cons, ih, hp, hne]
    | OnLogMessage sink msg => simp [terminatedPtrs, List.count_cons, ih]
    | SetSeverity sink threshold => simp [terminatedPtrs, List.count_cons, ih]
    | setSinkFormat sink messageType format => simp [terminatedPtrs, List.count_cons, ih]

lemma setSinkFormat_calls (sink : SinkPtr) (messageType : MessageType)
    (format : LogFormatItems) (w : World) :
    (LogMessageSink.setSinkFormat sink messageType format w).1.calls =
      w.calls ++ [Call.setSinkFormat sink messageType format] := by
  unfold LogMessageSink.setSinkFormat
  cases w.heap sink <;> rfl

lemma registeredPtrs_cons (request : Request) (rest : List Request) :
    registeredPtrs (request :: rest) = registeredPtrs [request] ++ registeredPtrs rest := by
  cases request <;> rfl

lemma handleRequest_terminated (request : Request) (ctx : ctxMessageDispatcher) (w : World)
    (h : Terminable ctx.sinks w)
    (hnew : ∀ p ∈ registeredPtrs [request],
      p ∉ ctx.sinks ∧ ∀ r, w.heap p = .rollFile r → r.chReqTerminate = false) :
    ∃ reply ctx1 w1 added, handleRequest request ctx w = some (reply, ctx1, w1) ∧
      Terminable ctx1.sinks w1 ∧
      w1.calls = w.calls ++ added ∧
      terminatedPtrs added ++ ctx1.sinks = ctx.sinks ++ registeredPtrs [request] ∧
      (∀ q, q ∉ ctx.sinks → ∀ r1, w1.heap q = .rollFile r1 →
        ∃ r, w.heap q = .rollFile r ∧ r.chReqTerminate = r1.chReqTerminate) := by
  cases request with
  | reqMessageSinkType messageSink =>
    obtain ⟨h1, h2⟩ := hnew messageSink (by simp [registeredPtrs])
    exact ⟨_, _, _, [], rfl, terminable_append ctx.sinks w messageSink h h1 h2, by simp,
      by simp [terminatedPtrs, registeredPtrs], fun q _ r1 hr1 => ⟨r1, hr1, rfl⟩⟩
  | reqMessageSinkThresholdType sinkId threshold =>
    cases hf : sinkWithId sinkId ctx.sinks 0 with
    | none =>
      exact ⟨.replyMessageSinkThresholdType false, ctx, w, [], by simp [handleRequest, hf], h,
        by simp, by simp [terminatedPtrs, registeredPtrs], fun q _ r1 hr1 => ⟨r1, hr1, rfl⟩⟩
    | some sink =>
      exact ⟨.replyMessageSinkThresholdType true, ctx,
        LogMessageSink.SetSeverity sink threshold w, [Call.SetSeverity sink threshold],
        by simp [handleRequest, hf],
        terminable_of_heap _ _ _ h (setSeverity_keeps sink threshold w),
        (setSeverity_spec sink threshold w).2.2.2.2.2,
        by simp [terminatedPtrs, registeredPtrs],
        fun q _ r1 hr1 => setSeverity_keeps sink threshold w q r1 hr1⟩
  | reqClearSinksType =>
    obtain ⟨w1, ht, hc, hh, _⟩ := terminateSinks_spec ctx.sinks w h
    refine ⟨.replyClearSinksType true, { sinks := [] }, w1, ctx.sinks.map Call.terminate,
      by simp [handleRequest, ht], terminable_nil w1, hc,
      by simp [terminatedPtrs_map_terminate, registeredPtrs], ?_⟩
    intro q hq r1 hr1
    rw [hh q hq] at hr1
    exact ⟨r1, hr1, rfl⟩
  | reqSetSinkFormatType sinkId messageType formatItems =>
    cases hf : sinkWithId sinkId ctx.sinks 0 with
    | none =>
      exact ⟨.replySetSinkFormatType false, ctx, w, [], by simp [handleRequest, hf], h,
        by simp, by simp [terminatedPtrs, registeredPtrs], fun q _ r1 hr1 => ⟨r1, hr1, rfl⟩⟩
    | some sink =>
      exact ⟨.replySetSinkFormatType
          (LogMessageSink.setSinkFormat sink messageType formatItems w).2, ctx,
        (LogMessageSink.setSinkFormat sink messageType formatItems w).1,
        [Call.setSinkFormat sink messageType formatItems],
        by simp [handleRequest, hf],
        terminable_of_heap _ _ _ h (setSinkFormat_keeps sink messageType formatItems w),
        setSinkFormat_calls sink messageType formatItems w,
        by simp [terminatedPtrs, registeredPtrs],
        fun q _ r1 hr1 => setSinkFormat_keeps sink messageType formatItems w q r1 hr1⟩
  | other =>
    exact ⟨.replyType false, ctx, w, [], by simp [handleRequest], h, by simp,
      by simp [terminatedPtrs, registeredPtrs], fun q _ r1 hr1 => ⟨r1, hr1, rfl⟩⟩

lemma handleRequests_terminated (rs : List Request) (ctx : ctxMessageDispatcher) (w : World)
    (h : Terminable ctx.sinks w) (hnodup : (registeredPtrs rs).Nodup)
    (hfresh : ∀ p ∈ registeredPtrs rs,
      p ∉ ctx.sinks ∧ ∀ r, w.heap p = .rollFile r → r.chReqTerminate = false) :
    ∃ replies ctx1 w1 added, handleRequests rs ctx w = some (replies, ctx1, w1) ∧
      Terminable ctx1.sinks w1 ∧
      w1.calls = w.calls ++ added ∧
      terminatedPtrs added ++ ctx1.sinks = ctx.sinks ++ registeredPtrs rs := by
  induction rs generalizing ctx w with
  | nil => exact ⟨[], ctx, w, [], rfl, h, by simp, by simp [terminatedPtrs, registeredPtrs]⟩
  | cons request rest ih =>
    rw [registeredPtrs_cons] at hnodup hfresh
    have hnew : ∀ p ∈ registeredPtrs [request],
        p ∉ ctx.sinks ∧ ∀ r, w.heap p = .rollFile r → r.chReqTerminate = false :=
      fun p hp => hfresh p (List.mem_append_left _ hp)
    obtain ⟨reply, ctxa, wa, addeda, hra, hta, hca, hpa, hfa⟩ :=
      handleRequest_terminated request ctx w h hnew
    have hfresh1 : ∀ p ∈ registeredPtrs rest,
        p ∉ ctxa.sinks ∧ ∀ r, wa.heap p = .rollFile r → r.chReqTerminate = false := by
      intro p hp
      obtain ⟨hp1, hp2⟩ := hfresh p (List.mem_append_right _ hp)
      constructor
      · intro hin
        have hmem : p ∈ terminatedPtrs addeda ++ ctxa.sinks := List.mem_append_right _ hin
        rw [hpa] at hmem
        rcases List.mem_append.mp hmem with hm | hm
        · exact hp1 hm
        · exact (List.disjoint_of_nodup_append hnodup) hm hp
      · intro r1 hr1
        obtain ⟨r, hr, heq⟩ := hfa p hp1 r1 hr1
        rw [← heq]
        exact hp2 r hr
    obtain ⟨replies, ctx1, w1, added, hr1, ht1, hc1, hp1⟩ :=
      ih ctxa wa hta (List.Nodup.of_append_right hnodup) hfresh1
    refine ⟨reply :: replies, ctx1, w1, addeda ++ added, ?_, ht1, ?_, ?_⟩
    · simp [handleRequests, hra, hr1]
    · rw [hc1, hca, List.append_assoc]
    · rw [registeredPtrs_cons, terminatedPtrs_append, List.append_assoc, hp1,
        ← List.append_assoc, hpa, List.append_assoc]

/-- C26: take a dispatcher state whose registered sinks are pairwise distinct objects, the
rolling-file ones not terminated, and whose reply channel is open, and any sequence of
requests (register, set-threshold, set-format, clear-all, or a value of another type) in
which every register-sink request brings a sink object of its own (distinct from the others
and from the registered ones, not terminated if it is a rolling-file sink), which is what the
`Add...Sink` functions do. Then every request is served, the terminate signal that follows is
served, and among the calls made from the start to the end of the shutdown the calls of
`terminate` are exactly one for each sink registered at the start or by the requests, in
registration order: `terminate` is called at most once on every sink. The sinks still in the
list at shutdown are exactly those on which the requests have not called `terminate`. A
second `terminate` on a rolling-file sink would panic. -/
theorem C26_terminate_at_most_once (timeFormat : TimeFormat) (s : DispatcherState)
    (rs : List Request)
    (hrep : s.context.chReplyTerminate = false)
    (hlive : Terminable s.ctx.sinks s.world)
    (hdistinct : (s.ctx.sinks ++ registeredPtrs rs).Nodup)
    (hfresh : ∀ p ∈ registeredPtrs rs, ∀ r, s.world.heap p = .rollFile r →
      r.chReqTerminate = false) :
    ∃ replies ctx1 w1 s2 added1 added2,
      handleRequests rs s.ctx s.world = some (replies, ctx1, w1) ∧
      messageDispatcherOnTerminate timeFormat
        { context := { s.context with chReqTerminate := true }, ctx := ctx1,
          isTerminate := false, world := w1 } = some s2 ∧
      w1.calls = s.world.calls ++ added1 ∧
      s2.world.calls = s.world.calls ++ added1 ++ added2 ∧
      terminatedPtrs (added1 ++ added2) = s.ctx.sinks ++ registeredPtrs rs ∧
      (∀ p, (added1 ++ added2).count (Call.terminate p) ≤ 1) ∧
      (∀ p, p ∈ s.ctx.sinks ++ registeredPtrs rs →
        (added1 ++ added2).count (Call.terminate p) = 1) ∧
      (∀ p, p ∈ ctx1.sinks → Call.terminate p ∉ added1) ∧
      (∀ p, Call.terminate p ∈ added1 → p ∉ ctx1.sinks) ∧
      (∀ sink w w1 r, w.heap sink = .rollFile r → LogMessageSink.terminate sink w = some w1 →
        LogMessageSink.terminate sink w1 = none) := by
  have hfresh1 : ∀ p ∈ registeredPtrs rs,
      p ∉ s.ctx.sinks ∧ ∀ r, s.world.heap p = .rollFile r → r.chReqTerminate = false :=
    fun p hp => ⟨fun hin => (List.disjoint_of_nodup_append hdistinct) hin hp, hfresh p hp⟩
  obtain ⟨replies, ctx1, w1, added1, hrun, hterm1, hcalls1, hptrs1⟩ :=
    handleRequests_terminated rs s.ctx s.world hlive (List.Nodup.of_append_right hdistinct)
      hfresh1
  obtain ⟨w2, _, hshut, hcalls2⟩ := messageDispatcherOnTerminate_spec timeFormat
    { context := { s.context with chReqTerminate := true }, ctx := ctx1,
      isTerminate := false, world := w1 } rfl hrep hterm1
  have hflush := flushPendingMessages_calls timeFormat ctx1.sinks s.context.chLogMessages w1
  have hptrs : terminatedPtrs (added1 ++
      ((s.context.chLogMessages.map
          (fun m => ctx1.sinks.map (fun sink => Call.OnLogMessage sink m))).flatten ++
        ctx1.sinks.map Call.terminate)) = s.ctx.sinks ++ registeredPtrs rs := by
    rw [terminatedPtrs_append, terminatedPtrs_append, terminatedPtrs_onLogMessage,
      terminatedPtrs_map_terminate, List.nil_append, hptrs1]
  have hnodup1 : (terminatedPtrs added1 ++ ctx1.sinks).Nodup := by
    rw [hptrs1]
    exact hdistinct
  refine ⟨replies, ctx1, w1, _, added1,
    (s.context.chLogMessages.map
        (fun m => ctx1.sinks.map (fun sink => Call.OnLogMessage sink m))).flatten ++
      ctx1.sinks.map Call.terminate,
    hrun, hshut, hcalls1, ?_, hptrs, ?_, ?_, ?_, ?_, ?_⟩
  · show w2.calls = _
    rw [hcalls2]
    show (flushPendingMessages timeFormat ctx1.sinks s.context.chLogMessages w1).calls ++ _ = _
    rw [hflush, hcalls1]
    simp [List.append_assoc]
  · intro p
    rw [count_terminate, hptrs]
    exact List.nodup_iff_count_le_one.mp hdistinct p
  · intro p hp
    rw [count_terminate, hptrs]
    exact List.count_eq_one_of_mem hdistinct hp
  · intro p hp hcall
    have h1 : 0 < added1.count (Call.terminate p) := List.count_pos_iff.mpr hcall
    rw [count_terminate] at h1
    exact (List.disjoint_of_nodup_append hnodup1) (List.count_pos_iff.mp h1) hp
  · intro p hcall hp
    have h1 : 0 < added1.count (Call.terminate p) := List.count_pos_iff.mpr hcall
    rw [count_terminate] at h1
    exact (List.disjoint_of_nodup_append hnodup1) (List.count_pos_iff.mp h1) hp
  · intro sink w w1 r hr hfirst
    unfold LogMessageSink.terminate at hfirst
    rw [hr] at hfirst
    cases hc : r.chReqTerminate with
    | true => simp [rollFileLogMessageSink.terminate, hc] at hfirst
    | false =>
      simp [rollFileLogMessageSink.terminate, hc] at hfirst
      subst hfirst
      simp [LogMessageSink.terminate, rollFileLogMessageSink.terminate]

/-- C26 from the state set up by `init` on `exampleWorld` with the requests of
`exampleRequests`: `terminate` is called once on each of the four registered sinks. -/
theorem C26_terminate_at_most_once_witness :
    (initDispatcher exampleWorld).context.chReplyTerminate = false ∧
    Terminable (initDispatcher exampleWorld).ctx.sinks (initDispatcher exampleWorld).world ∧
    ((initDispatcher exampleWorld).ctx.sinks ++ registeredPtrs exampleRequests).Nodup ∧
    (∀ p ∈ registeredPtrs exampleRequests, ∀ r,
      (initDispatcher exampleWorld).world.heap p = .rollFile r → r.chReqTerminate = false) ∧
    ∃ replies ctx1 w1 s2 added1 added2,
      handleRequests exampleRequests (initDispatcher exampleWorld).ctx
        (initDispatcher exampleWorld).world = some (replies, ctx1, w1) ∧
      messageDispatcherOnTerminate exampleTimeFormat
        { context := { (initDispatcher exampleWorld).context with chReqTerminate := true },
          ctx := ctx1, isTerminate := false, world := w1 } = some s2 ∧
      s2.world.calls = (initDispatcher exampleWorld).world.calls ++ added1 ++ added2 ∧
      terminatedPtrs (added1 ++ added2) = [0, 2, 1, 3] ∧
      ∀ p, (added1 ++ added2).count (Call.terminate p) ≤ 1 := by
  have hfresh : ∀ p ∈ registeredPtrs exampleRequests, ∀ r,
      (initDispatcher exampleWorld).world.heap p = .rollFile r → r.chReqTerminate = false := by
    intro p hp r hr
    simp only [exampleRequests, registeredPtrs, List.mem_cons, List.mem_singleton,
      List.not_mem_nil, or_false] at hp
    rcases hp with rfl | rfl | rfl | rfl
    · simp [initDispatcher, exampleWorld] at hr
    · simp [initDispatcher, exampleWorld] at hr
      subst hr
      rfl
    · simp [initDispatcher, exampleWorld] at hr
    · simp [initDispatcher, exampleWorld] at hr
  obtain ⟨replies, ctx1, w1, s2, added1, added2, h1, h2, _, h4, h5, h6, _⟩ :=
    C26_terminate_at_most_once exampleTimeFormat (initDispatcher exampleWorld) exampleRequests
      rfl (terminable_nil _) (by decide) hfresh
  exact ⟨rfl, terminable_nil _, by decide, hfresh,
    replies, ctx1, w1, s2, added1, added2, h1, h2, h4, h5, h6⟩

/-! ### The bound on the number of files and the pattern characters -/

set_option maxRecDepth 100000 in
/-- C20 fails for a directory whose name holds pattern characters. A sink is built with
`numMaxFiles` 1 and a limit of 1 KByte on the empty directory `/tmp/logs[1]` with the prefix
`roll_file`, and processes two strings of 1024 bytes, each of which forces a rotation (no
failing call). The pattern `/tmp/logs[1]/roll_file*` that the code hands to `filepath.Glob`
designates files of a directory `/tmp/logs1`, not the files of the sink, so that every
count finds no file and every `createNewRollFile` creates a file and completes without
error: after the construction, after the first and after the second string the directory
holds 1, 2 and 3 files whose name begins with the prefix, above `numMaxFiles`. Counting with
the pattern, the bound fails as well: when `/tmp/logs1` holds two matching files and
`/tmp/logs[1]` files of the same names, `createNewRollFile` completes without error, having
removed the files of `/tmp/logs[1]`, and two files still match the pattern. -/
theorem C20_pattern_characters_break_bound :
    (newRollFileLogMessageSink exampleTrimSpace exampleRollEnv bracketRollFs "/tmp/logs[1]"
      "roll_file" 1 1 DebugSeverity).1.2 = none ∧
    (match newRollFileLogMessageSink exampleTrimSpace exampleRollEnv bracketRollFs
        "/tmp/logs[1]" "roll_file" 1 1 DebugSeverity with
      | ((some sink, _), fs1) =>
        let r1 := rollFileSinkOnNewStrLog exampleRollEnv2 sink (stringOfBytes 1024) fs1
        let r2 := rollFileSinkOnNewStrLog exampleRollEnv3 r1.1 (stringOfBytes 1024) r1.2
        some (sink.numMaxFiles, sink.currFile, r1.1.currFile, r2.1.currFile)
      | _ => none) =
      some (1,
        some { name := "/tmp/logs[1]/roll_file_20200102_030405_006.txt", closed := false },
        some { name := "/tmp/logs[1]/roll_file_20200102_030406_006.txt", closed := false },
        some { name := "/tmp/logs[1]/roll_file_20200102_030407_006.txt", closed := false }) ∧
    (match newRollFileLogMessageSink exampleTrimSpace exampleRollEnv bracketRollFs
        "/tmp/logs[1]" "roll_file" 1 1 DebugSeverity with
      | ((some sink, _), fs1) =>
        let r1 := rollFileSinkOnNewStrLog exampleRollEnv2 sink (stringOfBytes 1024) fs1
        let r2 := rollFileSinkOnNewStrLog exampleRollEnv3 r1.1 (stringOfBytes 1024) r1.2
        some ((filesWithPrefix fs1 "/tmp/logs[1]" "roll_file").length,
          (filesWithPrefix r1.2 "/tmp/logs[1]" "roll_file").length,
          (filesWithPrefix r2.2 "/tmp/logs[1]" "roll_file").map RollFile.name,
          (Glob r2.2 "/tmp/logs[1]" ("roll_file" ++ "*")).length)
      | _ => none) =
      some (1, 2,
        ["roll_file_20200102_030405_006.txt", "roll_file_20200102_030406_006.txt",
         "roll_file_20200102_030407_006.txt"],
        0) ∧
    (createNewRollFile exampleRollEnv twoDirsRollFs "roll_file" "/tmp/logs[1]" 1).1 =
      (none, none) ∧
    (createNewRollFile exampleRollEnv twoDirsRollFs "roll_file" "/tmp/logs[1]" 1).2.files.map
      RollFile.path = ["/tmp/logs1/roll_file_a.txt", "/tmp/logs1/roll_file_b.txt"] ∧
    (Glob (createNewRollFile exampleRollEnv twoDirsRollFs "roll_file" "/tmp/logs[1]" 1).2
      "/tmp/logs[1]" ("roll_file" ++ "*")).length = 2 := by
  decide

end Dmlog
